import Mathlib

/-!
# ISA DMA channel controller of the extended Legacy I/O DXE driver

A shallow embedding of `LegacyIoDxeEx/LegacyIoDxeEx.c` and `LegacyIoProtocol.h`.

* Machine integers are natural numbers; every C cast `(UINT8)`, `(UINT16)`, `(UINT32)` is an
  explicit `% 2^w`, and the `int` arithmetic produced by the usual arithmetic conversions is
  kept in 32-bit two's complement.
* The protocol instance `This` is passed explicitly and returned with the status.
* Port accesses made through `IoRead8` / `IoWrite8` are recorded, in program order, in a trace.
-/

namespace LegacyIoDxeEx

/-! ## Status codes and data model (`LegacyIoProtocol.h`) -/

/-- The `EFI_STATUS` values returned by the driver. -/
inductive EFI_STATUS where
  | EFI_SUCCESS
  | EFI_INVALID_PARAMETER
  | EFI_NOT_READY
  | EFI_OUT_OF_RESOURCES
  | EFI_UNSUPPORTED
  | EFI_DEVICE_ERROR
  deriving DecidableEq, Repr

open EFI_STATUS

/-- The structure `LEGACY_DMA_BUFFER`. `Buffer` is the value of the `VOID *` memory pointer
(`0` is `NULL`), `PhysicalAddress` is the 64-bit `EFI_PHYSICAL_ADDRESS`. -/
structure LEGACY_DMA_BUFFER where
  Buffer : Nat
  Length : Nat
  IsPhysical : Bool
  PhysicalAddress : Nat
  deriving DecidableEq, Repr

/-- The structure `LEGACY_DMA_CHANNEL`: `Channel`, `Mode` are `UINT8`, `Count` is `UINT16`,
`Address` is `EFI_PHYSICAL_ADDRESS`. -/
structure LEGACY_DMA_CHANNEL where
  Channel : Nat
  Mode : Nat
  Count : Nat
  Address : Nat
  IsActive : Bool
  deriving DecidableEq, Repr

/-- The data part of `struct _LEGACY_IO_PROTOCOL_EX`: the managed port range and the
eight-entry table `DmaChannels[8]`. -/
structure LEGACY_IO_PROTOCOL_EX where
  IoRangeStart : Nat
  IoRangeEnd : Nat
  DmaChannels : Fin 8 → LEGACY_DMA_CHANNEL

/-- One access to an I/O port made through `IoLib`, of 8, 16 or 32 bits. -/
inductive IoAccess where
  | IoRead8 (Port : Nat) (Value : Nat)
  | IoWrite8 (Port : Nat) (Value : Nat)
  | IoRead16 (Port : Nat) (Value : Nat)
  | IoWrite16 (Port : Nat) (Value : Nat)
  | IoRead32 (Port : Nat) (Value : Nat)
  | IoWrite32 (Port : Nat) (Value : Nat)
  deriving DecidableEq, Repr

open IoAccess

/-- What a protocol call leaves behind: the returned status, the protocol instance after the
call and the port accesses the call performed, oldest first. -/
structure DMA_RESULT where
  Status : EFI_STATUS
  This : LEGACY_IO_PROTOCOL_EX
  Trace : List IoAccess

/-! ## Port definitions (`LegacyIoDxeEx.c`, lines 17-65) -/

def DMA_ADDR_PORT0 : Nat := 0x00
def DMA_ADDR_PORT1 : Nat := 0x02
def DMA_ADDR_PORT2 : Nat := 0x04
def DMA_ADDR_PORT3 : Nat := 0x06
def DMA_ADDR_PORT4 : Nat := 0xC0
def DMA_ADDR_PORT5 : Nat := 0xC4
def DMA_ADDR_PORT6 : Nat := 0xC8
def DMA_ADDR_PORT7 : Nat := 0xCC

def DMA_COUNT_PORT0 : Nat := 0x01
def DMA_COUNT_PORT1 : Nat := 0x03
def DMA_COUNT_PORT2 : Nat := 0x05
def DMA_COUNT_PORT3 : Nat := 0x07
def DMA_COUNT_PORT4 : Nat := 0xC2
def DMA_COUNT_PORT5 : Nat := 0xC6
def DMA_COUNT_PORT6 : Nat := 0xCA
def DMA_COUNT_PORT7 : Nat := 0xCE

def DMA_PAGE_PORT0 : Nat := 0x87
def DMA_PAGE_PORT1 : Nat := 0x83
def DMA_PAGE_PORT2 : Nat := 0x81
def DMA_PAGE_PORT3 : Nat := 0x82
def DMA_PAGE_PORT4 : Nat := 0x8F
def DMA_PAGE_PORT5 : Nat := 0x8B
def DMA_PAGE_PORT6 : Nat := 0x89
def DMA_PAGE_PORT7 : Nat := 0x8A

def DMA_CMD_PORT0 : Nat := 0x08
def DMA_CMD_PORT1 : Nat := 0xD0
def DMA_STAT_PORT0 : Nat := 0x08
def DMA_STAT_PORT1 : Nat := 0xD0
def DMA_MASK_PORT0 : Nat := 0x0A
def DMA_MASK_PORT1 : Nat := 0xD4
def DMA_MODE_PORT0 : Nat := 0x0B
def DMA_MODE_PORT1 : Nat := 0xD6
def DMA_CLEAR_PORT0 : Nat := 0x0C
def DMA_CLEAR_PORT1 : Nat := 0xD8

def DMA_MODE_DEMAND : Nat := 0x00
def DMA_MODE_SINGLE : Nat := 0x40
def DMA_MODE_BLOCK : Nat := 0x80
def DMA_MODE_CASCADE : Nat := 0xC0

def DMA_MODE_VERIFY : Nat := 0x00
def DMA_MODE_WRITE : Nat := 0x04
def DMA_MODE_READ : Nat := 0x08
def DMA_MODE_AUTO : Nat := 0x10

/-- The eight `OUT UINT16 *` parameters of `GetDmaPorts`, gathered in one record. -/
structure DMA_PORTS where
  AddrPort : Nat
  CountPort : Nat
  PagePort : Nat
  CmdPort : Nat
  MaskPort : Nat
  ModePort : Nat
  ClearPort : Nat
  StatPort : Nat
  deriving DecidableEq, Repr

/-- The all-zero channel record left by `{0}` and by `ZeroMem`. -/
def zeroChannel : LEGACY_DMA_CHANNEL :=
  { Channel := 0, Mode := 0, Count := 0, Address := 0, IsActive := false }

/-- The global `mLegacyIoProtocolEx`: port range `0x0000 .. 0x00FF`, channel table zeroed. -/
def mLegacyIoProtocolEx : LEGACY_IO_PROTOCOL_EX :=
  { IoRangeStart := 0x0000, IoRangeEnd := 0x00FF, DmaChannels := fun _ => zeroChannel }

/-! ## `GetDmaPorts` (lines 292-374) -/

/-- The function `GetDmaPorts`: bank-shared ports chosen by `Channel >= 4`, then the
channel-specific address / count / page ports by the `switch`, `0` in its `default` branch. -/
def GetDmaPorts (Channel : Nat) : DMA_PORTS :=
  let Is16BitChannel : Bool := decide (Channel ≥ 4)
  let CmdPort := if Is16BitChannel then DMA_CMD_PORT1 else DMA_CMD_PORT0
  let StatPort := if Is16BitChannel then DMA_STAT_PORT1 else DMA_STAT_PORT0
  let MaskPort := if Is16BitChannel then DMA_MASK_PORT1 else DMA_MASK_PORT0
  let ModePort := if Is16BitChannel then DMA_MODE_PORT1 else DMA_MODE_PORT0
  let ClearPort := if Is16BitChannel then DMA_CLEAR_PORT1 else DMA_CLEAR_PORT0
  match Channel with
  | 0 => ⟨DMA_ADDR_PORT0, DMA_COUNT_PORT0, DMA_PAGE_PORT0, CmdPort, MaskPort, ModePort, ClearPort, StatPort⟩
  | 1 => ⟨DMA_ADDR_PORT1, DMA_COUNT_PORT1, DMA_PAGE_PORT1, CmdPort, MaskPort, ModePort, ClearPort, StatPort⟩
  | 2 => ⟨DMA_ADDR_PORT2, DMA_COUNT_PORT2, DMA_PAGE_PORT2, CmdPort, MaskPort, ModePort, ClearPort, StatPort⟩
  | 3 => ⟨DMA_ADDR_PORT3, DMA_COUNT_PORT3, DMA_PAGE_PORT3, CmdPort, MaskPort, ModePort, ClearPort, StatPort⟩
  | 4 => ⟨DMA_ADDR_PORT4, DMA_COUNT_PORT4, DMA_PAGE_PORT4, CmdPort, MaskPort, ModePort, ClearPort, StatPort⟩
  | 5 => ⟨DMA_ADDR_PORT5, DMA_COUNT_PORT5, DMA_PAGE_PORT5, CmdPort, MaskPort, ModePort, ClearPort, StatPort⟩
  | 6 => ⟨DMA_ADDR_PORT6, DMA_COUNT_PORT6, DMA_PAGE_PORT6, CmdPort, MaskPort, ModePort, ClearPort, StatPort⟩
  | 7 => ⟨DMA_ADDR_PORT7, DMA_COUNT_PORT7, DMA_PAGE_PORT7, CmdPort, MaskPort, ModePort, ClearPort, StatPort⟩
  | _ => ⟨0, 0, 0, CmdPort, MaskPort, ModePort, ClearPort, StatPort⟩

/-! ## `LegacyDmaProgramChannel` (lines 390-501) -/

/-- The C expression `x - 1` on an `int` operand obtained by promoting an unsigned 16-bit
value `x`: 32-bit two's complement, so `0 - 1` is `0xFFFFFFFF`. Only bits 0..15 of the result
are used afterwards, so an arithmetic and a logical `>> 8` give the same bytes. -/
def intSubOne (x : Nat) : Nat := (x + 0xFFFFFFFF) % 0x100000000

/-- The function `LegacyDmaProgramChannel`. `DmaBuffer = none` is the `NULL` structure pointer.
`Channel`, `Mode` are `UINT8` arguments and `Count` a `UINT16` argument. -/
def LegacyDmaProgramChannel (This : LEGACY_IO_PROTOCOL_EX) (Channel Mode : Nat)
    (DmaBuffer : Option LEGACY_DMA_BUFFER) (Count : Nat) (AutoInitialize : Bool) : DMA_RESULT :=
  -- Check parameters
  if h : Channel > 7 then ⟨EFI_INVALID_PARAMETER, This, []⟩ else
  match DmaBuffer with
  | none => ⟨EFI_INVALID_PARAMETER, This, []⟩
  | some Buf =>
  if Buf.Buffer = 0 ∨ Count = 0 then ⟨EFI_INVALID_PARAMETER, This, []⟩ else
  let Ports := GetDmaPorts Channel
  let Is16BitChannel : Bool := decide (Channel ≥ 4)
  -- 16-bit DMA counts in words: `Count = Count & ~0x1` on an odd count
  let Count1 : Nat :=
    if Is16BitChannel then
      (if Count % 2 ≠ 0 then (Count &&& 0xFFFFFFFE) % 0x10000 else Count)
    else Count
  let TransferCount : Nat := if Is16BitChannel then Count1 / 2 else Count1
  let PhysicalAddr : Nat := Buf.PhysicalAddress % 0x100000000
  if Is16BitChannel = true ∧ PhysicalAddr &&& 0x1 ≠ 0 then ⟨EFI_INVALID_PARAMETER, This, []⟩ else
  if PhysicalAddr > 0xFFFFFF then ⟨EFI_INVALID_PARAMETER, This, []⟩ else
  -- Prepare the DMA mode value
  let DmaMode0 : Nat := (Channel &&& 0x03) % 0x100
  let DmaMode1 : Nat := DmaMode0 ||| ((Mode &&& 0x0C) % 0x100)
  let DmaMode2 : Nat := DmaMode1 ||| DMA_MODE_SINGLE
  let DmaMode : Nat := if AutoInitialize then DmaMode2 ||| DMA_MODE_AUTO else DmaMode2
  let Page : Nat := ((PhysicalAddr >>> 16) &&& 0xFF) % 0x100
  let Trace : List IoAccess :=
    [ IoWrite8 Ports.MaskPort ((0x04 ||| (Channel &&& 0x03)) % 0x100),
      IoWrite8 Ports.ClearPort 0xFF,
      IoWrite8 Ports.ModePort DmaMode,
      IoWrite8 Ports.AddrPort ((PhysicalAddr &&& 0xFF) % 0x100),
      IoWrite8 Ports.AddrPort (((PhysicalAddr >>> 8) &&& 0xFF) % 0x100),
      IoWrite8 Ports.PagePort Page,
      IoWrite8 Ports.CountPort ((intSubOne TransferCount &&& 0xFF) % 0x100),
      IoWrite8 Ports.CountPort (((intSubOne TransferCount >>> 8) &&& 0xFF) % 0x100) ]
  -- Store the DMA channel information
  let Rec : LEGACY_DMA_CHANNEL :=
    { Channel := Channel, Mode := DmaMode, Count := Count1, Address := PhysicalAddr,
      IsActive := false }
  ⟨EFI_SUCCESS, { This with DmaChannels := Function.update This.DmaChannels ⟨Channel, by omega⟩ Rec },
    Trace⟩

/-! ## `LegacyDmaStart` (lines 513-552) -/

/-- The function `LegacyDmaStart`. -/
def LegacyDmaStart (This : LEGACY_IO_PROTOCOL_EX) (Channel : Nat) : DMA_RESULT :=
  if h : Channel > 7 then ⟨EFI_INVALID_PARAMETER, This, []⟩ else
  let Idx : Fin 8 := ⟨Channel, by omega⟩
  -- Verify this channel has been programmed
  if (This.DmaChannels Idx).Count = 0 then ⟨EFI_NOT_READY, This, []⟩ else
  let Ports := GetDmaPorts Channel
  ⟨EFI_SUCCESS,
    { This with DmaChannels :=
        Function.update This.DmaChannels Idx { This.DmaChannels Idx with IsActive := true } },
    [IoWrite8 Ports.MaskPort ((Channel &&& 0x03) % 0x100)]⟩


/-! ## `LegacyDmaStatus` (lines 565-628) -/

/-- What `LegacyDmaStatus` leaves behind: the returned status, the protocol instance after the
call, the port accesses performed, and the contents of the two `OUT` locations
`*BytesRemaining` and `*IsActive` (`none` is a `NULL` pointer). -/
structure DMA_STATUS_RESULT where
  Status : EFI_STATUS
  This : LEGACY_IO_PROTOCOL_EX
  Trace : List IoAccess
  BytesRemaining : Option Nat
  IsActive : Option Bool

/-- The function `LegacyDmaStatus`. `BytesRemaining` and `IsActive` are the two output
locations with their contents before the call. `StatRead`, `CountRead0`, `CountRead1` are the
values the hardware returns to the three `IoRead8` calls, in program order; `IoRead8` returns
a `UINT8`. -/
def LegacyDmaStatus (This : LEGACY_IO_PROTOCOL_EX) (Channel : Nat)
    (BytesRemaining : Option Nat) (IsActive : Option Bool)
    (StatRead CountRead0 CountRead1 : Nat) : DMA_STATUS_RESULT :=
  -- Check parameters
  if h : Channel > 7 then ⟨EFI_INVALID_PARAMETER, This, [], BytesRemaining, IsActive⟩ else
  if BytesRemaining = none ∨ IsActive = none then
    ⟨EFI_INVALID_PARAMETER, This, [], BytesRemaining, IsActive⟩ else
  let Idx : Fin 8 := ⟨Channel, by omega⟩
  let Ports := GetDmaPorts Channel
  let ChannelBit : Nat := (1 <<< (Channel &&& 0x03)) % 0x100
  let Is16BitChannel : Bool := decide (Channel ≥ 4)
  -- Read the status register
  let Status : Nat := StatRead % 0x100
  -- Read the current count, low byte then high byte
  let Low : Nat := CountRead0 % 0x100
  let High : Nat := CountRead1 % 0x100
  let Count0 : Nat := Low
  let Count1 : Nat := (Count0 ||| ((High <<< 8) % 0x10000)) % 0x10000
  -- `Count++`
  let Count2 : Nat := (Count1 + 1) % 0x10000
  -- `Count *= 2` on a 16-bit channel
  let Count3 : Nat := if Is16BitChannel then (Count2 * 2) % 0x10000 else Count2
  let Active : Bool := decide (Status &&& ChannelBit = 0)
  ⟨EFI_SUCCESS,
    { This with DmaChannels :=
        Function.update This.DmaChannels Idx { This.DmaChannels Idx with IsActive := Active } },
    [ IoRead8 Ports.StatPort Status,
      IoWrite8 Ports.ClearPort 0xFF,
      IoRead8 Ports.CountPort Low,
      IoRead8 Ports.CountPort High ],
    some Count3, some Active⟩

/-! ## `LegacyDmaStop` (lines 639-672) -/

/-- The function `LegacyDmaStop`. -/
def LegacyDmaStop (This : LEGACY_IO_PROTOCOL_EX) (Channel : Nat) : DMA_RESULT :=
  if h : Channel > 7 then ⟨EFI_INVALID_PARAMETER, This, []⟩ else
  let Idx : Fin 8 := ⟨Channel, by omega⟩
  let Ports := GetDmaPorts Channel
  ⟨EFI_SUCCESS,
    { This with DmaChannels :=
        Function.update This.DmaChannels Idx { This.DmaChannels Idx with IsActive := false } },
    [IoWrite8 Ports.MaskPort ((0x04 ||| (Channel &&& 0x03)) % 0x100)]⟩

/-! ## Sequences of channel operations -/

/-- One call of the four channel operations, with its arguments and, for `LegacyDmaStatus`,
the values returned by its port reads. -/
inductive DMA_CALL where
  | Program (Channel Mode : Nat) (DmaBuffer : Option LEGACY_DMA_BUFFER) (Count : Nat)
      (AutoInitialize : Bool)
  | Start (Channel : Nat)
  | Status (Channel : Nat) (BytesRemaining : Option Nat) (IsActive : Option Bool)
      (StatRead CountRead0 CountRead1 : Nat)
  | Stop (Channel : Nat)

/-- The protocol instance after one call. -/
def DMA_CALL.run (This : LEGACY_IO_PROTOCOL_EX) : DMA_CALL → LEGACY_IO_PROTOCOL_EX
  | .Program Channel Mode DmaBuffer Count AutoInitialize =>
      (LegacyDmaProgramChannel This Channel Mode DmaBuffer Count AutoInitialize).This
  | .Start Channel => (LegacyDmaStart This Channel).This
  | .Status Channel BytesRemaining IsActive StatRead CountRead0 CountRead1 =>
      (LegacyDmaStatus This Channel BytesRemaining IsActive StatRead CountRead0 CountRead1).This
  | .Stop Channel => (LegacyDmaStop This Channel).This

/-- The protocol instance after a finite sequence of calls, first call first. -/
def runCalls (This : LEGACY_IO_PROTOCOL_EX) (Calls : List DMA_CALL) : LEGACY_IO_PROTOCOL_EX :=
  Calls.foldl DMA_CALL.run This

/-! ## `LegacyDmaAllocateBuffer` (lines 197-244) -/

/-- The macro `EFI_ERROR` of the UEFI headers on the statuses above: every status but
`EFI_SUCCESS` is an error code. -/
def EFI_ERROR (Status : EFI_STATUS) : Bool := decide (Status ≠ EFI_SUCCESS)

/-- One call into the boot services or the memory library made by the buffer functions.
`AllocatePool Size Status Buffer` is a call `gBS->AllocatePool (EfiBootServicesData, Size,
&Buffer)` that returned `Status` and stored `Buffer`. -/
inductive MemCall where
  | AllocatePool (Size : Nat) (Status : EFI_STATUS) (Buffer : Nat)
  | FreePool (Buffer : Nat)
  | ZeroMem (Buffer : Nat) (Length : Nat)
  deriving DecidableEq, Repr

/-- The regions a sequence of calls acquired: the buffers of its successful `AllocatePool`
calls, in order. -/
def acquiredRegions : List MemCall → List Nat
  | [] => []
  | .AllocatePool _ Status Buffer :: Rest =>
      if EFI_ERROR Status then acquiredRegions Rest else Buffer :: acquiredRegions Rest
  | _ :: Rest => acquiredRegions Rest

/-- The regions a sequence of calls released: the arguments of its `FreePool` calls, in
order. -/
def releasedRegions : List MemCall → List Nat
  | [] => []
  | .FreePool Buffer :: Rest => Buffer :: releasedRegions Rest
  | _ :: Rest => releasedRegions Rest

/-- What a buffer function leaves behind: the returned status, the contents of the caller's
`LEGACY_DMA_BUFFER` structure (`none` is a `NULL` pointer) and the service calls made. -/
structure DMA_BUFFER_RESULT where
  Status : EFI_STATUS
  DmaBuffer : Option LEGACY_DMA_BUFFER
  Calls : List MemCall

/-- The function `LegacyDmaAllocateBuffer`. `AllocatePool Size` is what the boot service
returns for a request of `Size` bytes: its status and the pointer it stores. `DmaBuffer` is the
caller's output structure with its contents before the call. The parameter `This` is unused by
the C function. -/
def LegacyDmaAllocateBuffer (AllocatePool : Nat → EFI_STATUS × Nat) (Size : Nat)
    (DmaBuffer : Option LEGACY_DMA_BUFFER) : DMA_BUFFER_RESULT :=
  -- Check parameters
  match DmaBuffer with
  | none => ⟨EFI_INVALID_PARAMETER, none, []⟩
  | some Out =>
  if Size = 0 then ⟨EFI_INVALID_PARAMETER, some Out, []⟩ else
  let Status : EFI_STATUS := (AllocatePool Size).1
  let Buffer : Nat := (AllocatePool Size).2
  if EFI_ERROR Status then ⟨Status, some Out, [MemCall.AllocatePool Size Status Buffer]⟩ else
  -- Get the physical address
  let PhysicalAddress : Nat := Buffer
  -- Ensure the buffer is below 16MB
  if PhysicalAddress > 0xFFFFFF then
    ⟨EFI_OUT_OF_RESOURCES, some Out,
      [MemCall.AllocatePool Size Status Buffer, MemCall.FreePool Buffer]⟩ else
  ⟨EFI_SUCCESS,
    some { Buffer := Buffer, Length := Size, IsPhysical := true,
           PhysicalAddress := PhysicalAddress },
    [MemCall.AllocatePool Size Status Buffer, MemCall.ZeroMem Buffer Size]⟩

/-! ## `LegacyDmaFreeBuffer` (lines 255-277) -/

/-- The function `LegacyDmaFreeBuffer`. `DmaBuffer` is the caller's structure with its contents
before the call (`none` is a `NULL` pointer). The parameter `This` is unused by the C
function. -/
def LegacyDmaFreeBuffer (DmaBuffer : Option LEGACY_DMA_BUFFER) : DMA_BUFFER_RESULT :=
  -- Check parameters
  match DmaBuffer with
  | none => ⟨EFI_INVALID_PARAMETER, none, []⟩
  | some Buf =>
  if Buf.Buffer = 0 then ⟨EFI_INVALID_PARAMETER, some Buf, []⟩ else
  -- Free the buffer, then clear the DMA buffer structure
  ⟨EFI_SUCCESS,
    some { Buffer := 0, Length := 0, IsPhysical := false, PhysicalAddress := 0 },
    [MemCall.FreePool Buf.Buffer]⟩

/-! ## `LegacyIoRead` and `LegacyIoWrite` (lines 94-184) -/

/-- The data part of `struct _LEGACY_IO_PROTOCOL`, declared with the same fields by the
`LegacyIoProtocol.h` of both drivers: the managed port range. -/
structure LEGACY_IO_PROTOCOL where
  IoRangeStart : Nat
  IoRangeEnd : Nat
  deriving DecidableEq, Repr

/-- The extended protocol instance seen through a `LEGACY_IO_PROTOCOL *`, as it is installed
under `gLegacyIoProtocolGuid`. -/
def LEGACY_IO_PROTOCOL_EX.toProtocol (This : LEGACY_IO_PROTOCOL_EX) : LEGACY_IO_PROTOCOL :=
  { IoRangeStart := This.IoRangeStart, IoRangeEnd := This.IoRangeEnd }

/-- The port an access addresses. -/
def IoAccess.Port : IoAccess → Nat
  | .IoRead8 Port _ => Port
  | .IoWrite8 Port _ => Port
  | .IoRead16 Port _ => Port
  | .IoWrite16 Port _ => Port
  | .IoRead32 Port _ => Port
  | .IoWrite32 Port _ => Port

/-- The number of bytes an access transfers. -/
def IoAccess.Width : IoAccess → Nat
  | .IoRead8 _ _ => 1
  | .IoWrite8 _ _ => 1
  | .IoRead16 _ _ => 2
  | .IoWrite16 _ _ => 2
  | .IoRead32 _ _ => 4
  | .IoWrite32 _ _ => 4

/-- The value an access read or wrote. -/
def IoAccess.Value : IoAccess → Nat
  | .IoRead8 _ Value => Value
  | .IoWrite8 _ Value => Value
  | .IoRead16 _ Value => Value
  | .IoWrite16 _ Value => Value
  | .IoRead32 _ Value => Value
  | .IoWrite32 _ Value => Value

/-- Whether an access is a read. -/
def IoAccess.isRead : IoAccess → Bool
  | .IoRead8 _ _ => true
  | .IoRead16 _ _ => true
  | .IoRead32 _ _ => true
  | _ => false

/-- What `LegacyIoRead` and `LegacyIoWrite` leave behind: the returned status, the contents of
the memory `Data` points to (`none` is a `NULL` pointer) and the port accesses performed.

The memory at `Data` is the little-endian number formed by the bytes at `Data`, `Data + 1`,
... (the byte order of every processor the UEFI specification supports): the byte at `Data` is
`% 0x100`, the `UINT16` at `Data` is `% 0x10000`, the `UINT32` at `Data` is `% 0x100000000`,
and the bytes of the caller's object beyond the first `Width` are the quotient by
`2 ^ (8 * Width)`. -/
structure PORT_ACCESS_RESULT where
  Status : EFI_STATUS
  Data : Option Nat
  Trace : List IoAccess
  deriving DecidableEq, Repr

/-- The function `LegacyIoRead` of the extended driver. `Data` is the memory the `VOID *`
points to, with its contents before the call; `ReadValue` is what the hardware returns to the
`IoRead8`, `IoRead16` or `IoRead32` call, which yields a `UINT8`, `UINT16` or `UINT32`. The
store goes through the pointer cast to `UINT8 *`, `UINT16 *` or `UINT32 *`: it replaces the
first `Width` bytes at `Data` and leaves the bytes after them as they were. -/
def LegacyIoRead (This : LEGACY_IO_PROTOCOL) (Port Width : Nat) (Data : Option Nat)
    (ReadValue : Nat) : PORT_ACCESS_RESULT :=
  -- Check if the port is within our managed range
  if Port < This.IoRangeStart ∨ Port > This.IoRangeEnd then
    ⟨EFI_INVALID_PARAMETER, Data, []⟩ else
  -- Check parameters
  match Data with
  | none => ⟨EFI_INVALID_PARAMETER, none, []⟩
  | some Old =>
  -- Perform the I/O read based on width
  match Width with
  | 1 =>
    -- `*(UINT8 *)Data = IoRead8 (Port)`
    ⟨EFI_SUCCESS, some (Old / 0x100 * 0x100 + ReadValue % 0x100),
      [IoRead8 Port (ReadValue % 0x100)]⟩
  | 2 =>
    -- `*(UINT16 *)Data = IoRead16 (Port)`
    ⟨EFI_SUCCESS, some (Old / 0x10000 * 0x10000 + ReadValue % 0x10000),
      [IoRead16 Port (ReadValue % 0x10000)]⟩
  | 4 =>
    -- `*(UINT32 *)Data = IoRead32 (Port)`
    ⟨EFI_SUCCESS, some (Old / 0x100000000 * 0x100000000 + ReadValue % 0x100000000),
      [IoRead32 Port (ReadValue % 0x100000000)]⟩
  | _ => ⟨EFI_INVALID_PARAMETER, some Old, []⟩

/-- The function `LegacyIoWrite` of the extended driver. `Data` is the memory the `VOID *`
points to; the access sends the `UINT8`, `UINT16` or `UINT32` loaded through the cast pointer,
the first 1, 2 or 4 bytes at `Data`, and the memory is not written. -/
def LegacyIoWrite (This : LEGACY_IO_PROTOCOL) (Port Width : Nat) (Data : Option Nat) :
    PORT_ACCESS_RESULT :=
  -- Check if the port is within our managed range
  if Port < This.IoRangeStart ∨ Port > This.IoRangeEnd then
    ⟨EFI_INVALID_PARAMETER, Data, []⟩ else
  -- Check parameters
  match Data with
  | none => ⟨EFI_INVALID_PARAMETER, none, []⟩
  | some Old =>
  -- Perform the I/O write based on width
  match Width with
  | 1 => ⟨EFI_SUCCESS, some Old, [IoWrite8 Port (Old % 0x100)]⟩
  | 2 => ⟨EFI_SUCCESS, some Old, [IoWrite16 Port (Old % 0x10000)]⟩
  | 4 => ⟨EFI_SUCCESS, some Old, [IoWrite32 Port (Old % 0x100000000)]⟩
  | _ => ⟨EFI_INVALID_PARAMETER, some Old, []⟩

/-! ## The original driver, `LegacyIoDxe/LegacyIoDxe.c` -/

/-- The global `mLegacyIoProtocol` of the original driver: port range `0x0000 .. 0x00FF`. -/
def LegacyIoDxe.mLegacyIoProtocol : LEGACY_IO_PROTOCOL :=
  { IoRangeStart := 0x0000, IoRangeEnd := 0x00FF }

/-- The function `LegacyIoRead` of the original driver (lines 34-71); the stores of lines 58-64
go through the cast pointer as in the extended driver. -/
def LegacyIoDxe.LegacyIoRead (This : LEGACY_IO_PROTOCOL) (Port Width : Nat)
    (Data : Option Nat) (ReadValue : Nat) : PORT_ACCESS_RESULT :=
  -- Check if the port is within our managed range
  if Port < This.IoRangeStart ∨ Port > This.IoRangeEnd then
    ⟨EFI_INVALID_PARAMETER, Data, []⟩ else
  -- Check parameters
  match Data with
  | none => ⟨EFI_INVALID_PARAMETER, none, []⟩
  | some Old =>
  -- Perform the I/O read based on width
  match Width with
  | 1 =>
    -- `*(UINT8 *)Data = IoRead8 (Port)`
    ⟨EFI_SUCCESS, some (Old / 0x100 * 0x100 + ReadValue % 0x100),
      [IoRead8 Port (ReadValue % 0x100)]⟩
  | 2 =>
    -- `*(UINT16 *)Data = IoRead16 (Port)`
    ⟨EFI_SUCCESS, some (Old / 0x10000 * 0x10000 + ReadValue % 0x10000),
      [IoRead16 Port (ReadValue % 0x10000)]⟩
  | 4 =>
    -- `*(UINT32 *)Data = IoRead32 (Port)`
    ⟨EFI_SUCCESS, some (Old / 0x100000000 * 0x100000000 + ReadValue % 0x100000000),
      [IoRead32 Port (ReadValue % 0x100000000)]⟩
  | _ => ⟨EFI_INVALID_PARAMETER, some Old, []⟩

/-- The function `LegacyIoWrite` of the original driver (lines 85-122). -/
def LegacyIoDxe.LegacyIoWrite (This : LEGACY_IO_PROTOCOL) (Port Width : Nat)
    (Data : Option Nat) : PORT_ACCESS_RESULT :=
  -- Check if the port is within our managed range
  if Port < This.IoRangeStart ∨ Port > This.IoRangeEnd then
    ⟨EFI_INVALID_PARAMETER, Data, []⟩ else
  -- Check parameters
  match Data with
  | none => ⟨EFI_INVALID_PARAMETER, none, []⟩
  | some Old =>
  -- Perform the I/O write based on width
  match Width with
  | 1 => ⟨EFI_SUCCESS, some Old, [IoWrite8 Port (Old % 0x100)]⟩
  | 2 => ⟨EFI_SUCCESS, some Old, [IoWrite16 Port (Old % 0x10000)]⟩
  | 4 => ⟨EFI_SUCCESS, some Old, [IoWrite32 Port (Old % 0x100000000)]⟩
  | _ => ⟨EFI_INVALID_PARAMETER, some Old, []⟩

/-! ## Uses of the channel number by the four channel operations -/

/-- The eight ports `GetDmaPorts` yields, as a list. -/
def DMA_PORTS.all (Ports : DMA_PORTS) : List Nat :=
  [ Ports.AddrPort, Ports.CountPort, Ports.PagePort, Ports.CmdPort, Ports.MaskPort,
    Ports.ModePort, Ports.ClearPort, Ports.StatPort ]

/-- One use of a channel number as a table key: a call `GetDmaPorts (Channel, ...)` or an
index expression `This->DmaChannels[Index]`. -/
inductive ChannelUse where
  | GetDmaPorts (Channel : Nat)
  | DmaChannels (Index : Nat)
  deriving DecidableEq, Repr

/-- The channel number a use is made with. -/
def ChannelUse.Channel : ChannelUse → Nat
  | .GetDmaPorts Channel => Channel
  | .DmaChannels Index => Index

/-- The state of a run of a channel operation that keeps account of its table accesses: the
protocol instance, the uses of a channel number made so far, oldest first, and whether an
index expression `This->DmaChannels[Index]` has been evaluated with an index outside the
eight elements of the array, which C leaves undefined. -/
structure CHECKED_STATE where
  This : LEGACY_IO_PROTOCOL_EX
  Uses : List ChannelUse
  Fault : Bool

/-- What a run that keeps account of its table accesses leaves behind: the result of the
operation, the uses it made and whether it left the `DmaChannels` array. -/
structure CHECKED (α : Type) where
  Result : α
  Uses : List ChannelUse
  Fault : Bool

/-- The call `GetDmaPorts (Channel, &AddrPort, ...)`: the ports it yields, and the call put on
record with the channel number it was made with. -/
def callGetDmaPorts (S : CHECKED_STATE) (Channel : Nat) : DMA_PORTS × CHECKED_STATE :=
  (GetDmaPorts Channel, { S with Uses := S.Uses ++ [ChannelUse.GetDmaPorts Channel] })

/-- A load from `This->DmaChannels[Index]`, put on record with the index it was made with. The
index is the plain integer of the C expression; outside `0 .. 7` there is no such element and
the run is marked as having left the array. -/
def loadDmaChannels (S : CHECKED_STATE) (Index : Nat) : LEGACY_DMA_CHANNEL × CHECKED_STATE :=
  if h : Index < 8 then
    (S.This.DmaChannels ⟨Index, h⟩,
      { S with Uses := S.Uses ++ [ChannelUse.DmaChannels Index] })
  else
    (zeroChannel, { S with Uses := S.Uses ++ [ChannelUse.DmaChannels Index], Fault := true })

/-- A store to one field of `This->DmaChannels[Index]`, put on record with the index it was
made with; `Store` sets the field in the element. Outside `0 .. 7` there is no such element
and the run is marked as having left the array. -/
def storeDmaChannels (S : CHECKED_STATE) (Index : Nat)
    (Store : LEGACY_DMA_CHANNEL → LEGACY_DMA_CHANNEL) : CHECKED_STATE :=
  if h : Index < 8 then
    { S with
      This :=
        { S.This with
          DmaChannels :=
            Function.update S.This.DmaChannels ⟨Index, h⟩ (Store (S.This.DmaChannels ⟨Index, h⟩)) },
      Uses := S.Uses ++ [ChannelUse.DmaChannels Index] }
  else
    { S with Uses := S.Uses ++ [ChannelUse.DmaChannels Index], Fault := true }

/-- The function `LegacyDmaProgramChannel` (lines 390-501) with its table accesses on record:
the `GetDmaPorts` call of line 420 and the five field stores of lines 491-495, each made with
the expression the source passes. -/
def LegacyDmaProgramChannelChecked (This : LEGACY_IO_PROTOCOL_EX) (Channel Mode : Nat)
    (DmaBuffer : Option LEGACY_DMA_BUFFER) (Count : Nat) (AutoInitialize : Bool) :
    CHECKED DMA_RESULT :=
  let S0 : CHECKED_STATE := ⟨This, [], false⟩
  -- Check parameters
  if Channel > 7 then ⟨⟨EFI_INVALID_PARAMETER, S0.This, []⟩, S0.Uses, S0.Fault⟩ else
  match DmaBuffer with
  | none => ⟨⟨EFI_INVALID_PARAMETER, S0.This, []⟩, S0.Uses, S0.Fault⟩
  | some Buf =>
  if Buf.Buffer = 0 ∨ Count = 0 then ⟨⟨EFI_INVALID_PARAMETER, S0.This, []⟩, S0.Uses, S0.Fault⟩
  else
  -- Get the DMA controller ports for this channel
  let Call := callGetDmaPorts S0 Channel
  let Ports := Call.1
  let S1 := Call.2
  let Is16BitChannel : Bool := decide (Channel ≥ 4)
  let Count1 : Nat :=
    if Is16BitChannel then
      (if Count % 2 ≠ 0 then (Count &&& 0xFFFFFFFE) % 0x10000 else Count)
    else Count
  let TransferCount : Nat := if Is16BitChannel then Count1 / 2 else Count1
  let PhysicalAddr : Nat := Buf.PhysicalAddress % 0x100000000
  if Is16BitChannel = true ∧ PhysicalAddr &&& 0x1 ≠ 0 then
    ⟨⟨EFI_INVALID_PARAMETER, S1.This, []⟩, S1.Uses, S1.Fault⟩ else
  if PhysicalAddr > 0xFFFFFF then ⟨⟨EFI_INVALID_PARAMETER, S1.This, []⟩, S1.Uses, S1.Fault⟩ else
  -- Prepare the DMA mode value
  let DmaMode0 : Nat := (Channel &&& 0x03) % 0x100
  let DmaMode1 : Nat := DmaMode0 ||| ((Mode &&& 0x0C) % 0x100)
  let DmaMode2 : Nat := DmaMode1 ||| DMA_MODE_SINGLE
  let DmaMode : Nat := if AutoInitialize then DmaMode2 ||| DMA_MODE_AUTO else DmaMode2
  let Page : Nat := ((PhysicalAddr >>> 16) &&& 0xFF) % 0x100
  let Trace : List IoAccess :=
    [ IoWrite8 Ports.MaskPort ((0x04 ||| (Channel &&& 0x03)) % 0x100),
      IoWrite8 Ports.ClearPort 0xFF,
      IoWrite8 Ports.ModePort DmaMode,
      IoWrite8 Ports.AddrPort ((PhysicalAddr &&& 0xFF) % 0x100),
      IoWrite8 Ports.AddrPort (((PhysicalAddr >>> 8) &&& 0xFF) % 0x100),
      IoWrite8 Ports.PagePort Page,
      IoWrite8 Ports.CountPort ((intSubOne TransferCount &&& 0xFF) % 0x100),
      IoWrite8 Ports.CountPort (((intSubOne TransferCount >>> 8) &&& 0xFF) % 0x100) ]
  -- Store the DMA channel information
  let S2 := storeDmaChannels S1 Channel (fun Rec => { Rec with Channel := Channel })
  let S3 := storeDmaChannels S2 Channel (fun Rec => { Rec with Mode := DmaMode })
  let S4 := storeDmaChannels S3 Channel (fun Rec => { Rec with Count := Count1 })
  let S5 := storeDmaChannels S4 Channel (fun Rec => { Rec with Address := PhysicalAddr })
  let S6 := storeDmaChannels S5 Channel (fun Rec => { Rec with IsActive := false })
  ⟨⟨EFI_SUCCESS, S6.This, Trace⟩, S6.Uses, S6.Fault⟩

/-- The function `LegacyDmaStart` (lines 513-552) with its table accesses on record: the load
of line 535, the `GetDmaPorts` call of line 541 and the store of line 547. -/
def LegacyDmaStartChecked (This : LEGACY_IO_PROTOCOL_EX) (Channel : Nat) : CHECKED DMA_RESULT :=
  let S0 : CHECKED_STATE := ⟨This, [], false⟩
  -- Check parameters
  if Channel > 7 then ⟨⟨EFI_INVALID_PARAMETER, S0.This, []⟩, S0.Uses, S0.Fault⟩ else
  -- Verify this channel has been programmed
  let Load := loadDmaChannels S0 Channel
  let Rec := Load.1
  let S1 := Load.2
  if Rec.Count = 0 then ⟨⟨EFI_NOT_READY, S1.This, []⟩, S1.Uses, S1.Fault⟩ else
  -- Get the DMA controller ports for this channel
  let Call := callGetDmaPorts S1 Channel
  let Ports := Call.1
  let S2 := Call.2
  -- Mark the channel as active
  let S3 := storeDmaChannels S2 Channel (fun Rec => { Rec with IsActive := true })
  ⟨⟨EFI_SUCCESS, S3.This, [IoWrite8 Ports.MaskPort ((Channel &&& 0x03) % 0x100)]⟩,
    S3.Uses, S3.Fault⟩

/-- The function `LegacyDmaStatus` (lines 565-628) with its table accesses on record: the
`GetDmaPorts` call of line 593 and the store of line 625. -/
def LegacyDmaStatusChecked (This : LEGACY_IO_PROTOCOL_EX) (Channel : Nat)
    (BytesRemaining : Option Nat) (IsActive : Option Bool)
    (StatRead CountRead0 CountRead1 : Nat) : CHECKED DMA_STATUS_RESULT :=
  let S0 : CHECKED_STATE := ⟨This, [], false⟩
  -- Check parameters
  if Channel > 7 then
    ⟨⟨EFI_INVALID_PARAMETER, S0.This, [], BytesRemaining, IsActive⟩, S0.Uses, S0.Fault⟩ else
  if BytesRemaining = none ∨ IsActive = none then
    ⟨⟨EFI_INVALID_PARAMETER, S0.This, [], BytesRemaining, IsActive⟩, S0.Uses, S0.Fault⟩ else
  -- Get the DMA controller ports for this channel
  let Call := callGetDmaPorts S0 Channel
  let Ports := Call.1
  let S1 := Call.2
  let ChannelBit : Nat := (1 <<< (Channel &&& 0x03)) % 0x100
  let Is16BitChannel : Bool := decide (Channel ≥ 4)
  let Status : Nat := StatRead % 0x100
  let Low : Nat := CountRead0 % 0x100
  let High : Nat := CountRead1 % 0x100
  let Count0 : Nat := Low
  let Count1 : Nat := (Count0 ||| ((High <<< 8) % 0x10000)) % 0x10000
  let Count2 : Nat := (Count1 + 1) % 0x10000
  let Count3 : Nat := if Is16BitChannel then (Count2 * 2) % 0x10000 else Count2
  let Active : Bool := decide (Status &&& ChannelBit = 0)
  -- Update the stored state
  let S2 := storeDmaChannels S1 Channel (fun Rec => { Rec with IsActive := Active })
  ⟨⟨EFI_SUCCESS, S2.This,
      [ IoRead8 Ports.StatPort Status,
        IoWrite8 Ports.ClearPort 0xFF,
        IoRead8 Ports.CountPort Low,
        IoRead8 Ports.CountPort High ],
      some Count3, some Active⟩,
    S2.Uses, S2.Fault⟩

/-- The function `LegacyDmaStop` (lines 639-672) with its table accesses on record: the
`GetDmaPorts` call of line 661 and the store of line 667. -/
def LegacyDmaStopChecked (This : LEGACY_IO_PROTOCOL_EX) (Channel : Nat) : CHECKED DMA_RESULT :=
  let S0 : CHECKED_STATE := ⟨This, [], false⟩
  -- Check parameters
  if Channel > 7 then ⟨⟨EFI_INVALID_PARAMETER, S0.This, []⟩, S0.Uses, S0.Fault⟩ else
  -- Get the DMA controller ports for this channel
  let Call := callGetDmaPorts S0 Channel
  let Ports := Call.1
  let S1 := Call.2
  -- Mark the channel as inactive
  let S2 := storeDmaChannels S1 Channel (fun Rec => { Rec with IsActive := false })
  ⟨⟨EFI_SUCCESS, S2.This, [IoWrite8 Ports.MaskPort ((0x04 ||| (Channel &&& 0x03)) % 0x100)]⟩,
    S2.Uses, S2.Fault⟩

/-! ## `EnableIoForwarding` (lines 682-749, and lines 132-199 of the original driver) -/

/-- The attribute bit `EFI_PCI_ATTRIBUTE_ISA_MOTHERBOARD_IO` of the UEFI header
`Protocol/PciRootBridgeIo.h`. -/
def EFI_PCI_ATTRIBUTE_ISA_MOTHERBOARD_IO : Nat := 0x0001

/-- What the platform answers for one handle of the handle buffer: the status of
`gBS->HandleProtocol`, the status and the two `UINT64` outputs of `GetAttributes`, and the
status `SetAttributes` returns for a given attribute word. -/
structure ROOT_BRIDGE where
  HandleProtocol : EFI_STATUS
  GetAttributes : EFI_STATUS
  Supports : Nat
  Attributes : Nat
  SetAttributes : Nat → EFI_STATUS

/-- One service or protocol call made by `EnableIoForwarding`; `Index` is the position of the
handle in the handle buffer. -/
inductive BridgeCall where
  | LocateHandleBuffer (Status : EFI_STATUS)
  | HandleProtocol (Index : Nat) (Status : EFI_STATUS)
  | GetAttributes (Index : Nat) (Status : EFI_STATUS)
  | SetAttributes (Index : Nat) (Attributes : Nat) (Status : EFI_STATUS)
  | FreePoolHandleBuffer
  deriving DecidableEq, Repr

/-- What `EnableIoForwarding` leaves behind: the returned status and the calls made. -/
structure FORWARDING_RESULT where
  Status : EFI_STATUS
  Calls : List BridgeCall
  deriving DecidableEq, Repr

/-- The `for` loop of `EnableIoForwarding` from position `Index` on, over the handles not yet
visited: the flag `ForwardingEnabled` at loop exit and the calls made. -/
def forwardingLoop (Index : Nat) (ForwardingEnabled : Bool) :
    List ROOT_BRIDGE → Bool × List BridgeCall
  | [] => (ForwardingEnabled, [])
  | Bridge :: Rest =>
    if EFI_ERROR Bridge.HandleProtocol then
      -- `continue`
      ((forwardingLoop (Index + 1) ForwardingEnabled Rest).1,
        BridgeCall.HandleProtocol Index Bridge.HandleProtocol ::
          (forwardingLoop (Index + 1) ForwardingEnabled Rest).2)
    else if EFI_ERROR Bridge.GetAttributes then
      -- `continue`
      ((forwardingLoop (Index + 1) ForwardingEnabled Rest).1,
        BridgeCall.HandleProtocol Index Bridge.HandleProtocol ::
        BridgeCall.GetAttributes Index Bridge.GetAttributes ::
          (forwardingLoop (Index + 1) ForwardingEnabled Rest).2)
    else if Bridge.Supports &&& EFI_PCI_ATTRIBUTE_ISA_MOTHERBOARD_IO = 0 then
      -- `continue`
      ((forwardingLoop (Index + 1) ForwardingEnabled Rest).1,
        BridgeCall.HandleProtocol Index Bridge.HandleProtocol ::
        BridgeCall.GetAttributes Index Bridge.GetAttributes ::
          (forwardingLoop (Index + 1) ForwardingEnabled Rest).2)
    else
      let Requested : Nat := Bridge.Attributes ||| EFI_PCI_ATTRIBUTE_ISA_MOTHERBOARD_IO
      let Status : EFI_STATUS := Bridge.SetAttributes Requested
      let Enabled : Bool := if EFI_ERROR Status then ForwardingEnabled else true
      ((forwardingLoop (Index + 1) Enabled Rest).1,
        BridgeCall.HandleProtocol Index Bridge.HandleProtocol ::
        BridgeCall.GetAttributes Index Bridge.GetAttributes ::
        BridgeCall.SetAttributes Index Requested Status ::
          (forwardingLoop (Index + 1) Enabled Rest).2)

/-- The function `EnableIoForwarding` of the extended driver. `Locate` is the status of
`gBS->LocateHandleBuffer`, `Bridges` the platform's answers for the `HandleCount` handles it
returned. -/
def EnableIoForwarding (Locate : EFI_STATUS) (Bridges : List ROOT_BRIDGE) :
    FORWARDING_RESULT :=
  if EFI_ERROR Locate then ⟨Locate, [BridgeCall.LocateHandleBuffer Locate]⟩ else
  let Loop := forwardingLoop 0 false Bridges
  -- Free the handle buffer
  ⟨if Loop.1 then EFI_SUCCESS else EFI_UNSUPPORTED,
    BridgeCall.LocateHandleBuffer Locate :: (Loop.2 ++ [BridgeCall.FreePoolHandleBuffer])⟩

/-- The function `EnableIoForwarding` of the original driver, the same text. -/
def LegacyIoDxe.EnableIoForwarding (Locate : EFI_STATUS) (Bridges : List ROOT_BRIDGE) :
    FORWARDING_RESULT :=
  if EFI_ERROR Locate then ⟨Locate, [BridgeCall.LocateHandleBuffer Locate]⟩ else
  let Loop := forwardingLoop 0 false Bridges
  -- Free the handle buffer
  ⟨if Loop.1 then EFI_SUCCESS else EFI_UNSUPPORTED,
    BridgeCall.LocateHandleBuffer Locate :: (Loop.2 ++ [BridgeCall.FreePoolHandleBuffer])⟩

/-! ## The driver entry points (lines 760-794, and lines 210-241 of the original driver) -/

/-- Whether the call is a `LegacyDmaProgramChannel` call on channel `Channel`. -/
def DMA_CALL.isProgramOf (Channel : Nat) : DMA_CALL → Bool
  | .Program c _ _ _ _ => decide (c = Channel)
  | _ => false

/-- What `LegacyIoDxeExDriverEntryPoint` leaves behind: the returned status, the result of its
`EnableIoForwarding` call, and the contents of the global `mLegacyIoProtocolEx` at the time it
is handed to `gBS->InstallMultipleProtocolInterfaces`. -/
structure ENTRY_RESULT_EX where
  Status : EFI_STATUS
  Forwarding : FORWARDING_RESULT
  Interface : LEGACY_IO_PROTOCOL_EX

/-- The function `LegacyIoDxeExDriverEntryPoint`. `Locate` and `Bridges` are the platform's
answers to the `EnableIoForwarding` call (written `EnableIoForwardinG()` in line 772),
`Global` is the contents of `mLegacyIoProtocolEx` on entry and `Install` the status
`gBS->InstallMultipleProtocolInterfaces` returns. -/
def LegacyIoDxeExDriverEntryPoint (Locate : EFI_STATUS) (Bridges : List ROOT_BRIDGE)
    (Global : LEGACY_IO_PROTOCOL_EX) (Install : EFI_STATUS) : ENTRY_RESULT_EX :=
  -- Try to enable ISA I/O forwarding via PCI attributes; an error is only logged
  let Forwarding : FORWARDING_RESULT := EnableIoForwarding Locate Bridges
  -- Zero initialize all DMA channels
  let Interface : LEGACY_IO_PROTOCOL_EX := { Global with DmaChannels := fun _ => zeroChannel }
  -- Install the Legacy I/O Protocol and Legacy I/O Ex Protocol on a new handle
  let Status : EFI_STATUS := Install
  if EFI_ERROR Status then ⟨Status, Forwarding, Interface⟩ else
  ⟨EFI_SUCCESS, Forwarding, Interface⟩

/-- What `LegacyIoDxeDriverEntryPoint` leaves behind: the returned status, the result of its
`EnableIoForwarding` call, and the contents of the global `mLegacyIoProtocol` handed to
`gBS->InstallProtocolInterface`. -/
structure LegacyIoDxe.ENTRY_RESULT where
  Status : EFI_STATUS
  Forwarding : FORWARDING_RESULT
  Interface : LEGACY_IO_PROTOCOL

/-- The function `LegacyIoDxeDriverEntryPoint` of the original driver. `Install` is the status
`gBS->InstallProtocolInterface` returns. -/
def LegacyIoDxe.LegacyIoDxeDriverEntryPoint (Locate : EFI_STATUS) (Bridges : List ROOT_BRIDGE)
    (Global : LEGACY_IO_PROTOCOL) (Install : EFI_STATUS) : LegacyIoDxe.ENTRY_RESULT :=
  -- Try to enable ISA I/O forwarding via PCI attributes; an error is only logged
  let Forwarding : FORWARDING_RESULT := LegacyIoDxe.EnableIoForwarding Locate Bridges
  -- Install the Legacy I/O Protocol on a new handle
  let Status : EFI_STATUS := Install
  if EFI_ERROR Status then ⟨Status, Forwarding, Global⟩ else
  ⟨EFI_SUCCESS, Forwarding, Global⟩

/-! ## Arithmetic of the C operators on natural numbers -/

theorem and_FF_eq_mod (x : Nat) : x &&& 0xFF = x % 256 :=
  Nat.and_pow_two_sub_one_eq_mod x 8

theorem and_03_eq_mod (x : Nat) : x &&& 0x03 = x % 4 :=
  Nat.and_pow_two_sub_one_eq_mod x 2

theorem and_01_eq_mod (x : Nat) : x &&& 0x1 = x % 2 :=
  Nat.and_pow_two_sub_one_eq_mod x 1

theorem shr8_eq_div (x : Nat) : x >>> 8 = x / 256 := by
  simp [Nat.shiftRight_eq_div_pow]

theorem shr16_eq_div (x : Nat) : x >>> 16 = x / 65536 := by
  simp [Nat.shiftRight_eq_div_pow]

/-- Clearing bit 0 with the mask `~0x1` of a value that fits an `int`. -/
theorem and_clear_low (x : Nat) (h : x < 0x100000000) : x &&& 0xFFFFFFFE = x - x % 2 := by
  have hc : (0xFFFFFFFE : Nat) = Nat.bit false 0x7FFFFFFF := by decide
  have hm : x.div2 &&& 0x7FFFFFFF = x.div2 % 2 ^ 31 := Nat.and_pow_two_sub_one_eq_mod x.div2 31
  conv_lhs => rw [← Nat.bit_decomp x, hc, Nat.land_bit, hm]
  simp only [Bool.and_false, Nat.bit_false, Nat.div2_val]
  omega

/-- The two operation bits selected by `Mode & 0x0C`. -/
theorem and_0C_cases (m : Nat) :
    m &&& 0x0C = 0 ∨ m &&& 0x0C = 4 ∨ m &&& 0x0C = 8 ∨ m &&& 0x0C = 12 := by
  have h1 : m &&& 0x0C = (m % 16) &&& 0x0C := by
    have h3 : (0x0C : Nat) = 0x0F &&& 0x0C := by decide
    have h2 : m &&& 0x0F = m % 16 := Nat.and_pow_two_sub_one_eq_mod m 4
    conv_lhs => rw [h3, ← Nat.and_assoc, h2]
  rw [h1]
  have : m % 16 < 16 := Nat.mod_lt _ (by decide)
  interval_cases (m % 16) <;> decide

theorem intSubOne_pos (x : Nat) (h1 : 1 ≤ x) (h2 : x < 0x100000000) : intSubOne x = x - 1 := by
  unfold intSubOne
  omega

theorem and_FF_mod (x : Nat) : (x &&& 0xFF) % 256 = x &&& 0xFF := by
  rw [and_FF_eq_mod]; exact Nat.mod_mod _ _

theorem mask_byte (c : Nat) : (0x04 ||| (c &&& 0x03)) % 0x100 = 0x04 ||| c % 4 := by
  rw [and_03_eq_mod]
  have h : c % 4 < 4 := Nat.mod_lt _ (by decide)
  interval_cases (c % 4) <;> rfl

theorem unmask_byte (c : Nat) : (c &&& 0x03) % 0x100 = c % 4 := by
  rw [and_03_eq_mod]
  have h : c % 4 < 4 := Nat.mod_lt _ (by decide)
  omega

theorem op_bits_byte (m : Nat) : (m &&& 0x0C) % 0x100 = m &&& 0x0C := by
  have h : m &&& 0x0C ≤ 0x0C := Nat.and_le_right
  omega

/-- The rounding of an odd byte count on a 16-bit channel. -/
theorem round_even (n : Nat) (hn : n < 0x10000) :
    (if n % 2 ≠ 0 then (n &&& 0xFFFFFFFE) % 0x10000 else n) = n - n % 2 := by
  rw [and_clear_low n (by omega)]
  split_ifs <;> omega

/-- The record `LegacyDmaProgramChannel` stores and the writes it performs once every check
has passed, with the casts resolved. -/
theorem program_valid (This : LEGACY_IO_PROTOCOL_EX) (c Mode : Nat)
    (Buf : LEGACY_DMA_BUFFER) (n : Nat) (a : Bool)
    (hc : c < 8) (hbuf : Buf.Buffer ≠ 0) (hn0 : n ≠ 0) (hn : n < 0x10000)
    (hAe : 4 ≤ c → Buf.PhysicalAddress % 0x100000000 % 2 = 0)
    (hA : Buf.PhysicalAddress % 0x100000000 ≤ 0xFFFFFF) :
    LegacyDmaProgramChannel This c Mode (some Buf) n a =
      ⟨EFI_SUCCESS,
       { This with
         DmaChannels := Function.update This.DmaChannels ⟨c, hc⟩
           { Channel := c,
             Mode := c % 4 ||| (Mode &&& 0x0C) ||| 0x40 ||| (if a = true then 0x10 else 0),
             Count := if 4 ≤ c then n - n % 2 else n,
             Address := Buf.PhysicalAddress % 0x100000000,
             IsActive := false } },
       [ IoWrite8 (GetDmaPorts c).MaskPort (0x04 ||| c % 4),
         IoWrite8 (GetDmaPorts c).ClearPort 0xFF,
         IoWrite8 (GetDmaPorts c).ModePort
           (c % 4 ||| (Mode &&& 0x0C) ||| 0x40 ||| (if a = true then 0x10 else 0)),
         IoWrite8 (GetDmaPorts c).AddrPort (Buf.PhysicalAddress % 0x100000000 &&& 0xFF),
         IoWrite8 (GetDmaPorts c).AddrPort ((Buf.PhysicalAddress % 0x100000000) >>> 8 &&& 0xFF),
         IoWrite8 (GetDmaPorts c).PagePort ((Buf.PhysicalAddress % 0x100000000) >>> 16 &&& 0xFF),
         IoWrite8 (GetDmaPorts c).CountPort
           (intSubOne (if 4 ≤ c then n / 2 else n) &&& 0xFF),
         IoWrite8 (GetDmaPorts c).CountPort
           (intSubOne (if 4 ≤ c then n / 2 else n) >>> 8 &&& 0xFF) ]⟩ := by
  have h7 : ¬ c > 7 := by omega
  have hhalf : (n - n % 2) / 2 = n / 2 := by omega
  have hmode : (if a = true then c % 4 ||| (Mode &&& 0x0C) ||| 0x40 ||| 0x10
      else c % 4 ||| (Mode &&& 0x0C) ||| 0x40) =
      c % 4 ||| (Mode &&& 0x0C) ||| 0x40 ||| (if a = true then 0x10 else 0) := by
    cases a <;> simp
  unfold LegacyDmaProgramChannel
  simp only [dif_neg h7, hbuf, hn0, or_self, if_false, and_01_eq_mod, round_even n hn,
    mask_byte, unmask_byte, op_bits_byte, and_FF_mod, DMA_MODE_SINGLE, DMA_MODE_AUTO, hmode]
  by_cases h4 : 4 ≤ c
  · have hAe2 := hAe h4
    simp [h4, hAe2, hA, hhalf]
  · simp [h4, hA]

/-- Every way a check of `LegacyDmaProgramChannel` can fail gives the same result: the
invalid-parameter status, the instance untouched, no port access. -/
theorem program_invalid (This : LEGACY_IO_PROTOCOL_EX) (c Mode : Nat)
    (DmaBuffer : Option LEGACY_DMA_BUFFER) (n : Nat) (a : Bool)
    (h : c > 7 ∨ n = 0 ∨ ∀ Buf, DmaBuffer = some Buf →
      Buf.Buffer = 0 ∨ (4 ≤ c ∧ Buf.PhysicalAddress % 0x100000000 % 2 = 1) ∨
        0xFFFFFF < Buf.PhysicalAddress % 0x100000000) :
    LegacyDmaProgramChannel This c Mode DmaBuffer n a = ⟨EFI_INVALID_PARAMETER, This, []⟩ := by
  unfold LegacyDmaProgramChannel
  by_cases h7 : c > 7
  · simp [h7]
  · rw [dif_neg h7]
    cases DmaBuffer with
    | none => rfl
    | some Buf =>
      simp only
      by_cases hb : Buf.Buffer = 0 ∨ n = 0
      · rw [if_pos hb]
      · rw [if_neg hb]
        have hg : (4 ≤ c ∧ Buf.PhysicalAddress % 0x100000000 % 2 = 1) ∨
            0xFFFFFF < Buf.PhysicalAddress % 0x100000000 := by
          rcases h with h | h | h
          · exact absurd h h7
          · exact absurd (Or.inr h) hb
          · rcases h Buf rfl with h | h
            · exact absurd (Or.inl h) hb
            · exact h
        rcases hg with ⟨h4, hodd⟩ | hbig
        · have : decide (c ≥ 4) = true ∧ Buf.PhysicalAddress % 0x100000000 &&& 0x1 ≠ 0 := by
            rw [and_01_eq_mod]; exact ⟨by simpa using h4, by omega⟩
          simp only [if_pos this]
        · split_ifs <;> rfl

/-- A successful `LegacyDmaProgramChannel` call passed every check. -/
theorem program_success_guards (This : LEGACY_IO_PROTOCOL_EX) (c Mode : Nat)
    (DmaBuffer : Option LEGACY_DMA_BUFFER) (n : Nat) (a : Bool)
    (hs : (LegacyDmaProgramChannel This c Mode DmaBuffer n a).Status = EFI_SUCCESS) :
    c < 8 ∧ n ≠ 0 ∧ ∃ Buf, DmaBuffer = some Buf ∧ Buf.Buffer ≠ 0 ∧
      (4 ≤ c → Buf.PhysicalAddress % 0x100000000 % 2 = 0) ∧
      Buf.PhysicalAddress % 0x100000000 ≤ 0xFFFFFF := by
  by_contra hcon
  have hinv : LegacyDmaProgramChannel This c Mode DmaBuffer n a =
      ⟨EFI_INVALID_PARAMETER, This, []⟩ := by
    apply program_invalid
    by_cases h7 : c > 7
    · exact Or.inl h7
    by_cases h0 : n = 0
    · exact Or.inr (Or.inl h0)
    refine Or.inr (Or.inr ?_)
    intro Buf hB
    by_contra hno
    apply hcon
    refine ⟨by omega, h0, Buf, hB, ?_, ?_, ?_⟩
    · intro hb; exact hno (Or.inl hb)
    · intro h4
      by_contra hodd
      exact hno (Or.inr (Or.inl ⟨h4, by omega⟩))
    · by_contra hbig
      exact hno (Or.inr (Or.inr (by omega)))
  rw [hinv] at hs
  cases hs

/-! ## Claims about `LegacyDmaProgramChannel` -/

/-- C1. For every channel `c` in 0..7, every buffer with a non-null memory pointer and a physical
address `A <= 0xFFFFFF` (even when `c >= 4`), every 16-bit byte count `n` whose effective count
`E` (`n` for `c <= 3`, `n / 2` for `c >= 4`) is at least 1, and every mode and auto-init flag,
`LegacyDmaProgramChannel` returns success and its port accesses are exactly eight byte writes,
in this order: mask port `<- 0x04 | (c mod 4)`, clear-flip-flop port `<- 0xFF`, mode port `<-`
the composed mode byte, address port `<- A & 0xFF`, address port `<- (A >> 8) & 0xFF`, page port
`<- (A >> 16) & 0xFF`, count port `<- (E-1) & 0xFF`, count port `<- ((E-1) >> 8) & 0xFF`, the
ports being those of `GetDmaPorts c`. -/
theorem program_channel_write_sequence (This : LEGACY_IO_PROTOCOL_EX) (c Mode : Nat)
    (Buf : LEGACY_DMA_BUFFER) (n : Nat) (a : Bool)
    (hc : c ≤ 7) (hbuf : Buf.Buffer ≠ 0) (hA : Buf.PhysicalAddress ≤ 0xFFFFFF)
    (hAe : 4 ≤ c → Buf.PhysicalAddress % 2 = 0) (hn : n < 0x10000)
    (hE : 1 ≤ (if c ≤ 3 then n else n / 2)) :
    (LegacyDmaProgramChannel This c Mode (some Buf) n a).Status = EFI_SUCCESS ∧
    (LegacyDmaProgramChannel This c Mode (some Buf) n a).Trace =
      [ IoWrite8 (GetDmaPorts c).MaskPort (0x04 ||| c % 4),
        IoWrite8 (GetDmaPorts c).ClearPort 0xFF,
        IoWrite8 (GetDmaPorts c).ModePort
          (c % 4 ||| (Mode &&& 0x0C) ||| 0x40 ||| (if a = true then 0x10 else 0)),
        IoWrite8 (GetDmaPorts c).AddrPort (Buf.PhysicalAddress &&& 0xFF),
        IoWrite8 (GetDmaPorts c).AddrPort ((Buf.PhysicalAddress >>> 8) &&& 0xFF),
        IoWrite8 (GetDmaPorts c).PagePort ((Buf.PhysicalAddress >>> 16) &&& 0xFF),
        IoWrite8 (GetDmaPorts c).CountPort (((if c ≤ 3 then n else n / 2) - 1) &&& 0xFF),
        IoWrite8 (GetDmaPorts c).CountPort
          ((((if c ≤ 3 then n else n / 2) - 1) >>> 8) &&& 0xFF) ] := by
  have hA32 : Buf.PhysicalAddress % 0x100000000 = Buf.PhysicalAddress :=
    Nat.mod_eq_of_lt (by omega)
  have hn0 : n ≠ 0 := by
    intro h0; subst h0; split_ifs at hE <;> omega
  have hE2 : (if 4 ≤ c then n / 2 else n) = (if c ≤ 3 then n else n / 2) := by
    split_ifs <;> first | rfl | omega
  have hsub : intSubOne (if c ≤ 3 then n else n / 2) = (if c ≤ 3 then n else n / 2) - 1 := by
    apply intSubOne_pos _ hE
    split_ifs <;> omega
  rw [program_valid This c Mode Buf n a (by omega) hbuf hn0 hn (by rw [hA32]; exact hAe)
    (by rw [hA32]; exact hA)]
  simp only [hA32, hE2, hsub, true_and]

/-- C1, the scenario of the specification: channel 2, a buffer at `0x1000`, 256 bytes. -/
theorem program_channel_write_sequence_witness :
    (2 : Nat) ≤ 7 ∧ (0x1000 : Nat) ≠ 0 ∧ (0x1000 : Nat) ≤ 0xFFFFFF ∧ (256 : Nat) < 0x10000 ∧
    (LegacyDmaProgramChannel mLegacyIoProtocolEx 2 DMA_MODE_READ
        (some ⟨0x1000, 256, true, 0x1000⟩) 256 false).Status = EFI_SUCCESS ∧
    (LegacyDmaProgramChannel mLegacyIoProtocolEx 2 DMA_MODE_READ
        (some ⟨0x1000, 256, true, 0x1000⟩) 256 false).Trace =
      [ IoWrite8 0x0A 0x06, IoWrite8 0x0C 0xFF, IoWrite8 0x0B 0x4A, IoWrite8 0x04 0x00,
        IoWrite8 0x04 0x10, IoWrite8 0x81 0x00, IoWrite8 0x05 0xFF, IoWrite8 0x05 0x00 ] :=
  ⟨by decide, by decide, by decide, by decide,
    program_channel_write_sequence mLegacyIoProtocolEx 2 DMA_MODE_READ
      ⟨0x1000, 256, true, 0x1000⟩ 256 false (by decide) (by decide) (by decide)
      (by decide) (by decide) (by decide)⟩

/-- C2. Whenever the channel is above 7, or the buffer structure pointer is null, or the
buffer's memory pointer is null, or the byte count is 0, `LegacyDmaProgramChannel` returns
`EFI_INVALID_PARAMETER`, accesses no port and leaves the protocol instance, hence all eight
channel records, exactly as it was. -/
theorem program_channel_rejects_bad_arguments (This : LEGACY_IO_PROTOCOL_EX)
    (Channel Mode : Nat) (DmaBuffer : Option LEGACY_DMA_BUFFER) (Count : Nat) (a : Bool)
    (h : Channel > 7 ∨ DmaBuffer = none ∨ (∃ Buf, DmaBuffer = some Buf ∧ Buf.Buffer = 0) ∨
      Count = 0) :
    (LegacyDmaProgramChannel This Channel Mode DmaBuffer Count a).Status
        = EFI_INVALID_PARAMETER ∧
    (LegacyDmaProgramChannel This Channel Mode DmaBuffer Count a).Trace = [] ∧
    (LegacyDmaProgramChannel This Channel Mode DmaBuffer Count a).This = This ∧
    ∀ i : Fin 8,
      (LegacyDmaProgramChannel This Channel Mode DmaBuffer Count a).This.DmaChannels i
        = This.DmaChannels i := by
  have hinv : LegacyDmaProgramChannel This Channel Mode DmaBuffer Count a =
      ⟨EFI_INVALID_PARAMETER, This, []⟩ := by
    apply program_invalid
    rcases h with h | h | ⟨Buf, hB, hb⟩ | h
    · exact Or.inl h
    · refine Or.inr (Or.inr ?_)
      intro Buf hB; rw [h] at hB; cases hB
    · refine Or.inr (Or.inr ?_)
      intro Buf2 hB2; rw [hB] at hB2; cases hB2; exact Or.inl hb
    · exact Or.inr (Or.inl h)
  rw [hinv]
  exact ⟨rfl, rfl, rfl, fun _ => rfl⟩

/-- C2 at channel 8, at a null structure pointer, at a null memory pointer and at count 0. -/
theorem program_channel_rejects_bad_arguments_witness :
    ((8 : Nat) > 7 ∧
      (LegacyDmaProgramChannel mLegacyIoProtocolEx 8 DMA_MODE_READ
        (some ⟨0x1000, 256, true, 0x1000⟩) 256 false).Status = EFI_INVALID_PARAMETER) ∧
    (LegacyDmaProgramChannel mLegacyIoProtocolEx 2 DMA_MODE_READ none 256 false).Trace = [] ∧
    (LegacyDmaProgramChannel mLegacyIoProtocolEx 2 DMA_MODE_READ
        (some ⟨0, 256, true, 0x1000⟩) 256 false).Status = EFI_INVALID_PARAMETER ∧
    (LegacyDmaProgramChannel mLegacyIoProtocolEx 2 DMA_MODE_READ
        (some ⟨0x1000, 256, true, 0x1000⟩) 0 false).This = mLegacyIoProtocolEx :=
  ⟨⟨by decide, (program_channel_rejects_bad_arguments mLegacyIoProtocolEx 8 DMA_MODE_READ
      (some ⟨0x1000, 256, true, 0x1000⟩) 256 false (Or.inl (by decide))).1⟩,
   (program_channel_rejects_bad_arguments mLegacyIoProtocolEx 2 DMA_MODE_READ none 256 false
      (Or.inr (Or.inl rfl))).2.1,
   (program_channel_rejects_bad_arguments mLegacyIoProtocolEx 2 DMA_MODE_READ
      (some ⟨0, 256, true, 0x1000⟩) 256 false (Or.inr (Or.inr (Or.inl ⟨_, rfl, rfl⟩)))).1,
   (program_channel_rejects_bad_arguments mLegacyIoProtocolEx 2 DMA_MODE_READ
      (some ⟨0x1000, 256, true, 0x1000⟩) 0 false (Or.inr (Or.inr (Or.inr rfl)))).2.2.1⟩

/-- C3, the failing input. The buffer's 64-bit physical address is `0x100000000` (4 GiB),
above the 16 MiB limit, yet the call on channel 0 succeeds: the `(UINT32)` cast taken before
the range check keeps only the low 32 bits, so the controller is programmed with address 0
and the channel record is overwritten. -/
theorem program_channel_accepts_address_at_4GiB :
    (0xFFFFFF : Nat) < 0x100000000 ∧
    (LegacyDmaProgramChannel mLegacyIoProtocolEx 0 DMA_MODE_READ
        (some ⟨0x1000, 16, true, 0x100000000⟩) 16 false).Status = EFI_SUCCESS ∧
    (LegacyDmaProgramChannel mLegacyIoProtocolEx 0 DMA_MODE_READ
        (some ⟨0x1000, 16, true, 0x100000000⟩) 16 false).Trace =
      [ IoWrite8 0x0A 0x04, IoWrite8 0x0C 0xFF, IoWrite8 0x0B 0x48, IoWrite8 0x00 0x00,
        IoWrite8 0x00 0x00, IoWrite8 0x87 0x00, IoWrite8 0x01 0x0F, IoWrite8 0x01 0x00 ] ∧
    (LegacyDmaProgramChannel mLegacyIoProtocolEx 0 DMA_MODE_READ
        (some ⟨0x1000, 16, true, 0x100000000⟩) 16 false).This.DmaChannels 0 =
      { Channel := 0, Mode := 0x48, Count := 16, Address := 0, IsActive := false } ∧
    mLegacyIoProtocolEx.DmaChannels 0 =
      { Channel := 0, Mode := 0, Count := 0, Address := 0, IsActive := false } := by
  decide

/-- C4. For a channel 0..7, a non-null buffer with a non-null memory pointer, a byte count of at
least 1 and a physical address `A <= 0xFFFFFF`, `LegacyDmaProgramChannel` fails if and only if
the channel is in the 16-bit bank (4..7) and `A` is odd; it then returns
`EFI_INVALID_PARAMETER`, writes no port and changes no channel record. An odd `A` on
channels 0..3 is accepted. -/
theorem program_channel_fails_iff_odd_address_on_16bit (This : LEGACY_IO_PROTOCOL_EX)
    (c Mode : Nat) (Buf : LEGACY_DMA_BUFFER) (n : Nat) (a : Bool)
    (hc : c ≤ 7) (hbuf : Buf.Buffer ≠ 0) (hn1 : 1 ≤ n) (hn : n < 0x10000)
    (hA : Buf.PhysicalAddress ≤ 0xFFFFFF) :
    ((LegacyDmaProgramChannel This c Mode (some Buf) n a).Status ≠ EFI_SUCCESS ↔
      (4 ≤ c ∧ Buf.PhysicalAddress % 2 = 1)) ∧
    ((4 ≤ c ∧ Buf.PhysicalAddress % 2 = 1) →
      (LegacyDmaProgramChannel This c Mode (some Buf) n a).Status = EFI_INVALID_PARAMETER ∧
      (LegacyDmaProgramChannel This c Mode (some Buf) n a).Trace = [] ∧
      (LegacyDmaProgramChannel This c Mode (some Buf) n a).This = This) ∧
    (c ≤ 3 → (LegacyDmaProgramChannel This c Mode (some Buf) n a).Status = EFI_SUCCESS) := by
  have hA32 : Buf.PhysicalAddress % 0x100000000 = Buf.PhysicalAddress :=
    Nat.mod_eq_of_lt (by omega)
  have hbad : (4 ≤ c ∧ Buf.PhysicalAddress % 2 = 1) →
      LegacyDmaProgramChannel This c Mode (some Buf) n a = ⟨EFI_INVALID_PARAMETER, This, []⟩ := by
    intro hodd
    apply program_invalid
    refine Or.inr (Or.inr ?_)
    intro Buf2 hB; cases hB
    exact Or.inr (Or.inl (by rw [hA32]; exact hodd))
  have hgood : ¬ (4 ≤ c ∧ Buf.PhysicalAddress % 2 = 1) →
      (LegacyDmaProgramChannel This c Mode (some Buf) n a).Status = EFI_SUCCESS := by
    intro hne
    rw [program_valid This c Mode Buf n a (by omega) hbuf (by omega) hn
      (by rw [hA32]; intro h4; by_contra ho; exact hne ⟨h4, by omega⟩) (by rw [hA32]; exact hA)]
  refine ⟨⟨?_, ?_⟩, ?_, ?_⟩
  · intro hfail
    by_contra hne
    exact hfail (hgood hne)
  · intro hodd
    rw [hbad hodd]
    intro h
    cases h
  · intro hodd
    rw [hbad hodd]
    exact ⟨rfl, rfl, rfl⟩
  · intro h3
    exact hgood (fun h => by omega)

/-- C4 on channel 5 with the odd address `0x1001`: the call fails and nothing is written;
the same buffer is accepted on channel 1. -/
theorem program_channel_fails_iff_odd_address_on_16bit_witness :
    ((5 : Nat) ≤ 7 ∧ (0x1001 : Nat) ≤ 0xFFFFFF ∧ (4 ≤ 5 ∧ 0x1001 % 2 = 1)) ∧
    ((LegacyDmaProgramChannel mLegacyIoProtocolEx 5 DMA_MODE_READ
        (some ⟨0x1001, 8, true, 0x1001⟩) 8 false).Status = EFI_INVALID_PARAMETER ∧
     (LegacyDmaProgramChannel mLegacyIoProtocolEx 5 DMA_MODE_READ
        (some ⟨0x1001, 8, true, 0x1001⟩) 8 false).Trace = [] ∧
     (LegacyDmaProgramChannel mLegacyIoProtocolEx 5 DMA_MODE_READ
        (some ⟨0x1001, 8, true, 0x1001⟩) 8 false).This = mLegacyIoProtocolEx) ∧
    (LegacyDmaProgramChannel mLegacyIoProtocolEx 1 DMA_MODE_READ
        (some ⟨0x1001, 8, true, 0x1001⟩) 8 false).Status = EFI_SUCCESS :=
  ⟨⟨by decide, by decide, by decide⟩,
   (program_channel_fails_iff_odd_address_on_16bit mLegacyIoProtocolEx 5 DMA_MODE_READ
      ⟨0x1001, 8, true, 0x1001⟩ 8 false (by decide) (by decide) (by decide) (by decide)
      (by decide)).2.1 (by decide),
   (program_channel_fails_iff_odd_address_on_16bit mLegacyIoProtocolEx 1 DMA_MODE_READ
      ⟨0x1001, 8, true, 0x1001⟩ 8 false (by decide) (by decide) (by decide) (by decide)
      (by decide)).2.2 (by decide)⟩

/-- C5. On a 16-bit-bank channel `c` in 4..7 an odd byte count `n >= 3` is programmed exactly
as `n - 1`: the two calls, all other arguments equal, give the same status, the same sequence
of port writes and the same protocol instance, and on success the two count-register writes
carry the low and high byte of `(n-1)/2 - 1`. -/
theorem program_channel_odd_count_as_even (This : LEGACY_IO_PROTOCOL_EX) (c Mode : Nat)
    (DmaBuffer : Option LEGACY_DMA_BUFFER) (n : Nat) (a : Bool)
    (hc4 : 4 ≤ c) (hc : c ≤ 7) (hodd : n % 2 = 1) (hn3 : 3 ≤ n) (hn : n < 0x10000) :
    LegacyDmaProgramChannel This c Mode DmaBuffer n a =
      LegacyDmaProgramChannel This c Mode DmaBuffer (n - 1) a ∧
    ((LegacyDmaProgramChannel This c Mode DmaBuffer n a).Status = EFI_SUCCESS →
      (LegacyDmaProgramChannel This c Mode DmaBuffer n a).Trace.drop 6 =
        [ IoWrite8 (GetDmaPorts c).CountPort (((n - 1) / 2 - 1) &&& 0xFF),
          IoWrite8 (GetDmaPorts c).CountPort ((((n - 1) / 2 - 1) >>> 8) &&& 0xFF) ]) := by
  have hhalf : n / 2 = (n - 1) / 2 := by omega
  have hsub : intSubOne ((n - 1) / 2) = (n - 1) / 2 - 1 :=
    intSubOne_pos _ (by omega) (by omega)
  by_cases hg : ∃ Buf, DmaBuffer = some Buf ∧ Buf.Buffer ≠ 0 ∧
      (4 ≤ c → Buf.PhysicalAddress % 0x100000000 % 2 = 0) ∧
      Buf.PhysicalAddress % 0x100000000 ≤ 0xFFFFFF
  · obtain ⟨Buf, hB, hb, hAe, hA⟩ := hg
    subst hB
    rw [program_valid This c Mode Buf n a (by omega) hb (by omega) hn hAe hA,
      program_valid This c Mode Buf (n - 1) a (by omega) hb (by omega) (by omega) hAe hA]
    have hcnt : n - n % 2 = n - 1 - (n - 1) % 2 := by omega
    simp only [if_pos hc4, hhalf, hsub, hcnt, List.drop_succ_cons, List.drop_zero,
      implies_true, and_self]
  · have hbad : ∀ m, LegacyDmaProgramChannel This c Mode DmaBuffer m a =
        ⟨EFI_INVALID_PARAMETER, This, []⟩ := by
      intro m
      apply program_invalid
      refine Or.inr (Or.inr ?_)
      intro Buf hB
      by_contra hno
      apply hg
      refine ⟨Buf, hB, ?_, ?_, ?_⟩
      · intro hb; exact hno (Or.inl hb)
      · intro h4
        by_contra ho
        exact hno (Or.inr (Or.inl ⟨h4, by omega⟩))
      · by_contra hbig
        exact hno (Or.inr (Or.inr (by omega)))
    rw [hbad n, hbad (n - 1)]
    refine ⟨rfl, ?_⟩
    intro h
    cases h

/-- C5 on channel 5 with 7 bytes: three words are programmed, the count register receives
`0x02` then `0x00`, and the call is indistinguishable from the one with 6 bytes. -/
theorem program_channel_odd_count_as_even_witness :
    ((4 : Nat) ≤ 5 ∧ (5 : Nat) ≤ 7 ∧ 7 % 2 = 1 ∧ 3 ≤ 7) ∧
    LegacyDmaProgramChannel mLegacyIoProtocolEx 5 DMA_MODE_READ
        (some ⟨0x1000, 8, true, 0x1000⟩) 7 false =
      LegacyDmaProgramChannel mLegacyIoProtocolEx 5 DMA_MODE_READ
        (some ⟨0x1000, 8, true, 0x1000⟩) 6 false ∧
    (LegacyDmaProgramChannel mLegacyIoProtocolEx 5 DMA_MODE_READ
        (some ⟨0x1000, 8, true, 0x1000⟩) 7 false).Trace.drop 6 =
      [ IoWrite8 0xC6 0x02, IoWrite8 0xC6 0x00 ] :=
  ⟨by decide,
   (program_channel_odd_count_as_even mLegacyIoProtocolEx 5 DMA_MODE_READ
      (some ⟨0x1000, 8, true, 0x1000⟩) 7 false (by decide) (by decide) (by decide)
      (by decide) (by decide)).1,
   (program_channel_odd_count_as_even mLegacyIoProtocolEx 5 DMA_MODE_READ
      (some ⟨0x1000, 8, true, 0x1000⟩) 7 false (by decide) (by decide) (by decide)
      (by decide) (by decide)).2 (by decide)⟩

/-- The bits of a composed mode byte, for a channel number within its bank `c4` and
operation bits `k`. -/
theorem mode_byte_bits (c4 k : Nat) (a : Bool) (hc : c4 < 4)
    (hk : k = 0 ∨ k = 4 ∨ k = 8 ∨ k = 12) :
    (c4 ||| k ||| 0x40 ||| (if a = true then 0x10 else 0)) &&& 0x03 = c4 ∧
    (c4 ||| k ||| 0x40 ||| (if a = true then 0x10 else 0)) &&& 0x0C = k ∧
    (c4 ||| k ||| 0x40 ||| (if a = true then 0x10 else 0)) &&& 0x40 = 0x40 ∧
    (c4 ||| k ||| 0x40 ||| (if a = true then 0x10 else 0)) &&& 0x10
      = (if a = true then 0x10 else 0) ∧
    (c4 ||| k ||| 0x40 ||| (if a = true then 0x10 else 0)) &&& 0xA0 = 0 := by
  rcases hk with rfl | rfl | rfl | rfl <;> interval_cases c4 <;> cases a <;> decide

/-- The mode port of a channel is none of the other ports `LegacyDmaProgramChannel` writes. -/
theorem mode_port_distinct (c : Fin 8) :
    (GetDmaPorts c.val).ModePort ≠ (GetDmaPorts c.val).MaskPort ∧
    (GetDmaPorts c.val).ModePort ≠ (GetDmaPorts c.val).ClearPort ∧
    (GetDmaPorts c.val).ModePort ≠ (GetDmaPorts c.val).AddrPort ∧
    (GetDmaPorts c.val).ModePort ≠ (GetDmaPorts c.val).PagePort ∧
    (GetDmaPorts c.val).ModePort ≠ (GetDmaPorts c.val).CountPort := by
  fin_cases c <;> decide

/-- C6. After every successful `LegacyDmaProgramChannel` call on channel `c` with caller mode
byte `M` and auto-init flag `a`, the byte written to the mode port, and the byte recorded in
the channel's `Mode` field, is `(c mod 4) | (M & 0x0C) | 0x40 | (a ? 0x10 : 0)`: its low two
bits are the channel number within the bank, bits 2-3 are the caller's operation, bit `0x40`
is set, bit `0x10` is set iff auto-initialize was requested, bits 5 and 7 are clear, and a
mode byte `M'` that agrees with `M` on `0x0C` gives the very same call. -/
theorem program_channel_mode_byte (This : LEGACY_IO_PROTOCOL_EX) (c : Fin 8) (M : Nat)
    (DmaBuffer : Option LEGACY_DMA_BUFFER) (n : Nat) (a : Bool) (hn : n < 0x10000)
    (hs : (LegacyDmaProgramChannel This c.val M DmaBuffer n a).Status = EFI_SUCCESS) :
    (∀ v, IoWrite8 (GetDmaPorts c.val).ModePort v ∈
        (LegacyDmaProgramChannel This c.val M DmaBuffer n a).Trace ↔
      v = (c.val % 4 ||| (M &&& 0x0C) ||| 0x40 ||| (if a = true then 0x10 else 0))) ∧
    ((LegacyDmaProgramChannel This c.val M DmaBuffer n a).This.DmaChannels c).Mode
      = (c.val % 4 ||| (M &&& 0x0C) ||| 0x40 ||| (if a = true then 0x10 else 0)) ∧
    (c.val % 4 ||| (M &&& 0x0C) ||| 0x40 ||| (if a = true then 0x10 else 0)) &&& 0x03 = c.val % 4 ∧
    (c.val % 4 ||| (M &&& 0x0C) ||| 0x40 ||| (if a = true then 0x10 else 0)) &&& 0x0C
      = M &&& 0x0C ∧
    (c.val % 4 ||| (M &&& 0x0C) ||| 0x40 ||| (if a = true then 0x10 else 0)) &&& 0x40 = 0x40 ∧
    ((c.val % 4 ||| (M &&& 0x0C) ||| 0x40 ||| (if a = true then 0x10 else 0)) &&& 0x10 = 0x10
      ↔ a = true) ∧
    (c.val % 4 ||| (M &&& 0x0C) ||| 0x40 ||| (if a = true then 0x10 else 0)) &&& 0xA0 = 0 ∧
    (∀ M2, M2 &&& 0x0C = M &&& 0x0C →
      LegacyDmaProgramChannel This c.val M2 DmaBuffer n a =
        LegacyDmaProgramChannel This c.val M DmaBuffer n a) := by
  obtain ⟨hc, hn0, Buf, hB, hb, hAe, hA⟩ := program_success_guards This c.val M DmaBuffer n a hs
  subst hB
  obtain ⟨b1, b2, b3, b4, b5⟩ :=
    mode_byte_bits (c.val % 4) (M &&& 0x0C) a (Nat.mod_lt _ (by decide)) (and_0C_cases M)
  obtain ⟨d1, d2, d3, d4, d5⟩ := mode_port_distinct c
  refine ⟨?_, ?_, b1, b2, b3, ?_, b5, ?_⟩
  · intro v
    rw [program_valid This c.val M Buf n a hc hb hn0 hn hAe hA]
    simp [d1, d2, d3, d4, d5]
  · rw [program_valid This c.val M Buf n a hc hb hn0 hn hAe hA]
    simp
  · rw [b4]
    cases a <;> simp
  · intro M2 hM
    rw [program_valid This c.val M Buf n a hc hb hn0 hn hAe hA,
      program_valid This c.val M2 Buf n a hc hb hn0 hn hAe hA, hM]

/-- C6 on channel 6 with the caller byte `0xFB` and auto-initialize: only the operation bits
`0x08` of the caller survive and the mode byte is `0x5A`. -/
theorem program_channel_mode_byte_witness :
    (8 : Nat) < 0x10000 ∧
    (LegacyDmaProgramChannel mLegacyIoProtocolEx 6 0xFB
        (some ⟨0x2000, 8, true, 0x2000⟩) 8 true).Status = EFI_SUCCESS ∧
    ((LegacyDmaProgramChannel mLegacyIoProtocolEx 6 0xFB
        (some ⟨0x2000, 8, true, 0x2000⟩) 8 true).This.DmaChannels 6).Mode = 0x5A :=
  ⟨by decide, by decide,
   (program_channel_mode_byte mLegacyIoProtocolEx 6 0xFB
      (some ⟨0x2000, 8, true, 0x2000⟩) 8 true (by decide) (by decide)).2.1⟩

/-- C7 as stated fails: programming channel 5 (16-bit bank) with the byte count 7 succeeds
and records `Count = 6`, the count after `Count = Count & ~0x1`, not the 7 the caller asked
for. -/
theorem program_channel_record_count_not_original :
    (LegacyDmaProgramChannel mLegacyIoProtocolEx 5 DMA_MODE_READ
        (some ⟨0x1000, 8, true, 0x1000⟩) 7 false).Status = EFI_SUCCESS ∧
    ((LegacyDmaProgramChannel mLegacyIoProtocolEx 5 DMA_MODE_READ
        (some ⟨0x1000, 8, true, 0x1000⟩) 7 false).This.DmaChannels 5).Count = 6 ∧
    ((LegacyDmaProgramChannel mLegacyIoProtocolEx 5 DMA_MODE_READ
        (some ⟨0x1000, 8, true, 0x1000⟩) 7 false).This.DmaChannels 5).Count ≠ 7 := by
  decide

/-- C7, amended. After every successful `LegacyDmaProgramChannel` call on channel `c` with a
physical address `A <= 0xFFFFFF` and a 16-bit byte count `n` (at least 2 when `c >= 4`),
channel `c`'s record holds `Channel = c`, `Mode =` the composed mode byte, `Address = A`,
`IsActive = FALSE` and `Count = n` when `c <= 3`, `Count = n` with its lowest bit cleared
when `c >= 4`; the records of the seven other channels are unchanged. -/
theorem program_channel_record (This : LEGACY_IO_PROTOCOL_EX) (c : Fin 8) (M : Nat)
    (Buf : LEGACY_DMA_BUFFER) (n : Nat) (a : Bool) (hn : n < 0x10000)
    (hA : Buf.PhysicalAddress ≤ 0xFFFFFF) (hE : 4 ≤ c.val → 2 ≤ n)
    (hs : (LegacyDmaProgramChannel This c.val M (some Buf) n a).Status = EFI_SUCCESS) :
    (LegacyDmaProgramChannel This c.val M (some Buf) n a).This.DmaChannels c =
      { Channel := c.val,
        Mode := c.val % 4 ||| (M &&& 0x0C) ||| 0x40 ||| (if a = true then 0x10 else 0),
        Count := if c.val ≤ 3 then n else n - n % 2,
        Address := Buf.PhysicalAddress,
        IsActive := false } ∧
    (∀ i : Fin 8, i ≠ c →
      (LegacyDmaProgramChannel This c.val M (some Buf) n a).This.DmaChannels i
        = This.DmaChannels i) := by
  obtain ⟨hc, hn0, Buf2, hB, hb, hAe, hA2⟩ :=
    program_success_guards This c.val M (some Buf) n a hs
  cases hB
  have _hE := hE
  have hA32 : Buf.PhysicalAddress % 0x100000000 = Buf.PhysicalAddress :=
    Nat.mod_eq_of_lt (by omega)
  have hcnt : (if 4 ≤ c.val then n - n % 2 else n) = (if c.val ≤ 3 then n else n - n % 2) := by
    split_ifs <;> first | rfl | omega
  rw [program_valid This c.val M Buf n a hc hb hn0 hn hAe hA2]
  constructor
  · simp [hA32, hcnt]
  · intro i hi
    simp [Function.update_noteq hi]

/-- C7, amended, on channel 5 with 7 bytes at `0x1000` (recorded count 6) while channel 2
keeps its record. -/
theorem program_channel_record_witness :
    ((7 : Nat) < 0x10000 ∧ (0x1000 : Nat) ≤ 0xFFFFFF) ∧
    (LegacyDmaProgramChannel mLegacyIoProtocolEx 5 DMA_MODE_READ
        (some ⟨0x1000, 8, true, 0x1000⟩) 7 false).This.DmaChannels 5 =
      { Channel := 5, Mode := 0x49, Count := 6, Address := 0x1000, IsActive := false } ∧
    (LegacyDmaProgramChannel mLegacyIoProtocolEx 5 DMA_MODE_READ
        (some ⟨0x1000, 8, true, 0x1000⟩) 7 false).This.DmaChannels 2 =
      mLegacyIoProtocolEx.DmaChannels 2 :=
  ⟨by decide,
   (program_channel_record mLegacyIoProtocolEx 5 DMA_MODE_READ ⟨0x1000, 8, true, 0x1000⟩ 7
      false (by decide) (by decide) (by decide) (by decide)).1,
   (program_channel_record mLegacyIoProtocolEx 5 DMA_MODE_READ ⟨0x1000, 8, true, 0x1000⟩ 7
      false (by decide) (by decide) (by decide) (by decide)).2 2 (by decide)⟩

/-- C8, the failing input. Programming channel 5 (16-bit bank) with the byte count 1 passes
the `Count == 0` check, is then rounded down to 0 bytes and still returns success: the count
register receives `0xFF`, `0xFF`, the recorded `Count` is 0, and the `LegacyDmaStart` that
follows returns `EFI_NOT_READY` without unmasking the channel. -/
theorem program_channel_one_byte_on_16bit_not_startable :
    (LegacyDmaProgramChannel mLegacyIoProtocolEx 5 DMA_MODE_READ
        (some ⟨0x1000, 8, true, 0x1000⟩) 1 false).Status = EFI_SUCCESS ∧
    (LegacyDmaProgramChannel mLegacyIoProtocolEx 5 DMA_MODE_READ
        (some ⟨0x1000, 8, true, 0x1000⟩) 1 false).Trace.drop 6 =
      [ IoWrite8 0xC6 0xFF, IoWrite8 0xC6 0xFF ] ∧
    ((LegacyDmaProgramChannel mLegacyIoProtocolEx 5 DMA_MODE_READ
        (some ⟨0x1000, 8, true, 0x1000⟩) 1 false).This.DmaChannels 5).Count = 0 ∧
    (LegacyDmaStart (LegacyDmaProgramChannel mLegacyIoProtocolEx 5 DMA_MODE_READ
        (some ⟨0x1000, 8, true, 0x1000⟩) 1 false).This 5).Status = EFI_NOT_READY ∧
    (LegacyDmaStart (LegacyDmaProgramChannel mLegacyIoProtocolEx 5 DMA_MODE_READ
        (some ⟨0x1000, 8, true, 0x1000⟩) 1 false).This 5).Trace = [] := by
  decide

/-! ## Claims about `LegacyDmaStart` -/

/-- The mask port of a channel's bank. -/
theorem mask_port_eq (c : Fin 8) :
    (GetDmaPorts c.val).MaskPort = if c.val ≤ 3 then 0x0A else 0xD4 := by
  fin_cases c <;> rfl

/-- C9. For every channel 0..7 whose configured `Count` is 0, `LegacyDmaStart` returns
`EFI_NOT_READY`, accesses no port and changes no channel record; for every channel above 7
it returns `EFI_INVALID_PARAMETER`, likewise with no port access and no state change. -/
theorem start_refuses_unprogrammed_and_invalid (This : LEGACY_IO_PROTOCOL_EX) :
    (∀ c : Fin 8, (This.DmaChannels c).Count = 0 →
      (LegacyDmaStart This c.val).Status = EFI_NOT_READY ∧
      (LegacyDmaStart This c.val).Trace = [] ∧
      (LegacyDmaStart This c.val).This = This) ∧
    (∀ Channel : Nat, Channel > 7 →
      (LegacyDmaStart This Channel).Status = EFI_INVALID_PARAMETER ∧
      (LegacyDmaStart This Channel).Trace = [] ∧
      (LegacyDmaStart This Channel).This = This) := by
  constructor
  · intro c h0
    have h7 : ¬ c.val > 7 := by omega
    unfold LegacyDmaStart
    simp only [dif_neg h7, Fin.eta, h0, if_true, and_self]
  · intro Channel h7
    unfold LegacyDmaStart
    simp only [dif_pos h7, and_self]

/-- C9 on the zero-initialised table at channel 3, and at channel 8. -/
theorem start_refuses_unprogrammed_and_invalid_witness :
    ((mLegacyIoProtocolEx.DmaChannels 3).Count = 0 ∧
      (LegacyDmaStart mLegacyIoProtocolEx 3).Status = EFI_NOT_READY ∧
      (LegacyDmaStart mLegacyIoProtocolEx 3).Trace = [] ∧
      (LegacyDmaStart mLegacyIoProtocolEx 3).This = mLegacyIoProtocolEx) ∧
    ((8 : Nat) > 7 ∧
      (LegacyDmaStart mLegacyIoProtocolEx 8).Status = EFI_INVALID_PARAMETER ∧
      (LegacyDmaStart mLegacyIoProtocolEx 8).Trace = [] ∧
      (LegacyDmaStart mLegacyIoProtocolEx 8).This = mLegacyIoProtocolEx) :=
  ⟨⟨rfl, (start_refuses_unprogrammed_and_invalid mLegacyIoProtocolEx).1 3 rfl⟩,
   ⟨by decide, (start_refuses_unprogrammed_and_invalid mLegacyIoProtocolEx).2 8 (by decide)⟩⟩

/-- C10. For every channel `c` in 0..7 whose configured `Count` is non-zero, `LegacyDmaStart`
returns success, its only port access is one write of the byte `c mod 4` (mask bit 2 clear)
to the bank's mask port (`0x0A` for `c <= 3`, `0xD4` for `c >= 4`), it sets the channel's
`IsActive` to `TRUE` and leaves the channel's other fields and every other channel's record
unchanged. -/
theorem start_unmasks_programmed_channel (This : LEGACY_IO_PROTOCOL_EX) (c : Fin 8)
    (hcount : (This.DmaChannels c).Count ≠ 0) :
    (LegacyDmaStart This c.val).Status = EFI_SUCCESS ∧
    (LegacyDmaStart This c.val).Trace =
      [IoWrite8 (if c.val ≤ 3 then 0x0A else 0xD4) (c.val % 4)] ∧
    (c.val % 4) &&& 0x04 = 0 ∧
    (GetDmaPorts c.val).MaskPort = (if c.val ≤ 3 then 0x0A else 0xD4) ∧
    ((LegacyDmaStart This c.val).This.DmaChannels c).IsActive = true ∧
    ((LegacyDmaStart This c.val).This.DmaChannels c).Mode = (This.DmaChannels c).Mode ∧
    ((LegacyDmaStart This c.val).This.DmaChannels c).Count = (This.DmaChannels c).Count ∧
    ((LegacyDmaStart This c.val).This.DmaChannels c).Address = (This.DmaChannels c).Address ∧
    ((LegacyDmaStart This c.val).This.DmaChannels c).Channel = (This.DmaChannels c).Channel ∧
    (∀ i : Fin 8, i ≠ c →
      (LegacyDmaStart This c.val).This.DmaChannels i = This.DmaChannels i) := by
  have h7 : ¬ c.val > 7 := by omega
  have hbit : (c.val % 4) &&& 0x04 = 0 := by
    have h : c.val % 4 < 4 := Nat.mod_lt _ (by decide)
    interval_cases (c.val % 4) <;> rfl
  unfold LegacyDmaStart
  simp only [dif_neg h7, Fin.eta, hcount, if_false, unmask_byte, mask_port_eq c,
    Function.update_same, true_and, hbit]
  intro i hi
  exact Function.update_noteq hi _ _

/-- C10 on channel 2 once it has been programmed with 256 bytes at `0x1000`: `LegacyDmaStart`
writes `0x02` to port `0x0A` and the channel becomes active. -/
theorem start_unmasks_programmed_channel_witness :
    ((LegacyDmaProgramChannel mLegacyIoProtocolEx 2 DMA_MODE_READ
        (some ⟨0x1000, 256, true, 0x1000⟩) 256 false).This.DmaChannels 2).Count ≠ 0 ∧
    (LegacyDmaStart (LegacyDmaProgramChannel mLegacyIoProtocolEx 2 DMA_MODE_READ
        (some ⟨0x1000, 256, true, 0x1000⟩) 256 false).This 2).Status = EFI_SUCCESS ∧
    (LegacyDmaStart (LegacyDmaProgramChannel mLegacyIoProtocolEx 2 DMA_MODE_READ
        (some ⟨0x1000, 256, true, 0x1000⟩) 256 false).This 2).Trace = [IoWrite8 0x0A 0x02] ∧
    ((LegacyDmaStart (LegacyDmaProgramChannel mLegacyIoProtocolEx 2 DMA_MODE_READ
        (some ⟨0x1000, 256, true, 0x1000⟩) 256 false).This 2).This.DmaChannels 2).IsActive
      = true :=
  ⟨by decide,
   (start_unmasks_programmed_channel (LegacyDmaProgramChannel mLegacyIoProtocolEx 2
      DMA_MODE_READ (some ⟨0x1000, 256, true, 0x1000⟩) 256 false).This 2 (by decide)).1,
   (start_unmasks_programmed_channel (LegacyDmaProgramChannel mLegacyIoProtocolEx 2
      DMA_MODE_READ (some ⟨0x1000, 256, true, 0x1000⟩) 256 false).This 2 (by decide)).2.1,
   (start_unmasks_programmed_channel (LegacyDmaProgramChannel mLegacyIoProtocolEx 2
      DMA_MODE_READ (some ⟨0x1000, 256, true, 0x1000⟩) 256 false).This 2 (by decide)).2.2.2.2.1⟩

/-! ## Claims about `LegacyDmaStatus` -/

/-- The count reconstructed from the low and the high byte read from the count port. -/
theorem count_join (lo hi : Nat) (hlo : lo < 0x100) (hhi : hi < 0x100) :
    (lo ||| ((hi <<< 8) % 0x10000)) % 0x10000 = lo + 256 * hi := by
  have h1 : hi <<< 8 = 2 ^ 8 * hi := by rw [Nat.shiftLeft_eq, Nat.mul_comm]
  have h2 : 2 ^ 8 * hi + lo = 2 ^ 8 * hi ||| lo := Nat.mul_add_lt_is_or (by omega) hi
  have h3 : (2 ^ 8 * hi) % 0x10000 = 2 ^ 8 * hi := Nat.mod_eq_of_lt (by omega)
  rw [h1, h3, Nat.or_comm, ← h2]
  omega

/-- The bit of a channel in its bank's status register. -/
theorem channel_bit (c : Nat) : (1 <<< (c &&& 0x03)) % 0x100 = 1 <<< (c % 4) := by
  rw [and_03_eq_mod]
  have h : c % 4 < 4 := Nat.mod_lt _ (by decide)
  interval_cases (c % 4) <;> rfl

/-- C11. For every channel `c` in 0..7, non-null output locations and bytes `s`, `lo`, `hi`
returned by the three port reads, `LegacyDmaStatus` returns success after exactly these
accesses, in order: read of the bank's status port (value `s`), write of `0xFF` to the bank's
clear-flip-flop port, read of the channel's count port (value `lo`), read of the channel's
count port (value `hi`). It reports `isActive = ((s & (1 << (c mod 4))) == 0)` and
`bytesRemaining = (lo + 256*hi + 1) mod 65536` for `c <= 3`,
`(2 * (lo + 256*hi + 1)) mod 65536` for `c >= 4`. -/
theorem status_accesses_and_report (This : LEGACY_IO_PROTOCOL_EX) (c : Fin 8)
    (b0 : Nat) (a0 : Bool) (s lo hi : Nat)
    (hs : s < 0x100) (hlo : lo < 0x100) (hhi : hi < 0x100) :
    (LegacyDmaStatus This c.val (some b0) (some a0) s lo hi).Status = EFI_SUCCESS ∧
    (LegacyDmaStatus This c.val (some b0) (some a0) s lo hi).Trace =
      [ IoRead8 (GetDmaPorts c.val).StatPort s,
        IoWrite8 (GetDmaPorts c.val).ClearPort 0xFF,
        IoRead8 (GetDmaPorts c.val).CountPort lo,
        IoRead8 (GetDmaPorts c.val).CountPort hi ] ∧
    (LegacyDmaStatus This c.val (some b0) (some a0) s lo hi).IsActive =
      some (decide (s &&& (1 <<< (c.val % 4)) = 0)) ∧
    (LegacyDmaStatus This c.val (some b0) (some a0) s lo hi).BytesRemaining =
      some (if c.val ≤ 3 then (lo + 256 * hi + 1) % 65536
            else (2 * (lo + 256 * hi + 1)) % 65536) := by
  have h7 : ¬ c.val > 7 := by omega
  have e1 : s % 0x100 = s := Nat.mod_eq_of_lt hs
  have e2 : lo % 0x100 = lo := Nat.mod_eq_of_lt hlo
  have e3 : hi % 0x100 = hi := Nat.mod_eq_of_lt hhi
  unfold LegacyDmaStatus
  simp only [dif_neg h7, reduceCtorEq, or_self, if_false, e1, e2, e3, count_join lo hi hlo hhi,
    channel_bit, true_and]
  by_cases h4 : 4 ≤ c.val
  · have h3 : ¬ c.val ≤ 3 := by omega
    simp only [ge_iff_le, h4, decide_True, if_true, h3, if_false, Option.some.injEq]
    omega
  · have h3 : c.val ≤ 3 := by omega
    simp [h4, h3]

/-- C11 on channel 2 with the status byte `0x0B` (bit 2 clear) and the count bytes `0xFF`,
`0x00`: the channel is reported active with 256 bytes remaining. -/
theorem status_accesses_and_report_witness :
    ((0x0B : Nat) < 0x100 ∧ (0xFF : Nat) < 0x100 ∧ (0x00 : Nat) < 0x100) ∧
    (LegacyDmaStatus mLegacyIoProtocolEx 2 (some 0) (some false) 0x0B 0xFF 0x00).Status
      = EFI_SUCCESS ∧
    (LegacyDmaStatus mLegacyIoProtocolEx 2 (some 0) (some false) 0x0B 0xFF 0x00).Trace =
      [ IoRead8 0x08 0x0B, IoWrite8 0x0C 0xFF, IoRead8 0x05 0xFF, IoRead8 0x05 0x00 ] ∧
    (LegacyDmaStatus mLegacyIoProtocolEx 2 (some 0) (some false) 0x0B 0xFF 0x00).IsActive
      = some true ∧
    (LegacyDmaStatus mLegacyIoProtocolEx 2 (some 0) (some false) 0x0B 0xFF 0x00).BytesRemaining
      = some 256 :=
  ⟨by decide,
   status_accesses_and_report mLegacyIoProtocolEx 2 0 false 0x0B 0xFF 0x00
     (by decide) (by decide) (by decide)⟩

/-- C12. Every `LegacyDmaStatus` call leaves the `Channel`, `Mode`, `Count` and `Address`
fields of all eight channel records, and the `IsActive` flag of every channel other than the
queried one, unchanged; on success the queried channel's stored `IsActive` is the value
reported to the caller; and when the channel is above 7 or either output location is null
the call returns `EFI_INVALID_PARAMETER` with no port access, the protocol instance and both
output locations untouched. -/
theorem status_frame (This : LEGACY_IO_PROTOCOL_EX) (Channel : Nat)
    (BytesRemaining : Option Nat) (IsActive : Option Bool) (s lo hi : Nat) :
    (∀ i : Fin 8,
      ((LegacyDmaStatus This Channel BytesRemaining IsActive s lo hi).This.DmaChannels i).Channel
        = (This.DmaChannels i).Channel ∧
      ((LegacyDmaStatus This Channel BytesRemaining IsActive s lo hi).This.DmaChannels i).Mode
        = (This.DmaChannels i).Mode ∧
      ((LegacyDmaStatus This Channel BytesRemaining IsActive s lo hi).This.DmaChannels i).Count
        = (This.DmaChannels i).Count ∧
      ((LegacyDmaStatus This Channel BytesRemaining IsActive s lo hi).This.DmaChannels i).Address
        = (This.DmaChannels i).Address) ∧
    (∀ i : Fin 8, i.val ≠ Channel →
      (LegacyDmaStatus This Channel BytesRemaining IsActive s lo hi).This.DmaChannels i
        = This.DmaChannels i) ∧
    (∀ c : Fin 8, c.val = Channel →
      (LegacyDmaStatus This Channel BytesRemaining IsActive s lo hi).Status = EFI_SUCCESS →
      (LegacyDmaStatus This Channel BytesRemaining IsActive s lo hi).IsActive =
        some ((LegacyDmaStatus This Channel BytesRemaining IsActive s lo hi).This.DmaChannels
          c).IsActive) ∧
    ((Channel > 7 ∨ BytesRemaining = none ∨ IsActive = none) →
      (LegacyDmaStatus This Channel BytesRemaining IsActive s lo hi).Status
        = EFI_INVALID_PARAMETER ∧
      (LegacyDmaStatus This Channel BytesRemaining IsActive s lo hi).Trace = [] ∧
      (LegacyDmaStatus This Channel BytesRemaining IsActive s lo hi).This = This ∧
      (LegacyDmaStatus This Channel BytesRemaining IsActive s lo hi).BytesRemaining
        = BytesRemaining ∧
      (LegacyDmaStatus This Channel BytesRemaining IsActive s lo hi).IsActive = IsActive) := by
  unfold LegacyDmaStatus
  by_cases h7 : Channel > 7
  · simp [h7]
  · by_cases hnull : BytesRemaining = none ∨ IsActive = none
    · simp [h7, hnull]
    · simp only [dif_neg h7, if_neg hnull]
      refine ⟨?_, ?_, ?_, ?_⟩
      · intro i
        by_cases hi : i = ⟨Channel, by omega⟩
        · subst hi
          simp
        · simp [Function.update_noteq hi]
      · intro i hi
        have hne : i ≠ ⟨Channel, by omega⟩ := by
          intro h; apply hi; rw [h]
        simp [Function.update_noteq hne]
      · intro c hc _
        subst hc
        simp
      · intro h
        rcases h with h | h | h
        · exact absurd h h7
        · exact absurd (Or.inl h) hnull
        · exact absurd (Or.inr h) hnull

/-- C12 on the zero-initialised table: a status query of channel 2 leaves channel 2's
configured count and channel 3's record alone and stores the reported flag; a query with a
null `BytesRemaining` location is refused without any access. -/
theorem status_frame_witness :
    ((LegacyDmaStatus mLegacyIoProtocolEx 2 (some 0) (some false) 0x0B 0xFF 0x00).This.DmaChannels
        2).Count = (mLegacyIoProtocolEx.DmaChannels 2).Count ∧
    ((3 : Fin 8).val ≠ 2 ∧
      (LegacyDmaStatus mLegacyIoProtocolEx 2 (some 0) (some false) 0x0B 0xFF 0x00).This.DmaChannels
        3 = mLegacyIoProtocolEx.DmaChannels 3) ∧
    (LegacyDmaStatus mLegacyIoProtocolEx 2 (some 0) (some false) 0x0B 0xFF 0x00).IsActive =
      some ((LegacyDmaStatus mLegacyIoProtocolEx 2 (some 0) (some false) 0x0B 0xFF
        0x00).This.DmaChannels 2).IsActive ∧
    (LegacyDmaStatus mLegacyIoProtocolEx 2 none (some false) 0x0B 0xFF 0x00).Status
      = EFI_INVALID_PARAMETER ∧
    (LegacyDmaStatus mLegacyIoProtocolEx 2 none (some false) 0x0B 0xFF 0x00).Trace = [] :=
  ⟨((status_frame mLegacyIoProtocolEx 2 (some 0) (some false) 0x0B 0xFF 0x00).1 2).2.2.1,
   ⟨by decide,
    (status_frame mLegacyIoProtocolEx 2 (some 0) (some false) 0x0B 0xFF 0x00).2.1 3
      (by decide)⟩,
   (status_frame mLegacyIoProtocolEx 2 (some 0) (some false) 0x0B 0xFF 0x00).2.2.1 2 rfl
      (by decide),
   ((status_frame mLegacyIoProtocolEx 2 none (some false) 0x0B 0xFF 0x00).2.2.2
      (Or.inr (Or.inl rfl))).1,
   ((status_frame mLegacyIoProtocolEx 2 none (some false) 0x0B 0xFF 0x00).2.2.2
      (Or.inr (Or.inl rfl))).2.1⟩

/-! ## Claims about `LegacyDmaStop` -/

/-- C13. For every channel `c` in 0..7, whatever its record holds, `LegacyDmaStop` returns
success, its only port access is one write of `0x04 | (c mod 4)` to the bank's mask port, it
sets the channel's `IsActive` to `FALSE` and leaves the channel's `Count`, `Mode`, `Address`
and every other channel's record unchanged; for a channel above 7 it returns
`EFI_INVALID_PARAMETER` with no port access and no state change. -/
theorem stop_masks_channel (This : LEGACY_IO_PROTOCOL_EX) :
    (∀ c : Fin 8,
      (LegacyDmaStop This c.val).Status = EFI_SUCCESS ∧
      (LegacyDmaStop This c.val).Trace =
        [IoWrite8 (if c.val ≤ 3 then 0x0A else 0xD4) (0x04 ||| c.val % 4)] ∧
      (GetDmaPorts c.val).MaskPort = (if c.val ≤ 3 then 0x0A else 0xD4) ∧
      ((LegacyDmaStop This c.val).This.DmaChannels c).IsActive = false ∧
      ((LegacyDmaStop This c.val).This.DmaChannels c).Count = (This.DmaChannels c).Count ∧
      ((LegacyDmaStop This c.val).This.DmaChannels c).Mode = (This.DmaChannels c).Mode ∧
      ((LegacyDmaStop This c.val).This.DmaChannels c).Address = (This.DmaChannels c).Address ∧
      ((LegacyDmaStop This c.val).This.DmaChannels c).Channel = (This.DmaChannels c).Channel ∧
      (∀ i : Fin 8, i ≠ c →
        (LegacyDmaStop This c.val).This.DmaChannels i = This.DmaChannels i)) ∧
    (∀ Channel : Nat, Channel > 7 →
      (LegacyDmaStop This Channel).Status = EFI_INVALID_PARAMETER ∧
      (LegacyDmaStop This Channel).Trace = [] ∧
      (LegacyDmaStop This Channel).This = This) := by
  constructor
  · intro c
    have h7 : ¬ c.val > 7 := by omega
    unfold LegacyDmaStop
    simp only [dif_neg h7, Fin.eta, mask_byte, mask_port_eq c, Function.update_same, true_and]
    intro i hi
    exact Function.update_noteq hi _ _
  · intro Channel h7
    unfold LegacyDmaStop
    simp only [dif_pos h7, and_self]

/-- C13 on channel 2 after it has been programmed and started: `LegacyDmaStop` writes `0x06`
to port `0x0A`, clears `IsActive` and keeps the configured count 256; channel 8 is refused. -/
theorem stop_masks_channel_witness :
    (LegacyDmaStop (LegacyDmaStart (LegacyDmaProgramChannel mLegacyIoProtocolEx 2 DMA_MODE_READ
        (some ⟨0x1000, 256, true, 0x1000⟩) 256 false).This 2).This 2).Trace
      = [IoWrite8 0x0A 0x06] ∧
    ((LegacyDmaStop (LegacyDmaStart (LegacyDmaProgramChannel mLegacyIoProtocolEx 2 DMA_MODE_READ
        (some ⟨0x1000, 256, true, 0x1000⟩) 256 false).This 2).This 2).This.DmaChannels
        2).IsActive = false ∧
    ((8 : Nat) > 7 ∧ (LegacyDmaStop mLegacyIoProtocolEx 8).Status = EFI_INVALID_PARAMETER) :=
  ⟨((stop_masks_channel (LegacyDmaStart (LegacyDmaProgramChannel mLegacyIoProtocolEx 2
      DMA_MODE_READ (some ⟨0x1000, 256, true, 0x1000⟩) 256 false).This 2).This).1 2).2.1,
   ((stop_masks_channel (LegacyDmaStart (LegacyDmaProgramChannel mLegacyIoProtocolEx 2
      DMA_MODE_READ (some ⟨0x1000, 256, true, 0x1000⟩) 256 false).This 2).This).1 2).2.2.2.1,
   ⟨by decide, ((stop_masks_channel mLegacyIoProtocolEx).2 8 (by decide)).1⟩⟩

/-- C14. `LegacyDmaStop` is idempotent: for every protocol instance and every channel `c` in
0..7, the call and the call repeated right after it both return success, the second call
leaves exactly the instance the first one left, and it issues the same single mask write. -/
theorem stop_idempotent (This : LEGACY_IO_PROTOCOL_EX) (c : Fin 8) :
    (LegacyDmaStop This c.val).Status = EFI_SUCCESS ∧
    (LegacyDmaStop (LegacyDmaStop This c.val).This c.val).Status = EFI_SUCCESS ∧
    (LegacyDmaStop (LegacyDmaStop This c.val).This c.val).This
      = (LegacyDmaStop This c.val).This ∧
    (LegacyDmaStop (LegacyDmaStop This c.val).This c.val).Trace
      = (LegacyDmaStop This c.val).Trace ∧
    (LegacyDmaStop This c.val).Trace
      = [IoWrite8 (GetDmaPorts c.val).MaskPort (0x04 ||| c.val % 4)] := by
  have h7 : ¬ c.val > 7 := by omega
  unfold LegacyDmaStop
  simp only [dif_neg h7, Fin.eta, mask_byte, Function.update_same, Function.update_idem,
    and_self]

/-! ## Claims about sequences of operations -/

/-- C16. For every channel 0..7 `GetDmaPorts` returns the fixed 8237 table: channels 0..3 get
command/status `0x08`, mask `0x0A`, mode `0x0B`, clear `0x0C`, channels 4..7 get
command/status `0xD0`, mask `0xD4`, mode `0xD6`, clear `0xD8`; the (address, count, page)
triples are `(0x00,0x01,0x87)`, `(0x02,0x03,0x83)`, `(0x04,0x05,0x81)`, `(0x06,0x07,0x82)`,
`(0xC0,0xC2,0x8F)`, `(0xC4,0xC6,0x8B)`, `(0xC8,0xCA,0x89)`, `(0xCC,0xCE,0x8A)`; and the 24
address, count and page ports together with the 8 bank-shared port numbers are pairwise
distinct, so no channel port is shared with another channel or with a bank port. -/
theorem get_dma_ports_table :
    GetDmaPorts 0 =
      { AddrPort := 0x00, CountPort := 0x01, PagePort := 0x87, CmdPort := 0x08,
        StatPort := 0x08, MaskPort := 0x0A, ModePort := 0x0B, ClearPort := 0x0C } ∧
    GetDmaPorts 1 =
      { AddrPort := 0x02, CountPort := 0x03, PagePort := 0x83, CmdPort := 0x08,
        StatPort := 0x08, MaskPort := 0x0A, ModePort := 0x0B, ClearPort := 0x0C } ∧
    GetDmaPorts 2 =
      { AddrPort := 0x04, CountPort := 0x05, PagePort := 0x81, CmdPort := 0x08,
        StatPort := 0x08, MaskPort := 0x0A, ModePort := 0x0B, ClearPort := 0x0C } ∧
    GetDmaPorts 3 =
      { AddrPort := 0x06, CountPort := 0x07, PagePort := 0x82, CmdPort := 0x08,
        StatPort := 0x08, MaskPort := 0x0A, ModePort := 0x0B, ClearPort := 0x0C } ∧
    GetDmaPorts 4 =
      { AddrPort := 0xC0, CountPort := 0xC2, PagePort := 0x8F, CmdPort := 0xD0,
        StatPort := 0xD0, MaskPort := 0xD4, ModePort := 0xD6, ClearPort := 0xD8 } ∧
    GetDmaPorts 5 =
      { AddrPort := 0xC4, CountPort := 0xC6, PagePort := 0x8B, CmdPort := 0xD0,
        StatPort := 0xD0, MaskPort := 0xD4, ModePort := 0xD6, ClearPort := 0xD8 } ∧
    GetDmaPorts 6 =
      { AddrPort := 0xC8, CountPort := 0xCA, PagePort := 0x89, CmdPort := 0xD0,
        StatPort := 0xD0, MaskPort := 0xD4, ModePort := 0xD6, ClearPort := 0xD8 } ∧
    GetDmaPorts 7 =
      { AddrPort := 0xCC, CountPort := 0xCE, PagePort := 0x8A, CmdPort := 0xD0,
        StatPort := 0xD0, MaskPort := 0xD4, ModePort := 0xD6, ClearPort := 0xD8 } ∧
    (((List.range 8).map (fun c => (GetDmaPorts c).AddrPort)) ++
     ((List.range 8).map (fun c => (GetDmaPorts c).CountPort)) ++
     ((List.range 8).map (fun c => (GetDmaPorts c).PagePort)) ++
     [ (GetDmaPorts 0).CmdPort, (GetDmaPorts 0).MaskPort, (GetDmaPorts 0).ModePort,
       (GetDmaPorts 0).ClearPort, (GetDmaPorts 4).CmdPort, (GetDmaPorts 4).MaskPort,
       (GetDmaPorts 4).ModePort, (GetDmaPorts 4).ClearPort ]).Nodup := by
  decide

/-! ## Claims about `LegacyDmaAllocateBuffer` -/

/-- C17, the failing input. The allocator hands back the region at `0xFFFFF0` for a request of
`0x20` bytes: the start lies below 16 MiB, so the call succeeds, but the last byte of the
buffer is at `0x100000F`, above `0xFFFFFF`. -/
theorem allocate_buffer_crosses_16MiB :
    (LegacyDmaAllocateBuffer (fun _ => (EFI_SUCCESS, 0xFFFFF0)) 0x20
        (some ⟨0, 0, false, 0⟩)).Status = EFI_SUCCESS ∧
    (LegacyDmaAllocateBuffer (fun _ => (EFI_SUCCESS, 0xFFFFF0)) 0x20
        (some ⟨0, 0, false, 0⟩)).DmaBuffer =
      some { Buffer := 0xFFFFF0, Length := 0x20, IsPhysical := true,
             PhysicalAddress := 0xFFFFF0 } ∧
    ¬ ((0xFFFFF0 : Nat) + 0x20 - 1 ≤ 0xFFFFFF) := by
  decide

/-- C18. Every failing `LegacyDmaAllocateBuffer` call leaves the caller's output structure
unchanged and holds no region: the regions acquired are exactly the regions released. When
the allocator returns a region whose address is above `0xFFFFFF` the call returns
`EFI_OUT_OF_RESOURCES` and its calls are the allocation followed by one `FreePool` of that
region; when the allocator fails, its status is returned and the allocation is the only
call. -/
theorem allocate_buffer_failure_holds_nothing (AllocatePool : Nat → EFI_STATUS × Nat)
    (Size : Nat) (DmaBuffer : Option LEGACY_DMA_BUFFER) :
    ((LegacyDmaAllocateBuffer AllocatePool Size DmaBuffer).Status ≠ EFI_SUCCESS →
      (LegacyDmaAllocateBuffer AllocatePool Size DmaBuffer).DmaBuffer = DmaBuffer ∧
      acquiredRegions (LegacyDmaAllocateBuffer AllocatePool Size DmaBuffer).Calls
        = releasedRegions (LegacyDmaAllocateBuffer AllocatePool Size DmaBuffer).Calls ∧
      (acquiredRegions (LegacyDmaAllocateBuffer AllocatePool Size DmaBuffer).Calls).length
        = (releasedRegions (LegacyDmaAllocateBuffer AllocatePool Size DmaBuffer).Calls).length) ∧
    (DmaBuffer ≠ none → Size ≠ 0 → (AllocatePool Size).1 = EFI_SUCCESS →
      (AllocatePool Size).2 > 0xFFFFFF →
      (LegacyDmaAllocateBuffer AllocatePool Size DmaBuffer).Status = EFI_OUT_OF_RESOURCES ∧
      (LegacyDmaAllocateBuffer AllocatePool Size DmaBuffer).Calls =
        [ MemCall.AllocatePool Size EFI_SUCCESS (AllocatePool Size).2,
          MemCall.FreePool (AllocatePool Size).2 ] ∧
      releasedRegions (LegacyDmaAllocateBuffer AllocatePool Size DmaBuffer).Calls
        = [(AllocatePool Size).2]) ∧
    (DmaBuffer ≠ none → Size ≠ 0 → (AllocatePool Size).1 ≠ EFI_SUCCESS →
      (LegacyDmaAllocateBuffer AllocatePool Size DmaBuffer).Status = (AllocatePool Size).1 ∧
      (LegacyDmaAllocateBuffer AllocatePool Size DmaBuffer).Calls =
        [ MemCall.AllocatePool Size (AllocatePool Size).1 (AllocatePool Size).2 ] ∧
      releasedRegions (LegacyDmaAllocateBuffer AllocatePool Size DmaBuffer).Calls = []) := by
  cases DmaBuffer with
  | none => simp [LegacyDmaAllocateBuffer, acquiredRegions, releasedRegions]
  | some Out =>
    by_cases h0 : Size = 0
    · simp [LegacyDmaAllocateBuffer, h0, acquiredRegions, releasedRegions]
    · by_cases he : (AllocatePool Size).1 = EFI_SUCCESS
      · by_cases hbig : (AllocatePool Size).2 > 0xFFFFFF
        · simp [LegacyDmaAllocateBuffer, h0, he, hbig, EFI_ERROR, acquiredRegions,
            releasedRegions]
        · simp [LegacyDmaAllocateBuffer, h0, he, hbig, EFI_ERROR, acquiredRegions,
            releasedRegions]
      · simp [LegacyDmaAllocateBuffer, h0, he, EFI_ERROR, acquiredRegions, releasedRegions]

/-- C18 with an allocator that returns the region at `0x1000000`, and with an allocator that
fails with `EFI_OUT_OF_RESOURCES`. -/
theorem allocate_buffer_failure_holds_nothing_witness :
    ((LegacyDmaAllocateBuffer (fun _ => (EFI_SUCCESS, 0x1000000)) 0x20
        (some ⟨0, 0, false, 0⟩)).Status = EFI_OUT_OF_RESOURCES ∧
     (LegacyDmaAllocateBuffer (fun _ => (EFI_SUCCESS, 0x1000000)) 0x20
        (some ⟨0, 0, false, 0⟩)).Calls =
       [ MemCall.AllocatePool 0x20 EFI_SUCCESS 0x1000000, MemCall.FreePool 0x1000000 ] ∧
     releasedRegions (LegacyDmaAllocateBuffer (fun _ => (EFI_SUCCESS, 0x1000000)) 0x20
        (some ⟨0, 0, false, 0⟩)).Calls = [0x1000000]) ∧
    (LegacyDmaAllocateBuffer (fun _ => (EFI_SUCCESS, 0x1000000)) 0x20
        (some ⟨0, 0, false, 0⟩)).DmaBuffer = some ⟨0, 0, false, 0⟩ ∧
    (LegacyDmaAllocateBuffer (fun _ => (EFI_OUT_OF_RESOURCES, 0)) 0x20
        (some ⟨0, 0, false, 0⟩)).Status = EFI_OUT_OF_RESOURCES ∧
    (LegacyDmaAllocateBuffer (fun _ => (EFI_OUT_OF_RESOURCES, 0)) 0x20
        (some ⟨0, 0, false, 0⟩)).Calls = [ MemCall.AllocatePool 0x20 EFI_OUT_OF_RESOURCES 0 ] :=
  ⟨(allocate_buffer_failure_holds_nothing (fun _ => (EFI_SUCCESS, 0x1000000)) 0x20
      (some ⟨0, 0, false, 0⟩)).2.1 (by decide) (by decide) rfl (by decide),
   ((allocate_buffer_failure_holds_nothing (fun _ => (EFI_SUCCESS, 0x1000000)) 0x20
      (some ⟨0, 0, false, 0⟩)).1 (by decide)).1,
   ((allocate_buffer_failure_holds_nothing (fun _ => (EFI_OUT_OF_RESOURCES, 0)) 0x20
      (some ⟨0, 0, false, 0⟩)).2.2 (by decide) (by decide) (by decide)).1,
   ((allocate_buffer_failure_holds_nothing (fun _ => (EFI_OUT_OF_RESOURCES, 0)) 0x20
      (some ⟨0, 0, false, 0⟩)).2.2 (by decide) (by decide) (by decide)).2.1⟩

/-- C19. For every `LegacyDmaAllocateBuffer` call with `Size = 0` or a null output structure
the result is `EFI_INVALID_PARAMETER`, no service is called (the allocator is never invoked,
whatever it would have returned) and the output structure is left as it was. -/
theorem allocate_buffer_rejects_bad_arguments (AllocatePool : Nat → EFI_STATUS × Nat)
    (Size : Nat) (DmaBuffer : Option LEGACY_DMA_BUFFER)
    (h : Size = 0 ∨ DmaBuffer = none) :
    (LegacyDmaAllocateBuffer AllocatePool Size DmaBuffer).Status = EFI_INVALID_PARAMETER ∧
    (LegacyDmaAllocateBuffer AllocatePool Size DmaBuffer).Calls = [] ∧
    (LegacyDmaAllocateBuffer AllocatePool Size DmaBuffer).DmaBuffer = DmaBuffer ∧
    (∀ Other : Nat → EFI_STATUS × Nat,
      (LegacyDmaAllocateBuffer Other Size DmaBuffer).Status = EFI_INVALID_PARAMETER ∧
      (LegacyDmaAllocateBuffer Other Size DmaBuffer).Calls = []) := by
  cases DmaBuffer with
  | none => simp [LegacyDmaAllocateBuffer]
  | some Out =>
    rcases h with h | h
    · simp [LegacyDmaAllocateBuffer, h]
    · cases h

/-- C19 at `Size = 0`, and at a null output structure. -/
theorem allocate_buffer_rejects_bad_arguments_witness :
    (LegacyDmaAllocateBuffer (fun _ => (EFI_SUCCESS, 0x1000)) 0
        (some ⟨0, 0, false, 0⟩)).Status = EFI_INVALID_PARAMETER ∧
    (LegacyDmaAllocateBuffer (fun _ => (EFI_SUCCESS, 0x1000)) 0
        (some ⟨0, 0, false, 0⟩)).Calls = [] ∧
    (LegacyDmaAllocateBuffer (fun _ => (EFI_SUCCESS, 0x1000)) 0x20 none).Status
      = EFI_INVALID_PARAMETER ∧
    (LegacyDmaAllocateBuffer (fun _ => (EFI_SUCCESS, 0x1000)) 0x20 none).Calls = [] :=
  ⟨(allocate_buffer_rejects_bad_arguments (fun _ => (EFI_SUCCESS, 0x1000)) 0
      (some ⟨0, 0, false, 0⟩) (Or.inl rfl)).1,
   (allocate_buffer_rejects_bad_arguments (fun _ => (EFI_SUCCESS, 0x1000)) 0
      (some ⟨0, 0, false, 0⟩) (Or.inl rfl)).2.1,
   (allocate_buffer_rejects_bad_arguments (fun _ => (EFI_SUCCESS, 0x1000)) 0x20 none
      (Or.inr rfl)).1,
   (allocate_buffer_rejects_bad_arguments (fun _ => (EFI_SUCCESS, 0x1000)) 0x20 none
      (Or.inr rfl)).2.1⟩

/-- C20. For every `Size >= 1` and non-null output structure, if the allocator succeeds with a
region at an address `a <= 0xFFFFFF`, `LegacyDmaAllocateBuffer` returns success, its calls are
the allocation followed by one `ZeroMem` of the `Size` bytes at `a`, the output structure holds
`Buffer = a`, `Length = Size`, `IsPhysical = TRUE`, `PhysicalAddress = a`, and nothing is
released. -/
theorem allocate_buffer_success (AllocatePool : Nat → EFI_STATUS × Nat)
    (Size : Nat) (Out : LEGACY_DMA_BUFFER) (a : Nat)
    (hsize : 1 ≤ Size) (halloc : AllocatePool Size = (EFI_SUCCESS, a)) (ha : a ≤ 0xFFFFFF) :
    (LegacyDmaAllocateBuffer AllocatePool Size (some Out)).Status = EFI_SUCCESS ∧
    (LegacyDmaAllocateBuffer AllocatePool Size (some Out)).Calls =
      [ MemCall.AllocatePool Size EFI_SUCCESS a, MemCall.ZeroMem a Size ] ∧
    (LegacyDmaAllocateBuffer AllocatePool Size (some Out)).DmaBuffer =
      some { Buffer := a, Length := Size, IsPhysical := true, PhysicalAddress := a } ∧
    releasedRegions (LegacyDmaAllocateBuffer AllocatePool Size (some Out)).Calls = [] := by
  have h0 : Size ≠ 0 := by omega
  have hbig : ¬ a > 0xFFFFFF := by omega
  simp [LegacyDmaAllocateBuffer, h0, halloc, hbig, EFI_ERROR, releasedRegions]

/-- C20 with 256 bytes handed back at `0x1000`. -/
theorem allocate_buffer_success_witness :
    ((1 : Nat) ≤ 256 ∧ (0x1000 : Nat) ≤ 0xFFFFFF) ∧
    (LegacyDmaAllocateBuffer (fun _ => (EFI_SUCCESS, 0x1000)) 256
        (some ⟨0, 0, false, 0⟩)).Status = EFI_SUCCESS ∧
    (LegacyDmaAllocateBuffer (fun _ => (EFI_SUCCESS, 0x1000)) 256
        (some ⟨0, 0, false, 0⟩)).Calls =
      [ MemCall.AllocatePool 256 EFI_SUCCESS 0x1000, MemCall.ZeroMem 0x1000 256 ] ∧
    (LegacyDmaAllocateBuffer (fun _ => (EFI_SUCCESS, 0x1000)) 256
        (some ⟨0, 0, false, 0⟩)).DmaBuffer =
      some { Buffer := 0x1000, Length := 256, IsPhysical := true, PhysicalAddress := 0x1000 } ∧
    releasedRegions (LegacyDmaAllocateBuffer (fun _ => (EFI_SUCCESS, 0x1000)) 256
        (some ⟨0, 0, false, 0⟩)).Calls = [] :=
  ⟨by decide,
   allocate_buffer_success (fun _ => (EFI_SUCCESS, 0x1000)) 256 ⟨0, 0, false, 0⟩ 0x1000
     (by decide) rfl (by decide)⟩

/-! ## Claims about `LegacyDmaFreeBuffer` -/

/-- C21. For every buffer structure with a non-null memory pointer `LegacyDmaFreeBuffer`
returns success, its only service call is one `FreePool` of that region, and it resets the
structure to `Buffer = NULL`, `Length = 0`, `IsPhysical = FALSE`,
`PhysicalAddress = 0`. A second `LegacyDmaFreeBuffer` on the same structure, and any call with
a null structure or a null memory pointer, returns `EFI_INVALID_PARAMETER` and calls nothing,
so over the two calls the region is released exactly once. -/
theorem free_buffer_releases_once (Buf : LEGACY_DMA_BUFFER) (hb : Buf.Buffer ≠ 0) :
    (LegacyDmaFreeBuffer (some Buf)).Status = EFI_SUCCESS ∧
    (LegacyDmaFreeBuffer (some Buf)).Calls = [MemCall.FreePool Buf.Buffer] ∧
    (LegacyDmaFreeBuffer (some Buf)).DmaBuffer =
      some { Buffer := 0, Length := 0, IsPhysical := false, PhysicalAddress := 0 } ∧
    (LegacyDmaFreeBuffer (LegacyDmaFreeBuffer (some Buf)).DmaBuffer).Status
      = EFI_INVALID_PARAMETER ∧
    (LegacyDmaFreeBuffer (LegacyDmaFreeBuffer (some Buf)).DmaBuffer).Calls = [] ∧
    (LegacyDmaFreeBuffer (LegacyDmaFreeBuffer (some Buf)).DmaBuffer).DmaBuffer
      = (LegacyDmaFreeBuffer (some Buf)).DmaBuffer ∧
    releasedRegions ((LegacyDmaFreeBuffer (some Buf)).Calls ++
      (LegacyDmaFreeBuffer (LegacyDmaFreeBuffer (some Buf)).DmaBuffer).Calls)
      = [Buf.Buffer] ∧
    ((LegacyDmaFreeBuffer none).Status = EFI_INVALID_PARAMETER ∧
      (LegacyDmaFreeBuffer none).Calls = []) ∧
    (∀ Other : LEGACY_DMA_BUFFER, Other.Buffer = 0 →
      (LegacyDmaFreeBuffer (some Other)).Status = EFI_INVALID_PARAMETER ∧
      (LegacyDmaFreeBuffer (some Other)).Calls = [] ∧
      (LegacyDmaFreeBuffer (some Other)).DmaBuffer = some Other) := by
  refine ⟨?_, ?_, ?_, ?_, ?_, ?_, ?_, ⟨rfl, rfl⟩, ?_⟩
  · simp [LegacyDmaFreeBuffer, hb]
  · simp [LegacyDmaFreeBuffer, hb]
  · simp [LegacyDmaFreeBuffer, hb]
  · simp [LegacyDmaFreeBuffer, hb]
  · simp [LegacyDmaFreeBuffer, hb]
  · simp [LegacyDmaFreeBuffer, hb]
  · simp [LegacyDmaFreeBuffer, hb, releasedRegions]
  · intro Other h0
    simp [LegacyDmaFreeBuffer, h0]

/-- C21 on the buffer of 256 bytes at `0x1000`. -/
theorem free_buffer_releases_once_witness :
    (0x1000 : Nat) ≠ 0 ∧
    (LegacyDmaFreeBuffer (some ⟨0x1000, 256, true, 0x1000⟩)).Status = EFI_SUCCESS ∧
    (LegacyDmaFreeBuffer (some ⟨0x1000, 256, true, 0x1000⟩)).Calls
      = [MemCall.FreePool 0x1000] ∧
    (LegacyDmaFreeBuffer (some ⟨0x1000, 256, true, 0x1000⟩)).DmaBuffer =
      some { Buffer := 0, Length := 0, IsPhysical := false, PhysicalAddress := 0 } ∧
    (LegacyDmaFreeBuffer (LegacyDmaFreeBuffer (some ⟨0x1000, 256, true, 0x1000⟩)).DmaBuffer).Status
      = EFI_INVALID_PARAMETER :=
  ⟨by decide,
   (free_buffer_releases_once ⟨0x1000, 256, true, 0x1000⟩ (by decide)).1,
   (free_buffer_releases_once ⟨0x1000, 256, true, 0x1000⟩ (by decide)).2.1,
   (free_buffer_releases_once ⟨0x1000, 256, true, 0x1000⟩ (by decide)).2.2.1,
   (free_buffer_releases_once ⟨0x1000, 256, true, 0x1000⟩ (by decide)).2.2.2.1⟩

/-! ## Claims about `LegacyIoRead` and `LegacyIoWrite` -/

/-- Storing `v`, a value of `m` units, over the low part of `Old`: the low part becomes `v`,
the rest of `Old` is kept. -/
theorem store_low_part (Old v m : Nat) (hv : v < m) :
    (Old / m * m + v) % m = v ∧ (Old / m * m + v) / m = Old / m := by
  have hm : 0 < m := by omega
  constructor
  · rw [Nat.add_comm, Nat.add_mul_mod_self_right, Nat.mod_eq_of_lt hv]
  · rw [Nat.add_comm, Nat.add_mul_div_right _ _ hm, Nat.div_eq_of_lt hv, Nat.zero_add]

/-- The results of `LegacyIoRead`, by the outcome of its checks. -/
theorem io_read_cases (This : LEGACY_IO_PROTOCOL) (Port Width : Nat) (Data : Option Nat)
    (ReadValue : Nat) :
    ((Port < This.IoRangeStart ∨ Port > This.IoRangeEnd ∨ Data = none ∨
        (Width ≠ 1 ∧ Width ≠ 2 ∧ Width ≠ 4)) ∧
      LegacyIoRead This Port Width Data ReadValue = ⟨EFI_INVALID_PARAMETER, Data, []⟩) ∨
    (¬ (Port < This.IoRangeStart ∨ Port > This.IoRangeEnd ∨ Data = none ∨
        (Width ≠ 1 ∧ Width ≠ 2 ∧ Width ≠ 4)) ∧
      ∃ (e : IoAccess) (Old : Nat), Data = some Old ∧ e.isRead = true ∧ e.Port = Port ∧
        e.Width = Width ∧ e.Value = ReadValue % 2 ^ (8 * Width) ∧
        LegacyIoRead This Port Width Data ReadValue
          = ⟨EFI_SUCCESS, some (Old / 2 ^ (8 * Width) * 2 ^ (8 * Width) + e.Value), [e]⟩) := by
  unfold LegacyIoRead
  by_cases hr : Port < This.IoRangeStart ∨ Port > This.IoRangeEnd
  · left
    rw [if_pos hr]
    exact ⟨by tauto, rfl⟩
  · rw [if_neg hr]
    cases Data with
    | none => left; exact ⟨by tauto, rfl⟩
    | some Old =>
      simp only
      by_cases h1 : Width = 1
      · subst h1; right
        exact ⟨by simp; omega, IoRead8 Port (ReadValue % 0x100), Old, rfl, rfl, rfl, rfl, rfl,
          rfl⟩
      by_cases h2 : Width = 2
      · subst h2; right
        exact ⟨by simp; omega, IoRead16 Port (ReadValue % 0x10000), Old, rfl, rfl, rfl, rfl, rfl,
          rfl⟩
      by_cases h4 : Width = 4
      · subst h4; right
        exact ⟨by simp; omega, IoRead32 Port (ReadValue % 0x100000000), Old, rfl, rfl, rfl, rfl,
          rfl, rfl⟩
      left
      refine ⟨by tauto, ?_⟩
      split <;> first | exact absurd rfl h1 | exact absurd rfl h2 | exact absurd rfl h4 | rfl

/-- The results of `LegacyIoWrite`, by the outcome of its checks. -/
theorem io_write_cases (This : LEGACY_IO_PROTOCOL) (Port Width : Nat) (Data : Option Nat) :
    ((Port < This.IoRangeStart ∨ Port > This.IoRangeEnd ∨ Data = none ∨
        (Width ≠ 1 ∧ Width ≠ 2 ∧ Width ≠ 4)) ∧
      LegacyIoWrite This Port Width Data = ⟨EFI_INVALID_PARAMETER, Data, []⟩) ∨
    (¬ (Port < This.IoRangeStart ∨ Port > This.IoRangeEnd ∨ Data = none ∨
        (Width ≠ 1 ∧ Width ≠ 2 ∧ Width ≠ 4)) ∧
      ∃ (e : IoAccess) (Old : Nat), Data = some Old ∧ e.isRead = false ∧ e.Port = Port ∧
        e.Width = Width ∧ e.Value = Old % 2 ^ (8 * Width) ∧
        LegacyIoWrite This Port Width Data = ⟨EFI_SUCCESS, Data, [e]⟩) := by
  unfold LegacyIoWrite
  by_cases hr : Port < This.IoRangeStart ∨ Port > This.IoRangeEnd
  · left
    rw [if_pos hr]
    exact ⟨by tauto, rfl⟩
  · rw [if_neg hr]
    cases Data with
    | none => left; exact ⟨by tauto, rfl⟩
    | some Old =>
      simp only
      by_cases h1 : Width = 1
      · subst h1; right
        exact ⟨by simp; omega, IoWrite8 Port (Old % 0x100), Old, rfl, rfl, rfl, rfl, rfl, rfl⟩
      by_cases h2 : Width = 2
      · subst h2; right
        exact ⟨by simp; omega, IoWrite16 Port (Old % 0x10000), Old, rfl, rfl, rfl, rfl, rfl, rfl⟩
      by_cases h4 : Width = 4
      · subst h4; right
        exact ⟨by simp; omega, IoWrite32 Port (Old % 0x100000000), Old, rfl, rfl, rfl, rfl, rfl,
          rfl⟩
      left
      refine ⟨by tauto, ?_⟩
      split <;> first | exact absurd rfl h1 | exact absurd rfl h2 | exact absurd rfl h4 | rfl

/-- C22. For `LegacyIoRead` and `LegacyIoWrite` of both drivers and every protocol instance:
the call returns `EFI_INVALID_PARAMETER` with no port access if and only if
`Port < IoRangeStart`, or `Port > IoRangeEnd`, or the data pointer is null, or `Width` is none
of 1, 2, 4, and it then leaves the memory at the data pointer as it was; otherwise it returns
success after exactly one port access of `Width` bytes at `Port`. A read stores the value read
into the data location: the first `Width` bytes there become the value read and the bytes
after them keep their contents. A write sends the first `Width` bytes found there and leaves
the memory alone. The functions of the original driver return the same result as those of the
extended driver on every input. -/
theorem io_read_write_gating (This : LEGACY_IO_PROTOCOL) (Port Width : Nat)
    (Data : Option Nat) (ReadValue : Nat) :
    (((LegacyIoRead This Port Width Data ReadValue).Status = EFI_INVALID_PARAMETER ∧
        (LegacyIoRead This Port Width Data ReadValue).Trace = []) ↔
      (Port < This.IoRangeStart ∨ Port > This.IoRangeEnd ∨ Data = none ∨
        (Width ≠ 1 ∧ Width ≠ 2 ∧ Width ≠ 4))) ∧
    ((Port < This.IoRangeStart ∨ Port > This.IoRangeEnd ∨ Data = none ∨
        (Width ≠ 1 ∧ Width ≠ 2 ∧ Width ≠ 4)) →
      (LegacyIoRead This Port Width Data ReadValue).Data = Data) ∧
    (¬ (Port < This.IoRangeStart ∨ Port > This.IoRangeEnd ∨ Data = none ∨
        (Width ≠ 1 ∧ Width ≠ 2 ∧ Width ≠ 4)) →
      (LegacyIoRead This Port Width Data ReadValue).Status = EFI_SUCCESS ∧
      ∃ (e : IoAccess) (Old New : Nat), Data = some Old ∧
        (LegacyIoRead This Port Width Data ReadValue).Trace = [e] ∧
        e.isRead = true ∧ e.Port = Port ∧ e.Width = Width ∧
        e.Value = ReadValue % 2 ^ (8 * Width) ∧
        (LegacyIoRead This Port Width Data ReadValue).Data = some New ∧
        New = Old / 2 ^ (8 * Width) * 2 ^ (8 * Width) + e.Value ∧
        New % 2 ^ (8 * Width) = e.Value ∧
        New / 2 ^ (8 * Width) = Old / 2 ^ (8 * Width)) ∧
    (((LegacyIoWrite This Port Width Data).Status = EFI_INVALID_PARAMETER ∧
        (LegacyIoWrite This Port Width Data).Trace = []) ↔
      (Port < This.IoRangeStart ∨ Port > This.IoRangeEnd ∨ Data = none ∨
        (Width ≠ 1 ∧ Width ≠ 2 ∧ Width ≠ 4))) ∧
    ((Port < This.IoRangeStart ∨ Port > This.IoRangeEnd ∨ Data = none ∨
        (Width ≠ 1 ∧ Width ≠ 2 ∧ Width ≠ 4)) →
      (LegacyIoWrite This Port Width Data).Data = Data) ∧
    (¬ (Port < This.IoRangeStart ∨ Port > This.IoRangeEnd ∨ Data = none ∨
        (Width ≠ 1 ∧ Width ≠ 2 ∧ Width ≠ 4)) →
      (LegacyIoWrite This Port Width Data).Status = EFI_SUCCESS ∧
      ∃ (e : IoAccess) (Old : Nat), Data = some Old ∧
        (LegacyIoWrite This Port Width Data).Trace = [e] ∧
        e.isRead = false ∧ e.Port = Port ∧ e.Width = Width ∧
        e.Value = Old % 2 ^ (8 * Width) ∧
        (LegacyIoWrite This Port Width Data).Data = Data) ∧
    LegacyIoDxe.LegacyIoRead This Port Width Data ReadValue
      = LegacyIoRead This Port Width Data ReadValue ∧
    LegacyIoDxe.LegacyIoWrite This Port Width Data = LegacyIoWrite This Port Width Data := by
  refine ⟨?_, ?_, ?_, ?_, ?_, ?_, rfl, rfl⟩
  · rcases io_read_cases This Port Width Data ReadValue with
      ⟨hbad, heq⟩ | ⟨hgood, e, Old, _, _, _, _, _, heq⟩
    · rw [heq]; exact ⟨fun _ => hbad, fun _ => ⟨rfl, rfl⟩⟩
    · rw [heq]
      constructor
      · rintro ⟨h, _⟩; cases h
      · intro h; exact absurd h hgood
  · intro hbad
    rcases io_read_cases This Port Width Data ReadValue with ⟨_, heq⟩ | ⟨hgood, _⟩
    · rw [heq]
    · exact absurd hbad hgood
  · intro hgood
    rcases io_read_cases This Port Width Data ReadValue with
      ⟨hbad, _⟩ | ⟨_, e, Old, h0, h1, h2, h3, h4, heq⟩
    · exact absurd hbad hgood
    · rw [heq]
      have hlt : e.Value < 2 ^ (8 * Width) := by
        rw [h4]; exact Nat.mod_lt _ (Nat.pow_pos (by decide))
      have hst := store_low_part Old e.Value (2 ^ (8 * Width)) hlt
      exact ⟨rfl, e, Old, _, h0, rfl, h1, h2, h3, h4, rfl, rfl, hst.1, hst.2⟩
  · rcases io_write_cases This Port Width Data with
      ⟨hbad, heq⟩ | ⟨hgood, e, Old, _, _, _, _, _, heq⟩
    · rw [heq]; exact ⟨fun _ => hbad, fun _ => ⟨rfl, rfl⟩⟩
    · rw [heq]
      constructor
      · rintro ⟨h, _⟩; cases h
      · intro h; exact absurd h hgood
  · intro hbad
    rcases io_write_cases This Port Width Data with ⟨_, heq⟩ | ⟨hgood, _⟩
    · rw [heq]
    · exact absurd hbad hgood
  · intro hgood
    rcases io_write_cases This Port Width Data with
      ⟨hbad, _⟩ | ⟨_, e, Old, h0, h1, h2, h3, h4, heq⟩
    · exact absurd hbad hgood
    · rw [heq]
      exact ⟨rfl, e, Old, h0, rfl, h1, h2, h3, h4, rfl⟩

/-- C22 on the range `0x00 .. 0xFF`: a byte read of port `0x60` into memory holding
`0xDEADBEEF` succeeds and leaves `0xDEADBE1C` there, the three bytes after the first kept; a
word write to port `0x80` succeeds; port `0x100` is refused without access; both drivers
agree. -/
theorem io_read_write_gating_witness :
    (LegacyIoRead mLegacyIoProtocolEx.toProtocol 0x60 1 (some 0xDEADBEEF) 0x1C).Status
      = EFI_SUCCESS ∧
    (LegacyIoRead mLegacyIoProtocolEx.toProtocol 0x60 1 (some 0xDEADBEEF) 0x1C).Data
      = some 0xDEADBE1C ∧
    (LegacyIoRead mLegacyIoProtocolEx.toProtocol 0x60 1 (some 0xDEADBEEF) 0x1C).Trace
      = [IoRead8 0x60 0x1C] ∧
    (LegacyIoWrite mLegacyIoProtocolEx.toProtocol 0x80 2 (some 0xAA55)).Status = EFI_SUCCESS ∧
    ((LegacyIoRead mLegacyIoProtocolEx.toProtocol 0x100 1 (some 0) 0x1C).Status
        = EFI_INVALID_PARAMETER ∧
      (LegacyIoRead mLegacyIoProtocolEx.toProtocol 0x100 1 (some 0) 0x1C).Trace = []) ∧
    LegacyIoDxe.LegacyIoRead LegacyIoDxe.mLegacyIoProtocol 0x60 1 (some 0) 0x1C
      = LegacyIoRead LegacyIoDxe.mLegacyIoProtocol 0x60 1 (some 0) 0x1C :=
  ⟨((io_read_write_gating mLegacyIoProtocolEx.toProtocol 0x60 1 (some 0xDEADBEEF) 0x1C).2.2.1
      (by decide)).1,
   by decide,
   by decide,
   ((io_read_write_gating mLegacyIoProtocolEx.toProtocol 0x80 2 (some 0xAA55) 0).2.2.2.2.2.1
      (by decide)).1,
   (io_read_write_gating mLegacyIoProtocolEx.toProtocol 0x100 1 (some 0) 0x1C).1.2
      (by decide),
   (io_read_write_gating LegacyIoDxe.mLegacyIoProtocol 0x60 1 (some 0) 0x1C).2.2.2.2.2.2.1⟩

/-- C29 as stated fails: on the range `0x00 .. 0xFF` a word read at port `0xFF` passes the
gate and succeeds, yet its second byte port, `0xFF + 2 - 1 = 0x100`, lies above
`IoRangeEnd`. -/
theorem io_word_access_leaves_range :
    mLegacyIoProtocolEx.toProtocol.IoRangeEnd = 0xFF ∧
    (LegacyIoRead mLegacyIoProtocolEx.toProtocol 0xFF 2 (some 0) 0x1234).Status = EFI_SUCCESS ∧
    (LegacyIoRead mLegacyIoProtocolEx.toProtocol 0xFF 2 (some 0) 0x1234).Trace
      = [IoRead16 0xFF 0x1234] ∧
    (LegacyIoWrite mLegacyIoProtocolEx.toProtocol 0xFF 2 (some 0x1234)).Status = EFI_SUCCESS ∧
    ¬ ((0xFF : Nat) + 2 - 1 ≤ mLegacyIoProtocolEx.toProtocol.IoRangeEnd) := by
  decide

/-- C29, amended. For every `LegacyIoRead` or `LegacyIoWrite` call that returns success with
port `P` and width `W`, `W` is 1, 2 or 4 and the first byte port `P` lies within
`[IoRangeStart, IoRangeEnd]`; every byte port touched, `P` through `P + W - 1`, lies within
`[IoRangeStart, IoRangeEnd + W - 1]`, hence within the range itself when `W = 1`. -/
theorem io_access_first_port_in_range (This : LEGACY_IO_PROTOCOL) (Port Width : Nat)
    (Data : Option Nat) (ReadValue : Nat)
    (hs : (LegacyIoRead This Port Width Data ReadValue).Status = EFI_SUCCESS ∨
      (LegacyIoWrite This Port Width Data).Status = EFI_SUCCESS) :
    (Width = 1 ∨ Width = 2 ∨ Width = 4) ∧
    This.IoRangeStart ≤ Port ∧ Port ≤ This.IoRangeEnd ∧
    (∀ q : Nat, Port ≤ q → q ≤ Port + Width - 1 →
      This.IoRangeStart ≤ q ∧ q ≤ This.IoRangeEnd + Width - 1) ∧
    (Width = 1 → ∀ q : Nat, Port ≤ q → q ≤ Port + Width - 1 →
      This.IoRangeStart ≤ q ∧ q ≤ This.IoRangeEnd) := by
  have hgood : ¬ (Port < This.IoRangeStart ∨ Port > This.IoRangeEnd ∨ Data = none ∨
      (Width ≠ 1 ∧ Width ≠ 2 ∧ Width ≠ 4)) := by
    rcases hs with hs | hs
    · rcases io_read_cases This Port Width Data ReadValue with ⟨_, heq⟩ | ⟨hg, _⟩
      · rw [heq] at hs; cases hs
      · exact hg
    · rcases io_write_cases This Port Width Data with ⟨_, heq⟩ | ⟨hg, _⟩
      · rw [heq] at hs; cases hs
      · exact hg
  have hW : Width = 1 ∨ Width = 2 ∨ Width = 4 := by
    by_contra hw
    apply hgood
    right; right; right
    exact ⟨fun h => hw (Or.inl h), fun h => hw (Or.inr (Or.inl h)),
      fun h => hw (Or.inr (Or.inr h))⟩
  have h1 : This.IoRangeStart ≤ Port := by
    by_contra h; exact hgood (Or.inl (by omega))
  have h2 : Port ≤ This.IoRangeEnd := by
    by_contra h; exact hgood (Or.inr (Or.inl (by omega)))
  refine ⟨hW, h1, h2, ?_, ?_⟩
  · intro q hq1 hq2
    constructor <;> omega
  · intro hw q hq1 hq2
    constructor <;> omega

/-- C29, amended, on a byte read of port `0xFF` and on a word read of port `0xFE` within the
range `0x00 .. 0xFF`. -/
theorem io_access_first_port_in_range_witness :
    (LegacyIoRead mLegacyIoProtocolEx.toProtocol 0xFE 2 (some 0) 0x1234).Status = EFI_SUCCESS ∧
    (mLegacyIoProtocolEx.toProtocol.IoRangeStart ≤ 0xFE ∧
      0xFE ≤ mLegacyIoProtocolEx.toProtocol.IoRangeEnd) ∧
    (LegacyIoWrite mLegacyIoProtocolEx.toProtocol 0xFF 1 (some 0x12)).Status = EFI_SUCCESS ∧
    (0xFF : Nat) ≤ mLegacyIoProtocolEx.toProtocol.IoRangeEnd :=
  ⟨by decide,
   ⟨(io_access_first_port_in_range mLegacyIoProtocolEx.toProtocol 0xFE 2 (some 0) 0x1234
      (Or.inl (by decide))).2.1,
    (io_access_first_port_in_range mLegacyIoProtocolEx.toProtocol 0xFE 2 (some 0) 0x1234
      (Or.inl (by decide))).2.2.1⟩,
   by decide,
   (io_access_first_port_in_range mLegacyIoProtocolEx.toProtocol 0xFF 1 (some 0x12) 0
      (Or.inr (by decide))).2.2.1⟩

/-! ## Further claims about `LegacyDmaProgramChannel` -/

/-- C23, the failing input. Programming channel 1 with 0x20 bytes at `0xFFFFF0` succeeds,
because only the start address is compared with `0xFFFFFF`; the last byte of the transfer is
at `0x100000F`, outside the 16 MiB window. -/
theorem program_channel_region_crosses_16MiB :
    (LegacyDmaProgramChannel mLegacyIoProtocolEx 1 DMA_MODE_READ
        (some ⟨0xFFFFF0, 0x20, true, 0xFFFFF0⟩) 0x20 false).Status = EFI_SUCCESS ∧
    (LegacyDmaProgramChannel mLegacyIoProtocolEx 1 DMA_MODE_READ
        (some ⟨0xFFFFF0, 0x20, true, 0xFFFFF0⟩) 0x20 false).This.DmaChannels 1 =
      { Channel := 1, Mode := 0x49, Count := 0x20, Address := 0xFFFFF0, IsActive := false } ∧
    ¬ ((0xFFFFF0 : Nat) + 0x20 - 1 ≤ 0xFFFFFF) := by
  decide

/-- The count register bytes `LegacyDmaProgramChannel` writes for a transfer count `T`, read
back and incremented as `LegacyDmaStatus` does, give `T` again. -/
theorem count_bytes_round_trip (T : Nat) (hT : T ≤ 0xFFFF) :
    ((intSubOne T &&& 0xFF) + 256 * (intSubOne T >>> 8 &&& 0xFF) + 1) % 0x10000 = T := by
  rw [and_FF_eq_mod, and_FF_eq_mod, shr8_eq_div]
  unfold intSubOne
  omega

/-- C24. Program-then-Status round trip: after a successful `LegacyDmaProgramChannel` call on
channel `c` with a byte count `n` in 1..65535, a `LegacyDmaStatus` call on `c` that reads from
the count port the low byte and then the high byte the program call wrote there succeeds and
reports `bytesRemaining` equal to the `Count` recorded for the channel, which is `n` for
`c <= 3` and `n` with its lowest bit cleared for `c >= 4`. -/
theorem program_status_round_trip (This : LEGACY_IO_PROTOCOL_EX) (c : Fin 8) (M : Nat)
    (DmaBuffer : Option LEGACY_DMA_BUFFER) (n : Nat) (a : Bool) (b0 : Nat) (a0 : Bool)
    (s lo hi : Nat) (hn1 : 1 ≤ n) (hn : n ≤ 65535)
    (hs : (LegacyDmaProgramChannel This c.val M DmaBuffer n a).Status = EFI_SUCCESS)
    (hw : (LegacyDmaProgramChannel This c.val M DmaBuffer n a).Trace.drop 6 =
      [ IoWrite8 (GetDmaPorts c.val).CountPort lo,
        IoWrite8 (GetDmaPorts c.val).CountPort hi ]) :
    (LegacyDmaStatus (LegacyDmaProgramChannel This c.val M DmaBuffer n a).This c.val
        (some b0) (some a0) s lo hi).Status = EFI_SUCCESS ∧
    (LegacyDmaStatus (LegacyDmaProgramChannel This c.val M DmaBuffer n a).This c.val
        (some b0) (some a0) s lo hi).BytesRemaining =
      some ((LegacyDmaProgramChannel This c.val M DmaBuffer n a).This.DmaChannels c).Count ∧
    ((LegacyDmaProgramChannel This c.val M DmaBuffer n a).This.DmaChannels c).Count =
      (if c.val ≤ 3 then n else n - n % 2) := by
  obtain ⟨hc, hn0, Buf, hB, hb, hAe, hA⟩ := program_success_guards This c.val M DmaBuffer n a hs
  subst hB
  have _h1 := hn1
  rw [program_valid This c.val M Buf n a hc hb hn0 (by omega) hAe hA] at hw ⊢
  simp only [List.drop_succ_cons, List.drop_zero, List.cons.injEq, IoAccess.IoWrite8.injEq,
    true_and, and_true] at hw
  obtain ⟨hlo, hhi⟩ := hw
  subst hlo hhi
  have h7 : ¬ c.val > 7 := by omega
  have hlo2 : ∀ x : Nat, (x &&& 0xFF) % 0x100 = x &&& 0xFF := and_FF_mod
  have hj : ∀ T : Nat, (((intSubOne T &&& 0xFF) ||| (((intSubOne T >>> 8 &&& 0xFF) <<< 8)
      % 0x10000)) % 0x10000 + 1) % 0x10000
      = ((intSubOne T &&& 0xFF) + 256 * (intSubOne T >>> 8 &&& 0xFF) + 1) % 0x10000 := by
    intro T
    rw [count_join _ _ (by rw [and_FF_eq_mod]; omega) (by rw [and_FF_eq_mod]; omega)]
  unfold LegacyDmaStatus
  simp only [dif_neg h7, reduceCtorEq, or_self, if_false, hlo2, hj, Fin.eta,
    Function.update_same, true_and]
  by_cases h4 : 4 ≤ c.val
  · have h3 : ¬ c.val ≤ 3 := by omega
    rw [count_bytes_round_trip (if 4 ≤ c.val then n / 2 else n) (by rw [if_pos h4]; omega)]
    simp only [ge_iff_le, h4, decide_True, if_true, h3, if_false, Option.some.injEq, and_true]
    omega
  · have h3 : c.val ≤ 3 := by omega
    rw [count_bytes_round_trip (if 4 ≤ c.val then n / 2 else n) (by rw [if_neg h4]; omega)]
    simp [h4, h3]

/-- C24 on channel 5 with 7 bytes: the count register holds `0x02`, `0x00`, and a status
query that reads these back reports 6 bytes, the recorded count. -/
theorem program_status_round_trip_witness :
    ((1 : Nat) ≤ 7 ∧ (7 : Nat) ≤ 65535) ∧
    (LegacyDmaProgramChannel mLegacyIoProtocolEx 5 DMA_MODE_READ
        (some ⟨0x1000, 8, true, 0x1000⟩) 7 false).Trace.drop 6 =
      [ IoWrite8 0xC6 0x02, IoWrite8 0xC6 0x00 ] ∧
    (LegacyDmaStatus (LegacyDmaProgramChannel mLegacyIoProtocolEx 5 DMA_MODE_READ
        (some ⟨0x1000, 8, true, 0x1000⟩) 7 false).This 5 (some 0) (some false)
        0x00 0x02 0x00).BytesRemaining = some 6 :=
  ⟨by decide, by decide,
   (program_status_round_trip mLegacyIoProtocolEx 5 DMA_MODE_READ
      (some ⟨0x1000, 8, true, 0x1000⟩) 7 false 0 false 0x00 0x02 0x00
      (by decide) (by decide) (by decide) (by decide)).2.1⟩

/-- C28. `LegacyDmaProgramChannel` does not depend on the buffer's `Length` or `IsPhysical`
fields, nor on the value of the memory pointer beyond its being non-null: for two buffers that
agree on `PhysicalAddress` and both have a non-null memory pointer, the calls with otherwise
equal arguments on the same protocol instance give the same status, the same port writes and
the same channel table; in particular the result is the same whatever `Length` the buffer
declares, also one smaller than the byte count. -/
theorem program_channel_ignores_length (This : LEGACY_IO_PROTOCOL_EX) (Channel Mode : Nat)
    (Buf1 Buf2 : LEGACY_DMA_BUFFER) (Count : Nat) (a : Bool)
    (hA : Buf1.PhysicalAddress = Buf2.PhysicalAddress)
    (h1 : Buf1.Buffer ≠ 0) (h2 : Buf2.Buffer ≠ 0) :
    LegacyDmaProgramChannel This Channel Mode (some Buf1) Count a =
      LegacyDmaProgramChannel This Channel Mode (some Buf2) Count a ∧
    (∀ (Length : Nat) (IsPhysical : Bool),
      LegacyDmaProgramChannel This Channel Mode
          (some { Buf1 with Length := Length, IsPhysical := IsPhysical }) Count a =
        LegacyDmaProgramChannel This Channel Mode (some Buf1) Count a) := by
  constructor
  · unfold LegacyDmaProgramChannel
    simp only [h1, h2, hA, false_or]
  · intro Length IsPhysical
    unfold LegacyDmaProgramChannel
    simp only [h1, false_or]

/-- C28 on two buffers at `0x1000` with different pointers, lengths and flags, the first
declaring 16 bytes while 256 bytes are programmed without error. -/
theorem program_channel_ignores_length_witness :
    ((0x1000 : Nat) = 0x1000 ∧ (0x1000 : Nat) ≠ 0 ∧ (0x2000 : Nat) ≠ 0) ∧
    LegacyDmaProgramChannel mLegacyIoProtocolEx 2 DMA_MODE_READ
        (some ⟨0x1000, 16, true, 0x1000⟩) 256 false =
      LegacyDmaProgramChannel mLegacyIoProtocolEx 2 DMA_MODE_READ
        (some ⟨0x2000, 4096, false, 0x1000⟩) 256 false ∧
    (LegacyDmaProgramChannel mLegacyIoProtocolEx 2 DMA_MODE_READ
        (some ⟨0x1000, 16, true, 0x1000⟩) 256 false).Status = EFI_SUCCESS :=
  ⟨by decide,
   (program_channel_ignores_length mLegacyIoProtocolEx 2 DMA_MODE_READ
      ⟨0x1000, 16, true, 0x1000⟩ ⟨0x2000, 4096, false, 0x1000⟩ 256 false rfl
      (by decide) (by decide)).1,
   by decide⟩

/-! ## Bank isolation -/

/-- Every port `LegacyDmaProgramChannel` writes is one of the ports of its channel. -/
theorem program_trace_ports (This : LEGACY_IO_PROTOCOL_EX) (Channel Mode : Nat)
    (DmaBuffer : Option LEGACY_DMA_BUFFER) (Count : Nat) (a : Bool) (e : IoAccess)
    (he : e ∈ (LegacyDmaProgramChannel This Channel Mode DmaBuffer Count a).Trace) :
    e.Port ∈ (GetDmaPorts Channel).all := by
  unfold LegacyDmaProgramChannel at he
  by_cases h7 : Channel > 7
  · simp [h7] at he
  · rw [dif_neg h7] at he
    cases DmaBuffer with
    | none => simp at he
    | some Buf =>
      simp only at he
      split_ifs at he <;> simp at he <;>
        (rcases he with h | h | h | h | h | h | h | h <;> subst h <;>
          simp [IoAccess.Port, DMA_PORTS.all])

/-- Every port `LegacyDmaStart` writes is one of the ports of its channel. -/
theorem start_trace_ports (This : LEGACY_IO_PROTOCOL_EX) (Channel : Nat) (e : IoAccess)
    (he : e ∈ (LegacyDmaStart This Channel).Trace) : e.Port ∈ (GetDmaPorts Channel).all := by
  unfold LegacyDmaStart at he
  by_cases h7 : Channel > 7
  · simp [h7] at he
  · rw [dif_neg h7] at he
    simp only at he
    split_ifs at he <;> simp at he
    subst he
    simp [IoAccess.Port, DMA_PORTS.all]

/-- Every port `LegacyDmaStatus` reads or writes is one of the ports of its channel. -/
theorem status_trace_ports (This : LEGACY_IO_PROTOCOL_EX) (Channel : Nat)
    (BytesRemaining : Option Nat) (IsActive : Option Bool) (s lo hi : Nat) (e : IoAccess)
    (he : e ∈ (LegacyDmaStatus This Channel BytesRemaining IsActive s lo hi).Trace) :
    e.Port ∈ (GetDmaPorts Channel).all := by
  unfold LegacyDmaStatus at he
  by_cases h7 : Channel > 7
  · simp [h7] at he
  · rw [dif_neg h7] at he
    split_ifs at he <;> simp at he
    rcases he with h | h | h | h <;> subst h <;> simp [IoAccess.Port, DMA_PORTS.all]

/-- Every port `LegacyDmaStop` writes is one of the ports of its channel. -/
theorem stop_trace_ports (This : LEGACY_IO_PROTOCOL_EX) (Channel : Nat) (e : IoAccess)
    (he : e ∈ (LegacyDmaStop This Channel).Trace) : e.Port ∈ (GetDmaPorts Channel).all := by
  unfold LegacyDmaStop at he
  by_cases h7 : Channel > 7
  · simp [h7] at he
  · rw [dif_neg h7] at he
    simp at he
    subst he
    simp [IoAccess.Port, DMA_PORTS.all]

/-- The ports of a channel of the 8-bit bank, and of the 16-bit bank. -/
theorem ports_in_bank (c : Fin 8) (p : Nat) (hp : p ∈ (GetDmaPorts c.val).all) :
    (c.val ≤ 3 → p ∈ List.range 8 ++ [0x08, 0x0A, 0x0B, 0x0C, 0x81, 0x82, 0x83, 0x87]) ∧
    (4 ≤ c.val → p ∈ (List.range 15).map (fun k => 0xC0 + k) ++
      [0xD0, 0xD4, 0xD6, 0xD8, 0x89, 0x8A, 0x8B, 0x8F]) := by
  fin_cases c <;>
    (simp [GetDmaPorts, DMA_PORTS.all, DMA_ADDR_PORT0, DMA_ADDR_PORT1, DMA_ADDR_PORT2,
        DMA_ADDR_PORT3, DMA_ADDR_PORT4, DMA_ADDR_PORT5, DMA_ADDR_PORT6, DMA_ADDR_PORT7,
        DMA_COUNT_PORT0, DMA_COUNT_PORT1, DMA_COUNT_PORT2, DMA_COUNT_PORT3, DMA_COUNT_PORT4,
        DMA_COUNT_PORT5, DMA_COUNT_PORT6, DMA_COUNT_PORT7, DMA_PAGE_PORT0, DMA_PAGE_PORT1,
        DMA_PAGE_PORT2, DMA_PAGE_PORT3, DMA_PAGE_PORT4, DMA_PAGE_PORT5, DMA_PAGE_PORT6,
        DMA_PAGE_PORT7, DMA_CMD_PORT0, DMA_CMD_PORT1, DMA_STAT_PORT0, DMA_STAT_PORT1,
        DMA_MASK_PORT0, DMA_MASK_PORT1, DMA_MODE_PORT0, DMA_MODE_PORT1, DMA_CLEAR_PORT0,
        DMA_CLEAR_PORT1] at hp ⊢
     rcases hp with h | h | h | h | h | h | h | h <;> subst h <;> decide)

/-- C25. Bank isolation of register access: every port read or written by
`LegacyDmaProgramChannel`, `LegacyDmaStart`, `LegacyDmaStatus` or `LegacyDmaStop` for a channel
`c` in 0..7 is one of the ports `GetDmaPorts` yields for `c`. Hence operations on channels 0..3
only touch ports in `{0x00..0x07, 0x08, 0x0A, 0x0B, 0x0C, 0x81, 0x82, 0x83, 0x87}`, operations
on channels 4..7 only touch ports in
`{0xC0..0xCE, 0xD0, 0xD4, 0xD6, 0xD8, 0x89, 0x8A, 0x8B, 0x8F}`, and the two sets are
disjoint. -/
theorem channel_operations_stay_in_bank (This : LEGACY_IO_PROTOCOL_EX) (c : Fin 8)
    (Mode : Nat) (DmaBuffer : Option LEGACY_DMA_BUFFER) (Count : Nat) (a : Bool)
    (BytesRemaining : Option Nat) (IsActive : Option Bool) (s lo hi : Nat) :
    (∀ e : IoAccess,
      e ∈ (LegacyDmaProgramChannel This c.val Mode DmaBuffer Count a).Trace ++
          (LegacyDmaStart This c.val).Trace ++
          (LegacyDmaStatus This c.val BytesRemaining IsActive s lo hi).Trace ++
          (LegacyDmaStop This c.val).Trace →
      e.Port ∈ (GetDmaPorts c.val).all ∧
      (c.val ≤ 3 →
        e.Port ∈ List.range 8 ++ [0x08, 0x0A, 0x0B, 0x0C, 0x81, 0x82, 0x83, 0x87]) ∧
      (4 ≤ c.val →
        e.Port ∈ (List.range 15).map (fun k => 0xC0 + k) ++
          [0xD0, 0xD4, 0xD6, 0xD8, 0x89, 0x8A, 0x8B, 0x8F])) ∧
    (∀ p : Nat, p ∈ List.range 8 ++ [0x08, 0x0A, 0x0B, 0x0C, 0x81, 0x82, 0x83, 0x87] →
      p ∉ (List.range 15).map (fun k => 0xC0 + k) ++
        [0xD0, 0xD4, 0xD6, 0xD8, 0x89, 0x8A, 0x8B, 0x8F]) := by
  constructor
  · intro e he
    have hown : e.Port ∈ (GetDmaPorts c.val).all := by
      rcases List.mem_append.mp he with he | he
      · rcases List.mem_append.mp he with he | he
        · rcases List.mem_append.mp he with he | he
          · exact program_trace_ports This c.val Mode DmaBuffer Count a e he
          · exact start_trace_ports This c.val e he
        · exact status_trace_ports This c.val BytesRemaining IsActive s lo hi e he
      · exact stop_trace_ports This c.val e he
    exact ⟨hown, ports_in_bank c e.Port hown⟩
  · decide

/-- C25 on channel 2 (8-bit bank): the mask write of `LegacyDmaStop` goes to port `0x0A`, which
is in the list of the 8-bit bank. -/
theorem channel_operations_stay_in_bank_witness :
    IoWrite8 0x0A 0x06 ∈ (LegacyDmaStop mLegacyIoProtocolEx 2).Trace ∧
    (IoWrite8 0x0A 0x06).Port ∈ (GetDmaPorts 2).all ∧
    (IoWrite8 0x0A 0x06).Port ∈
      List.range 8 ++ [0x08, 0x0A, 0x0B, 0x0C, 0x81, 0x82, 0x83, 0x87] :=
  ⟨by decide,
   ((channel_operations_stay_in_bank mLegacyIoProtocolEx 2 0 none 0 false none none 0 0 0).1
      (IoWrite8 0x0A 0x06) (by decide)).1,
   ((channel_operations_stay_in_bank mLegacyIoProtocolEx 2 0 none 0 false none none 0 0 0).1
      (IoWrite8 0x0A 0x06) (by decide)).2.1 (by decide)⟩

/-! ## The channel-record invariant -/

/-- A count whose lowest bit was cleared with `~0x1` is even, also after the cast to
`UINT16`. -/
theorem clear_low_even (n : Nat) : ((n &&& 0xFFFFFFFE) % 0x10000) % 2 = 0 := by
  have hc : (0xFFFFFFFE : Nat) = Nat.bit false 0x7FFFFFFF := by decide
  have h : n &&& 0xFFFFFFFE = 2 * (n.div2 &&& 0x7FFFFFFF) := by
    conv_lhs => rw [← Nat.bit_decomp n, hc, Nat.land_bit]
    simp only [Bool.and_false, Nat.bit_false]
  rw [h]
  omega

/-- The record `LegacyDmaProgramChannel` stores once every check has passed, for any
arguments. -/
theorem program_this_valid (This : LEGACY_IO_PROTOCOL_EX) (c Mode : Nat)
    (Buf : LEGACY_DMA_BUFFER) (n : Nat) (a : Bool)
    (hc : c < 8) (hbuf : Buf.Buffer ≠ 0) (hn0 : n ≠ 0)
    (hAe : 4 ≤ c → Buf.PhysicalAddress % 0x100000000 % 2 = 0)
    (hA : Buf.PhysicalAddress % 0x100000000 ≤ 0xFFFFFF) :
    (LegacyDmaProgramChannel This c Mode (some Buf) n a).This.DmaChannels =
      Function.update This.DmaChannels ⟨c, hc⟩
        { Channel := c,
          Mode := c % 4 ||| (Mode &&& 0x0C) ||| 0x40 ||| (if a = true then 0x10 else 0),
          Count := if 4 ≤ c then (if n % 2 ≠ 0 then (n &&& 0xFFFFFFFE) % 0x10000 else n)
                   else n,
          Address := Buf.PhysicalAddress % 0x100000000,
          IsActive := false } := by
  have h7 : ¬ c > 7 := by omega
  have hmode : (if a = true then c % 4 ||| (Mode &&& 0x0C) ||| 0x40 ||| 0x10
      else c % 4 ||| (Mode &&& 0x0C) ||| 0x40) =
      c % 4 ||| (Mode &&& 0x0C) ||| 0x40 ||| (if a = true then 0x10 else 0) := by
    cases a <;> simp
  unfold LegacyDmaProgramChannel
  simp only [dif_neg h7, hbuf, hn0, or_self, if_false, and_01_eq_mod,
    mask_byte, unmask_byte, op_bits_byte, and_FF_mod, DMA_MODE_SINGLE, DMA_MODE_AUTO, hmode]
  have hA2 : ¬ (0xFFFFFF < Buf.PhysicalAddress % 0x100000000) := by omega
  by_cases h4 : 4 ≤ c
  · have hAe2 := hAe h4
    simp [h4, hAe2, hA2]
  · simp [h4, hA2]

/-- After `LegacyDmaProgramChannel` every channel record is as it was, or it is the record of
the programmed channel and satisfies the channel-record invariant. -/
theorem program_record_same_or_ok (This : LEGACY_IO_PROTOCOL_EX) (c Mode : Nat)
    (DmaBuffer : Option LEGACY_DMA_BUFFER) (n : Nat) (a : Bool) (i : Fin 8) :
    (LegacyDmaProgramChannel This c Mode DmaBuffer n a).This.DmaChannels i
        = This.DmaChannels i ∨
    (((LegacyDmaProgramChannel This c Mode DmaBuffer n a).This.DmaChannels i).Channel = i.val ∧
     ((LegacyDmaProgramChannel This c Mode DmaBuffer n a).This.DmaChannels i).Address
        ≤ 0xFFFFFF ∧
     ((LegacyDmaProgramChannel This c Mode DmaBuffer n a).This.DmaChannels i).Mode &&& 0x03
        = i.val % 4 ∧
     ((LegacyDmaProgramChannel This c Mode DmaBuffer n a).This.DmaChannels i).Mode &&& 0x40
        ≠ 0 ∧
     ((LegacyDmaProgramChannel This c Mode DmaBuffer n a).This.DmaChannels i).Mode &&& 0xA0
        = 0 ∧
     (4 ≤ i.val →
       ((LegacyDmaProgramChannel This c Mode DmaBuffer n a).This.DmaChannels i).Address % 2
          = 0 ∧
       ((LegacyDmaProgramChannel This c Mode DmaBuffer n a).This.DmaChannels i).Count % 2
          = 0)) := by
  by_cases hg : c < 8 ∧ n ≠ 0 ∧ ∃ Buf, DmaBuffer = some Buf ∧ Buf.Buffer ≠ 0 ∧
      (4 ≤ c → Buf.PhysicalAddress % 0x100000000 % 2 = 0) ∧
      Buf.PhysicalAddress % 0x100000000 ≤ 0xFFFFFF
  · obtain ⟨hc, hn0, Buf, hB, hb, hAe, hA⟩ := hg
    subst hB
    rw [program_this_valid This c Mode Buf n a hc hb hn0 hAe hA]
    by_cases hi : i = ⟨c, hc⟩
    · right
      subst hi
      obtain ⟨b1, _, b3, _, b5⟩ :=
        mode_byte_bits (c % 4) (Mode &&& 0x0C) a (Nat.mod_lt _ (by decide)) (and_0C_cases Mode)
      simp only [Function.update_same]
      refine ⟨trivial, hA, b1, ?_, b5, ?_⟩
      · rw [b3]; decide
      · intro h4
        have h4c : 4 ≤ c := h4
        refine ⟨hAe h4c, ?_⟩
        rw [if_pos h4c]
        split_ifs with hodd
        · exact clear_low_even n
        · omega
    · left
      rw [Function.update_noteq hi]
  · left
    have hinv : LegacyDmaProgramChannel This c Mode DmaBuffer n a =
        ⟨EFI_INVALID_PARAMETER, This, []⟩ := by
      apply program_invalid
      by_cases h7 : c > 7
      · exact Or.inl h7
      by_cases h0 : n = 0
      · exact Or.inr (Or.inl h0)
      refine Or.inr (Or.inr ?_)
      intro Buf hB
      by_contra hno
      apply hg
      refine ⟨by omega, h0, Buf, hB, ?_, ?_, ?_⟩
      · intro hb; exact hno (Or.inl hb)
      · intro h4
        by_contra hodd
        exact hno (Or.inr (Or.inl ⟨h4, by omega⟩))
      · by_contra hbig
        exact hno (Or.inr (Or.inr (by omega)))
    rw [hinv]

/-- `LegacyDmaStart`, `LegacyDmaStatus` and `LegacyDmaStop` change at most the `IsActive` flag
of a channel record. -/
theorem flag_operations_keep_fields (This : LEGACY_IO_PROTOCOL_EX) (Channel : Nat)
    (BytesRemaining : Option Nat) (IsActive : Option Bool) (s lo hi : Nat) (i : Fin 8) :
    (∃ b : Bool, (LegacyDmaStart This Channel).This.DmaChannels i
      = { This.DmaChannels i with IsActive := b }) ∧
    (∃ b : Bool,
      (LegacyDmaStatus This Channel BytesRemaining IsActive s lo hi).This.DmaChannels i
        = { This.DmaChannels i with IsActive := b }) ∧
    (∃ b : Bool, (LegacyDmaStop This Channel).This.DmaChannels i
      = { This.DmaChannels i with IsActive := b }) := by
  refine ⟨?_, ?_, ?_⟩
  · unfold LegacyDmaStart
    by_cases h7 : Channel > 7
    · exact ⟨(This.DmaChannels i).IsActive, by simp [h7]⟩
    · rw [dif_neg h7]
      simp only
      split_ifs
      · exact ⟨(This.DmaChannels i).IsActive, rfl⟩
      · by_cases hi : i = ⟨Channel, by omega⟩
        · subst hi; exact ⟨true, by simp⟩
        · exact ⟨(This.DmaChannels i).IsActive, by simp [Function.update_noteq hi]⟩
  · unfold LegacyDmaStatus
    by_cases h7 : Channel > 7
    · exact ⟨(This.DmaChannels i).IsActive, by simp [h7]⟩
    · rw [dif_neg h7]
      split_ifs
      · exact ⟨(This.DmaChannels i).IsActive, rfl⟩
      · by_cases hi : i = ⟨Channel, by omega⟩
        · subst hi; exact ⟨_, by simp; rfl⟩
        · exact ⟨(This.DmaChannels i).IsActive, by simp [Function.update_noteq hi]⟩
  · unfold LegacyDmaStop
    by_cases h7 : Channel > 7
    · exact ⟨(This.DmaChannels i).IsActive, by simp [h7]⟩
    · rw [dif_neg h7]
      by_cases hi : i = ⟨Channel, by omega⟩
      · subst hi; exact ⟨false, by simp⟩
      · exact ⟨(This.DmaChannels i).IsActive, by simp [Function.update_noteq hi]⟩

/-- One call of any of the four operations keeps the channel-record invariant. -/
theorem run_keeps_record_invariant (This : LEGACY_IO_PROTOCOL_EX) (Call : DMA_CALL)
    (hinv : ∀ j : Fin 8, (This.DmaChannels j).Count ≠ 0 →
      (This.DmaChannels j).Channel = j.val ∧ (This.DmaChannels j).Address ≤ 0xFFFFFF ∧
      (This.DmaChannels j).Mode &&& 0x03 = j.val % 4 ∧
      (This.DmaChannels j).Mode &&& 0x40 ≠ 0 ∧ (This.DmaChannels j).Mode &&& 0xA0 = 0 ∧
      (4 ≤ j.val →
        (This.DmaChannels j).Address % 2 = 0 ∧ (This.DmaChannels j).Count % 2 = 0))
    (i : Fin 8) (hcount : ((Call.run This).DmaChannels i).Count ≠ 0) :
    ((Call.run This).DmaChannels i).Channel = i.val ∧
    ((Call.run This).DmaChannels i).Address ≤ 0xFFFFFF ∧
    ((Call.run This).DmaChannels i).Mode &&& 0x03 = i.val % 4 ∧
    ((Call.run This).DmaChannels i).Mode &&& 0x40 ≠ 0 ∧
    ((Call.run This).DmaChannels i).Mode &&& 0xA0 = 0 ∧
    (4 ≤ i.val →
      ((Call.run This).DmaChannels i).Address % 2 = 0 ∧
      ((Call.run This).DmaChannels i).Count % 2 = 0) := by
  cases Call with
  | Program Channel Mode DmaBuffer Count a =>
    simp only [DMA_CALL.run] at hcount ⊢
    rcases program_record_same_or_ok This Channel Mode DmaBuffer Count a i with h | h
    · rw [h] at hcount ⊢; exact hinv i hcount
    · exact h
  | Start Channel =>
    simp only [DMA_CALL.run] at hcount ⊢
    obtain ⟨b, hb⟩ := (flag_operations_keep_fields This Channel none none 0 0 0 i).1
    rw [hb] at hcount ⊢
    exact hinv i hcount
  | Status Channel BytesRemaining IsActive s lo hi =>
    simp only [DMA_CALL.run] at hcount ⊢
    obtain ⟨b, hb⟩ :=
      (flag_operations_keep_fields This Channel BytesRemaining IsActive s lo hi i).2.1
    rw [hb] at hcount ⊢
    exact hinv i hcount
  | Stop Channel =>
    simp only [DMA_CALL.run] at hcount ⊢
    obtain ⟨b, hb⟩ := (flag_operations_keep_fields This Channel none none 0 0 0 i).2.2
    rw [hb] at hcount ⊢
    exact hinv i hcount

/-- C26. Channel-record invariant: in every state reached from the zero-initialised channel
table by a finite sequence of `LegacyDmaProgramChannel`, `LegacyDmaStart`, `LegacyDmaStatus` and
`LegacyDmaStop` calls, with arbitrary arguments and arbitrary values returned by the port
reads, every channel record `i` with `Count != 0` has `Channel = i`, `Address <= 0xFFFFFF`,
`(Mode & 0x03) = i mod 4`, `(Mode & 0x40) != 0` and `(Mode & 0xA0) = 0`; and if `i` is in the
16-bit bank (4..7) its `Address` is even and its `Count` is even. -/
theorem channel_record_invariant (Calls : List DMA_CALL) (i : Fin 8)
    (hcount : ((runCalls mLegacyIoProtocolEx Calls).DmaChannels i).Count ≠ 0) :
    ((runCalls mLegacyIoProtocolEx Calls).DmaChannels i).Channel = i.val ∧
    ((runCalls mLegacyIoProtocolEx Calls).DmaChannels i).Address ≤ 0xFFFFFF ∧
    ((runCalls mLegacyIoProtocolEx Calls).DmaChannels i).Mode &&& 0x03 = i.val % 4 ∧
    ((runCalls mLegacyIoProtocolEx Calls).DmaChannels i).Mode &&& 0x40 ≠ 0 ∧
    ((runCalls mLegacyIoProtocolEx Calls).DmaChannels i).Mode &&& 0xA0 = 0 ∧
    (4 ≤ i.val →
      ((runCalls mLegacyIoProtocolEx Calls).DmaChannels i).Address % 2 = 0 ∧
      ((runCalls mLegacyIoProtocolEx Calls).DmaChannels i).Count % 2 = 0) := by
  have hgen : ∀ (Cs : List DMA_CALL) (This : LEGACY_IO_PROTOCOL_EX),
      (∀ j : Fin 8, (This.DmaChannels j).Count ≠ 0 →
        (This.DmaChannels j).Channel = j.val ∧ (This.DmaChannels j).Address ≤ 0xFFFFFF ∧
        (This.DmaChannels j).Mode &&& 0x03 = j.val % 4 ∧
        (This.DmaChannels j).Mode &&& 0x40 ≠ 0 ∧ (This.DmaChannels j).Mode &&& 0xA0 = 0 ∧
        (4 ≤ j.val →
          (This.DmaChannels j).Address % 2 = 0 ∧ (This.DmaChannels j).Count % 2 = 0)) →
      ∀ j : Fin 8, ((runCalls This Cs).DmaChannels j).Count ≠ 0 →
        ((runCalls This Cs).DmaChannels j).Channel = j.val ∧
        ((runCalls This Cs).DmaChannels j).Address ≤ 0xFFFFFF ∧
        ((runCalls This Cs).DmaChannels j).Mode &&& 0x03 = j.val % 4 ∧
        ((runCalls This Cs).DmaChannels j).Mode &&& 0x40 ≠ 0 ∧
        ((runCalls This Cs).DmaChannels j).Mode &&& 0xA0 = 0 ∧
        (4 ≤ j.val →
          ((runCalls This Cs).DmaChannels j).Address % 2 = 0 ∧
          ((runCalls This Cs).DmaChannels j).Count % 2 = 0) := by
    intro Cs
    induction Cs with
    | nil => intro This hinv j hj; exact hinv j hj
    | cons Call Rest ih =>
      intro This hinv j hj
      have hstep : runCalls This (Call :: Rest) = runCalls (Call.run This) Rest := rfl
      rw [hstep] at hj ⊢
      exact ih (Call.run This) (fun k hk => run_keeps_record_invariant This Call hinv k hk) j hj
  exact hgen Calls mLegacyIoProtocolEx (fun j hj => absurd rfl hj) i hcount

/-- C26 on the sequence program channel 5 with 7 bytes at `0x2000`, start it, query it, stop
it: the record of channel 5 has count 6, address `0x2000` and mode `0x59`. -/
theorem channel_record_invariant_witness :
    ((runCalls mLegacyIoProtocolEx
        [ DMA_CALL.Program 5 0xFB (some ⟨0x2000, 8, true, 0x2000⟩) 7 true,
          DMA_CALL.Start 5, DMA_CALL.Status 5 (some 0) (some false) 0x00 0x02 0x00,
          DMA_CALL.Stop 5 ]).DmaChannels 5).Count ≠ 0 ∧
    ((runCalls mLegacyIoProtocolEx
        [ DMA_CALL.Program 5 0xFB (some ⟨0x2000, 8, true, 0x2000⟩) 7 true,
          DMA_CALL.Start 5, DMA_CALL.Status 5 (some 0) (some false) 0x00 0x02 0x00,
          DMA_CALL.Stop 5 ]).DmaChannels 5).Channel = 5 ∧
    ((runCalls mLegacyIoProtocolEx
        [ DMA_CALL.Program 5 0xFB (some ⟨0x2000, 8, true, 0x2000⟩) 7 true,
          DMA_CALL.Start 5, DMA_CALL.Status 5 (some 0) (some false) 0x00 0x02 0x00,
          DMA_CALL.Stop 5 ]).DmaChannels 5).Address ≤ 0xFFFFFF :=
  ⟨by decide,
   (channel_record_invariant
      [ DMA_CALL.Program 5 0xFB (some ⟨0x2000, 8, true, 0x2000⟩) 7 true,
        DMA_CALL.Start 5, DMA_CALL.Status 5 (some 0) (some false) 0x00 0x02 0x00,
        DMA_CALL.Stop 5 ] 5 (by decide)).1,
   (channel_record_invariant
      [ DMA_CALL.Program 5 0xFB (some ⟨0x2000, 8, true, 0x2000⟩) 7 true,
        DMA_CALL.Start 5, DMA_CALL.Status 5 (some 0) (some false) 0x00 0x02 0x00,
        DMA_CALL.Stop 5 ] 5 (by decide)).2.1⟩

/-! ## Range check before every use of the channel number -/

/-- The `default` branch of `GetDmaPorts` is taken exactly by the channel numbers above 7: a
zero count port is returned for them and for no channel 0..7. -/
theorem get_dma_ports_default_iff (Channel : Nat) :
    (GetDmaPorts Channel).CountPort = 0 ↔ Channel > 7 := by
  constructor
  · intro h
    by_contra h7
    have hc : Channel ≤ 7 := by omega
    interval_cases Channel <;> exact absurd h (by decide)
  · intro h7
    unfold GetDmaPorts
    split <;> first | omega | rfl

/-- A store with an index inside the array: the element is updated, the use recorded, and the
run stays inside the array if it was. -/
theorem store_in_range (S : CHECKED_STATE) (Index : Nat) (h : Index < 8)
    (Store : LEGACY_DMA_CHANNEL → LEGACY_DMA_CHANNEL) :
    storeDmaChannels S Index Store =
      ⟨{ S.This with
          DmaChannels :=
            Function.update S.This.DmaChannels ⟨Index, h⟩ (Store (S.This.DmaChannels ⟨Index, h⟩)) },
        S.Uses ++ [ChannelUse.DmaChannels Index], S.Fault⟩ := by
  unfold storeDmaChannels
  rw [dif_pos h]

/-- A load with an index inside the array: the element is read, the use recorded, and the run
stays inside the array if it was. -/
theorem load_in_range (S : CHECKED_STATE) (Index : Nat) (h : Index < 8) :
    loadDmaChannels S Index =
      (S.This.DmaChannels ⟨Index, h⟩,
        ⟨S.This, S.Uses ++ [ChannelUse.DmaChannels Index], S.Fault⟩) := by
  unfold loadDmaChannels
  rw [dif_pos h]

/-- `LegacyDmaProgramChannelChecked` in closed form. -/
theorem program_checked (This : LEGACY_IO_PROTOCOL_EX) (Channel Mode : Nat)
    (DmaBuffer : Option LEGACY_DMA_BUFFER) (Count : Nat) (a : Bool) :
    (LegacyDmaProgramChannelChecked This Channel Mode DmaBuffer Count a).Result
      = LegacyDmaProgramChannel This Channel Mode DmaBuffer Count a ∧
    (LegacyDmaProgramChannelChecked This Channel Mode DmaBuffer Count a).Fault = false ∧
    (Channel > 7 → (LegacyDmaProgramChannelChecked This Channel Mode DmaBuffer Count a).Uses = []) ∧
    ((LegacyDmaProgramChannel This Channel Mode DmaBuffer Count a).Status = EFI_SUCCESS →
      (LegacyDmaProgramChannelChecked This Channel Mode DmaBuffer Count a).Uses
        = [ ChannelUse.GetDmaPorts Channel, ChannelUse.DmaChannels Channel,
            ChannelUse.DmaChannels Channel, ChannelUse.DmaChannels Channel,
            ChannelUse.DmaChannels Channel, ChannelUse.DmaChannels Channel ]) ∧
    ((LegacyDmaProgramChannel This Channel Mode DmaBuffer Count a).Status = EFI_SUCCESS ↔
      ChannelUse.DmaChannels Channel
        ∈ (LegacyDmaProgramChannelChecked This Channel Mode DmaBuffer Count a).Uses) ∧
    (∀ u ∈ (LegacyDmaProgramChannelChecked This Channel Mode DmaBuffer Count a).Uses,
      u.Channel = Channel ∧ u.Channel ≤ 7) := by
  unfold LegacyDmaProgramChannelChecked LegacyDmaProgramChannel
  by_cases h7 : Channel > 7
  · simp [h7]
  · have h8 : Channel < 8 := by omega
    rw [if_neg h7, dif_neg h7]
    cases DmaBuffer with
    | none => simp
    | some Buf =>
      simp only
      split_ifs <;>
        simp [callGetDmaPorts, store_in_range _ _ h8, ChannelUse.Channel, Function.update_idem,
          h7, h8, Nat.le_of_lt_succ h8]

/-- `LegacyDmaStartChecked` in closed form. -/
theorem start_checked (This : LEGACY_IO_PROTOCOL_EX) (Channel : Nat) :
    (LegacyDmaStartChecked This Channel).Result = LegacyDmaStart This Channel ∧
    (LegacyDmaStartChecked This Channel).Fault = false ∧
    (Channel > 7 → (LegacyDmaStartChecked This Channel).Uses = []) ∧
    ((LegacyDmaStart This Channel).Status = EFI_SUCCESS →
      (LegacyDmaStartChecked This Channel).Uses
        = [ ChannelUse.DmaChannels Channel, ChannelUse.GetDmaPorts Channel,
            ChannelUse.DmaChannels Channel ]) ∧
    ((LegacyDmaStart This Channel).Status = EFI_SUCCESS ↔
      ChannelUse.GetDmaPorts Channel ∈ (LegacyDmaStartChecked This Channel).Uses) ∧
    (∀ u ∈ (LegacyDmaStartChecked This Channel).Uses, u.Channel = Channel ∧ u.Channel ≤ 7) := by
  unfold LegacyDmaStartChecked LegacyDmaStart
  by_cases h7 : Channel > 7
  · simp [h7]
  · have h8 : Channel < 8 := by omega
    rw [if_neg h7, dif_neg h7]
    simp only [load_in_range _ _ h8]
    split_ifs <;>
      simp [callGetDmaPorts, store_in_range _ _ h8, ChannelUse.Channel, h7, h8,
        Nat.le_of_lt_succ h8]

/-- `LegacyDmaStatusChecked` in closed form. -/
theorem status_checked (This : LEGACY_IO_PROTOCOL_EX) (Channel : Nat)
    (BytesRemaining : Option Nat) (IsActive : Option Bool) (s lo hi : Nat) :
    (LegacyDmaStatusChecked This Channel BytesRemaining IsActive s lo hi).Result
      = LegacyDmaStatus This Channel BytesRemaining IsActive s lo hi ∧
    (LegacyDmaStatusChecked This Channel BytesRemaining IsActive s lo hi).Fault = false ∧
    (Channel > 7 →
      (LegacyDmaStatusChecked This Channel BytesRemaining IsActive s lo hi).Uses = []) ∧
    ((LegacyDmaStatus This Channel BytesRemaining IsActive s lo hi).Status = EFI_SUCCESS →
      (LegacyDmaStatusChecked This Channel BytesRemaining IsActive s lo hi).Uses
        = [ChannelUse.GetDmaPorts Channel, ChannelUse.DmaChannels Channel]) ∧
    ((LegacyDmaStatus This Channel BytesRemaining IsActive s lo hi).Status = EFI_SUCCESS ↔
      ChannelUse.DmaChannels Channel
        ∈ (LegacyDmaStatusChecked This Channel BytesRemaining IsActive s lo hi).Uses) ∧
    (∀ u ∈ (LegacyDmaStatusChecked This Channel BytesRemaining IsActive s lo hi).Uses,
      u.Channel = Channel ∧ u.Channel ≤ 7) := by
  unfold LegacyDmaStatusChecked LegacyDmaStatus
  by_cases h7 : Channel > 7
  · simp [h7]
  · have h8 : Channel < 8 := by omega
    rw [if_neg h7, dif_neg h7]
    split_ifs <;>
      simp [callGetDmaPorts, store_in_range _ _ h8, ChannelUse.Channel, h7, h8,
        Nat.le_of_lt_succ h8]

/-- `LegacyDmaStopChecked` in closed form. -/
theorem stop_checked (This : LEGACY_IO_PROTOCOL_EX) (Channel : Nat) :
    (LegacyDmaStopChecked This Channel).Result = LegacyDmaStop This Channel ∧
    (LegacyDmaStopChecked This Channel).Fault = false ∧
    (Channel > 7 → (LegacyDmaStopChecked This Channel).Uses = []) ∧
    ((LegacyDmaStop This Channel).Status = EFI_SUCCESS →
      (LegacyDmaStopChecked This Channel).Uses
        = [ChannelUse.GetDmaPorts Channel, ChannelUse.DmaChannels Channel]) ∧
    ((LegacyDmaStop This Channel).Status = EFI_SUCCESS ↔
      ChannelUse.DmaChannels Channel ∈ (LegacyDmaStopChecked This Channel).Uses) ∧
    (∀ u ∈ (LegacyDmaStopChecked This Channel).Uses, u.Channel = Channel ∧ u.Channel ≤ 7) := by
  unfold LegacyDmaStopChecked LegacyDmaStop
  by_cases h7 : Channel > 7
  · simp [h7]
  · have h8 : Channel < 8 := by omega
    rw [if_neg h7, dif_neg h7]
    simp [callGetDmaPorts, store_in_range _ _ h8, ChannelUse.Channel, h7, h8,
      Nat.le_of_lt_succ h8]

/-- C27. Every call to `GetDmaPorts` made by `LegacyDmaProgramChannel`, `LegacyDmaStart`,
`LegacyDmaStatus` and `LegacyDmaStop`, and every index into the 8-entry `DmaChannels` table
made by them, uses the channel argument and that argument is at most 7. The four operations
are run with every `GetDmaPorts` call and every `DmaChannels[...]` load or store put on record
by the call or index expression itself, the index being a plain integer: these runs return
what the four operations return, every recorded use is made with a channel number at most 7,
so the `default` branch of `GetDmaPorts`, which is taken exactly by channel numbers above 7,
is never reached, and no run leaves the array. With a channel above 7 the four operations
make no use at all; on success the uses are the `GetDmaPorts` call and the stores (for
`LegacyDmaStart` also the load) of the source, in program order, and each operation returns
success exactly when it reaches its store (for `LegacyDmaStart`, its `GetDmaPorts` call). -/
theorem channel_uses_in_range (This : LEGACY_IO_PROTOCOL_EX) (Channel Mode : Nat)
    (DmaBuffer : Option LEGACY_DMA_BUFFER) (Count : Nat) (a : Bool)
    (BytesRemaining : Option Nat) (IsActive : Option Bool) (s lo hi : Nat) :
    ((LegacyDmaProgramChannelChecked This Channel Mode DmaBuffer Count a).Result
        = LegacyDmaProgramChannel This Channel Mode DmaBuffer Count a ∧
      (LegacyDmaStartChecked This Channel).Result = LegacyDmaStart This Channel ∧
      (LegacyDmaStatusChecked This Channel BytesRemaining IsActive s lo hi).Result
        = LegacyDmaStatus This Channel BytesRemaining IsActive s lo hi ∧
      (LegacyDmaStopChecked This Channel).Result = LegacyDmaStop This Channel) ∧
    (∀ u : ChannelUse,
      u ∈ (LegacyDmaProgramChannelChecked This Channel Mode DmaBuffer Count a).Uses ++
          (LegacyDmaStartChecked This Channel).Uses ++
          (LegacyDmaStatusChecked This Channel BytesRemaining IsActive s lo hi).Uses ++
          (LegacyDmaStopChecked This Channel).Uses →
      u.Channel = Channel ∧ u.Channel ≤ 7 ∧ (GetDmaPorts u.Channel).CountPort ≠ 0) ∧
    (∀ ch : Nat, (GetDmaPorts ch).CountPort = 0 ↔ ch > 7) ∧
    ((LegacyDmaProgramChannelChecked This Channel Mode DmaBuffer Count a).Fault = false ∧
      (LegacyDmaStartChecked This Channel).Fault = false ∧
      (LegacyDmaStatusChecked This Channel BytesRemaining IsActive s lo hi).Fault = false ∧
      (LegacyDmaStopChecked This Channel).Fault = false) ∧
    (Channel > 7 →
      (LegacyDmaProgramChannelChecked This Channel Mode DmaBuffer Count a).Uses = [] ∧
      (LegacyDmaStartChecked This Channel).Uses = [] ∧
      (LegacyDmaStatusChecked This Channel BytesRemaining IsActive s lo hi).Uses = [] ∧
      (LegacyDmaStopChecked This Channel).Uses = []) ∧
    ((LegacyDmaProgramChannel This Channel Mode DmaBuffer Count a).Status = EFI_SUCCESS →
      (LegacyDmaProgramChannelChecked This Channel Mode DmaBuffer Count a).Uses
        = [ ChannelUse.GetDmaPorts Channel, ChannelUse.DmaChannels Channel,
            ChannelUse.DmaChannels Channel, ChannelUse.DmaChannels Channel,
            ChannelUse.DmaChannels Channel, ChannelUse.DmaChannels Channel ]) ∧
    ((LegacyDmaStart This Channel).Status = EFI_SUCCESS →
      (LegacyDmaStartChecked This Channel).Uses
        = [ ChannelUse.DmaChannels Channel, ChannelUse.GetDmaPorts Channel,
            ChannelUse.DmaChannels Channel ]) ∧
    ((LegacyDmaStatus This Channel BytesRemaining IsActive s lo hi).Status = EFI_SUCCESS →
      (LegacyDmaStatusChecked This Channel BytesRemaining IsActive s lo hi).Uses
        = [ChannelUse.GetDmaPorts Channel, ChannelUse.DmaChannels Channel]) ∧
    ((LegacyDmaStop This Channel).Status = EFI_SUCCESS →
      (LegacyDmaStopChecked This Channel).Uses
        = [ChannelUse.GetDmaPorts Channel, ChannelUse.DmaChannels Channel]) ∧
    ((LegacyDmaProgramChannel This Channel Mode DmaBuffer Count a).Status = EFI_SUCCESS ↔
      ChannelUse.DmaChannels Channel
        ∈ (LegacyDmaProgramChannelChecked This Channel Mode DmaBuffer Count a).Uses) ∧
    ((LegacyDmaStart This Channel).Status = EFI_SUCCESS ↔
      ChannelUse.GetDmaPorts Channel ∈ (LegacyDmaStartChecked This Channel).Uses) ∧
    ((LegacyDmaStatus This Channel BytesRemaining IsActive s lo hi).Status = EFI_SUCCESS ↔
      ChannelUse.DmaChannels Channel
        ∈ (LegacyDmaStatusChecked This Channel BytesRemaining IsActive s lo hi).Uses) ∧
    ((LegacyDmaStop This Channel).Status = EFI_SUCCESS ↔
      ChannelUse.DmaChannels Channel ∈ (LegacyDmaStopChecked This Channel).Uses) := by
  have hP := program_checked This Channel Mode DmaBuffer Count a
  have hS := start_checked This Channel
  have hT := status_checked This Channel BytesRemaining IsActive s lo hi
  have hO := stop_checked This Channel
  refine ⟨⟨hP.1, hS.1, hT.1, hO.1⟩, ?_, get_dma_ports_default_iff,
    ⟨hP.2.1, hS.2.1, hT.2.1, hO.2.1⟩,
    fun h7 => ⟨hP.2.2.1 h7, hS.2.2.1 h7, hT.2.2.1 h7, hO.2.2.1 h7⟩,
    hP.2.2.2.1, hS.2.2.2.1, hT.2.2.2.1, hO.2.2.2.1,
    hP.2.2.2.2.1, hS.2.2.2.2.1, hT.2.2.2.2.1, hO.2.2.2.2.1⟩
  intro u hu
  have key : u.Channel = Channel ∧ u.Channel ≤ 7 := by
    rcases List.mem_append.mp hu with hu | hu
    · rcases List.mem_append.mp hu with hu | hu
      · rcases List.mem_append.mp hu with hu | hu
        · exact hP.2.2.2.2.2 u hu
        · exact hS.2.2.2.2.2 u hu
      · exact hT.2.2.2.2.2 u hu
    · exact hO.2.2.2.2.2 u hu
  refine ⟨key.1, key.2, ?_⟩
  intro h0
  have := (get_dma_ports_default_iff u.Channel).mp h0
  omega

/-- C27 on the zero-initialised table: stopping channel 2 calls `GetDmaPorts` with 2 and
stores into `DmaChannels[2]`, writing the mask port `0x0A` of the 8-bit bank; programming
channel 5 makes its six uses with 5; channel 8 makes none. -/
theorem channel_uses_in_range_witness :
    (LegacyDmaStopChecked mLegacyIoProtocolEx 2).Uses
      = [ChannelUse.GetDmaPorts 2, ChannelUse.DmaChannels 2] ∧
    (LegacyDmaStopChecked mLegacyIoProtocolEx 2).Result.Trace = [IoWrite8 0x0A 0x06] ∧
    (LegacyDmaStopChecked mLegacyIoProtocolEx 2).Fault = false ∧
    (ChannelUse.GetDmaPorts 2).Channel ≤ 7 ∧
    (LegacyDmaProgramChannelChecked mLegacyIoProtocolEx 5 0x08
        (some ⟨0x2000, 8, true, 0x2000⟩) 8 false).Uses
      = [ ChannelUse.GetDmaPorts 5, ChannelUse.DmaChannels 5, ChannelUse.DmaChannels 5,
          ChannelUse.DmaChannels 5, ChannelUse.DmaChannels 5, ChannelUse.DmaChannels 5 ] ∧
    ((8 : Nat) > 7 ∧ (LegacyDmaStopChecked mLegacyIoProtocolEx 8).Uses = [] ∧
      (LegacyDmaStartChecked mLegacyIoProtocolEx 8).Uses = []) :=
  ⟨(channel_uses_in_range mLegacyIoProtocolEx 2 0 none 0 false none none 0 0 0).2.2.2.2.2.2.2.2.1
      (by decide),
   by decide,
   (channel_uses_in_range mLegacyIoProtocolEx 2 0 none 0 false none none 0 0 0).2.2.2.1.2.2.2,
   ((channel_uses_in_range mLegacyIoProtocolEx 2 0 none 0 false none none 0 0 0).2.1
      (ChannelUse.GetDmaPorts 2) (by decide)).2.1,
   (channel_uses_in_range mLegacyIoProtocolEx 5 0x08 (some ⟨0x2000, 8, true, 0x2000⟩) 8 false
      none none 0 0 0).2.2.2.2.2.1 (by decide),
   by decide,
   ((channel_uses_in_range mLegacyIoProtocolEx 8 0 none 0 false none none 0 0 0).2.2.2.2.1
      (by decide)).2.2.2,
   ((channel_uses_in_range mLegacyIoProtocolEx 8 0 none 0 false none none 0 0 0).2.2.2.2.1
      (by decide)).2.1⟩

/-! ## Claims about `EnableIoForwarding` -/

/-- The flag at loop exit: it is set iff it was set at entry or `SetAttributes` succeeded on a
bridge whose protocol could be opened, whose `GetAttributes` succeeded and which supports the
ISA attribute. -/
theorem forwarding_loop_flag (Bridges : List ROOT_BRIDGE) :
    ∀ (Index : Nat) (Enabled : Bool),
      (forwardingLoop Index Enabled Bridges).1 = true ↔
        (Enabled = true ∨ ∃ b ∈ Bridges, b.HandleProtocol = EFI_SUCCESS ∧
          b.GetAttributes = EFI_SUCCESS ∧
          b.Supports &&& EFI_PCI_ATTRIBUTE_ISA_MOTHERBOARD_IO ≠ 0 ∧
          b.SetAttributes (b.Attributes ||| EFI_PCI_ATTRIBUTE_ISA_MOTHERBOARD_IO)
            = EFI_SUCCESS) := by
  induction Bridges with
  | nil => intro Index Enabled; simp [forwardingLoop]
  | cons b Rest ih =>
    intro Index Enabled
    unfold forwardingLoop
    by_cases h1 : b.HandleProtocol = EFI_SUCCESS
    · by_cases h2 : b.GetAttributes = EFI_SUCCESS
      · by_cases h3 : b.Supports &&& EFI_PCI_ATTRIBUTE_ISA_MOTHERBOARD_IO = 0
        · simp [EFI_ERROR, h1, h2, h3, ih]
        · by_cases h4 : b.SetAttributes (b.Attributes ||| EFI_PCI_ATTRIBUTE_ISA_MOTHERBOARD_IO)
              = EFI_SUCCESS
          · simp [EFI_ERROR, h1, h2, h3, h4, ih]
          · simp [EFI_ERROR, h1, h2, h3, h4, ih]
      · simp [EFI_ERROR, h1, h2, ih]
    · simp [EFI_ERROR, h1, ih]

/-- The loop neither locates nor frees the handle buffer. -/
theorem forwarding_loop_no_free (Bridges : List ROOT_BRIDGE) :
    ∀ (Index : Nat) (Enabled : Bool),
      BridgeCall.FreePoolHandleBuffer ∉ (forwardingLoop Index Enabled Bridges).2 := by
  induction Bridges with
  | nil => intro Index Enabled; simp [forwardingLoop]
  | cons b Rest ih =>
    intro Index Enabled
    unfold forwardingLoop
    split_ifs <;> simp [ih]

/-- Every `SetAttributes` call of the loop is made on a handle of the buffer, with that
bridge's current attributes OR-ed with the ISA attribute bit. -/
theorem forwarding_loop_set_attributes (Bridges : List ROOT_BRIDGE) :
    ∀ (Index : Nat) (Enabled : Bool) (k Attrs : Nat) (St : EFI_STATUS),
      BridgeCall.SetAttributes k Attrs St ∈ (forwardingLoop Index Enabled Bridges).2 →
      Index ≤ k ∧ ∃ b, Bridges.get? (k - Index) = some b ∧
        Attrs = b.Attributes ||| EFI_PCI_ATTRIBUTE_ISA_MOTHERBOARD_IO ∧
        St = b.SetAttributes Attrs := by
  induction Bridges with
  | nil => intro Index Enabled k Attrs St h; simp [forwardingLoop] at h
  | cons b Rest ih =>
    intro Index Enabled k Attrs St h
    have hrest : ∀ En : Bool,
        BridgeCall.SetAttributes k Attrs St ∈ (forwardingLoop (Index + 1) En Rest).2 →
        Index ≤ k ∧ ∃ b2, (b :: Rest).get? (k - Index) = some b2 ∧
          Attrs = b2.Attributes ||| EFI_PCI_ATTRIBUTE_ISA_MOTHERBOARD_IO ∧
          St = b2.SetAttributes Attrs := by
      intro En hmem
      obtain ⟨hle, b2, hget, hrest⟩ := ih (Index + 1) En k Attrs St hmem
      refine ⟨by omega, b2, ?_, hrest⟩
      have hk : k - Index = (k - (Index + 1)) + 1 := by omega
      rw [hk, List.get?_cons_succ]
      exact hget
    unfold forwardingLoop at h
    split_ifs at h
    · simp at h; exact hrest _ h
    · simp at h; exact hrest _ h
    · simp at h; exact hrest _ h
    · simp only [List.mem_cons, reduceCtorEq, false_or, BridgeCall.SetAttributes.injEq] at h
      rcases h with ⟨hk, hA, hS⟩ | h
      · subst hk
        refine ⟨le_refl _, b, by simp, hA, ?_⟩
        rw [hS, hA]
      · exact hrest _ h

/-- C30. When the handle enumeration succeeds, `EnableIoForwarding` returns success if and
only if for at least one discovered bridge the protocol could be opened, `GetAttributes`
succeeded, the supported-attributes word has the ISA-motherboard-I/O bit set and
`SetAttributes`, called with the current attributes OR-ed with that bit, succeeded; in every
other case, an empty bridge list included, it returns `EFI_UNSUPPORTED`. The handle buffer
is freed exactly once, and every `SetAttributes` call carries a bridge's current attributes
OR-ed with the bit. A failing enumeration returns the enumeration's own status and frees
nothing. The function of the original driver returns the same result. -/
theorem enable_forwarding_result (Locate : EFI_STATUS) (Bridges : List ROOT_BRIDGE) :
    (Locate = EFI_SUCCESS →
      ((EnableIoForwarding Locate Bridges).Status = EFI_SUCCESS ↔
        ∃ b ∈ Bridges, b.HandleProtocol = EFI_SUCCESS ∧ b.GetAttributes = EFI_SUCCESS ∧
          b.Supports &&& EFI_PCI_ATTRIBUTE_ISA_MOTHERBOARD_IO ≠ 0 ∧
          b.SetAttributes (b.Attributes ||| EFI_PCI_ATTRIBUTE_ISA_MOTHERBOARD_IO)
            = EFI_SUCCESS) ∧
      ((EnableIoForwarding Locate Bridges).Status ≠ EFI_SUCCESS →
        (EnableIoForwarding Locate Bridges).Status = EFI_UNSUPPORTED) ∧
      (EnableIoForwarding Locate Bridges).Calls.count BridgeCall.FreePoolHandleBuffer = 1 ∧
      (∀ (k Attrs : Nat) (St : EFI_STATUS),
        BridgeCall.SetAttributes k Attrs St ∈ (EnableIoForwarding Locate Bridges).Calls →
        ∃ b, Bridges.get? k = some b ∧
          Attrs = b.Attributes ||| EFI_PCI_ATTRIBUTE_ISA_MOTHERBOARD_IO ∧
          St = b.SetAttributes Attrs)) ∧
    (Locate ≠ EFI_SUCCESS →
      (EnableIoForwarding Locate Bridges).Status = Locate ∧
      (EnableIoForwarding Locate Bridges).Calls = [BridgeCall.LocateHandleBuffer Locate]) ∧
    LegacyIoDxe.EnableIoForwarding Locate Bridges = EnableIoForwarding Locate Bridges := by
  refine ⟨?_, ?_, rfl⟩
  · intro hL
    subst hL
    have hflag := forwarding_loop_flag Bridges 0 false
    have hfree := forwarding_loop_no_free Bridges 0 false
    refine ⟨?_, ?_, ?_, ?_⟩
    · unfold EnableIoForwarding
      simp only [EFI_ERROR, ne_eq, not_true_eq_false, decide_False, Bool.false_eq_true,
        if_false]
      by_cases hf : (forwardingLoop 0 false Bridges).1 = true
      · simp only [hf, if_true, true_iff]
        simpa using hflag.mp hf
      · have hno := fun h => hf (hflag.mpr (Or.inr h))
        simp only [hf, if_false, reduceCtorEq, false_iff]
        exact hno
    · unfold EnableIoForwarding
      simp only [EFI_ERROR, ne_eq, not_true_eq_false, decide_False, Bool.false_eq_true,
        if_false]
      split_ifs <;> simp
    · unfold EnableIoForwarding
      simp only [EFI_ERROR, ne_eq, not_true_eq_false, decide_False, Bool.false_eq_true,
        if_false]
      rw [List.count_cons, List.count_append, List.count_eq_zero.mpr hfree]
      simp
    · intro k Attrs St hmem
      unfold EnableIoForwarding at hmem
      simp only [EFI_ERROR, ne_eq, not_true_eq_false, decide_False, Bool.false_eq_true,
        if_false, List.mem_cons, reduceCtorEq, List.mem_append, List.mem_singleton,
        List.not_mem_nil, or_false, false_or] at hmem
      obtain ⟨_, b, hget, hrest⟩ := forwarding_loop_set_attributes Bridges 0 false k Attrs St hmem
      exact ⟨b, by simpa using hget, hrest⟩
  · intro hL
    unfold EnableIoForwarding
    simp [EFI_ERROR, hL]

/-- C30 on three bridges, the first without the capability, the second refusing
`SetAttributes`, the third accepting it: the result is success; with the first bridge alone it
is `EFI_UNSUPPORTED`; a failing enumeration returns its own status. -/
theorem enable_forwarding_result_witness :
    (EnableIoForwarding EFI_SUCCESS
        [ ⟨EFI_SUCCESS, EFI_SUCCESS, 0x0000, 0x0000, fun _ => EFI_SUCCESS⟩,
          ⟨EFI_SUCCESS, EFI_SUCCESS, 0x0001, 0x0100, fun _ => EFI_DEVICE_ERROR⟩,
          ⟨EFI_SUCCESS, EFI_SUCCESS, 0x0001, 0x0100, fun _ => EFI_SUCCESS⟩ ]).Status
      = EFI_SUCCESS ∧
    (EnableIoForwarding EFI_SUCCESS
        [ ⟨EFI_SUCCESS, EFI_SUCCESS, 0x0000, 0x0000, fun _ => EFI_SUCCESS⟩ ]).Status
      = EFI_UNSUPPORTED ∧
    (EnableIoForwarding EFI_SUCCESS
        [ ⟨EFI_SUCCESS, EFI_SUCCESS, 0x0000, 0x0000, fun _ => EFI_SUCCESS⟩ ]).Calls.count
        BridgeCall.FreePoolHandleBuffer = 1 ∧
    (EnableIoForwarding EFI_NOT_READY []).Status = EFI_NOT_READY :=
  ⟨((enable_forwarding_result EFI_SUCCESS
        [ ⟨EFI_SUCCESS, EFI_SUCCESS, 0x0000, 0x0000, fun _ => EFI_SUCCESS⟩,
          ⟨EFI_SUCCESS, EFI_SUCCESS, 0x0001, 0x0100, fun _ => EFI_DEVICE_ERROR⟩,
          ⟨EFI_SUCCESS, EFI_SUCCESS, 0x0001, 0x0100, fun _ => EFI_SUCCESS⟩ ]).1 rfl).1.mpr
      ⟨⟨EFI_SUCCESS, EFI_SUCCESS, 0x0001, 0x0100, fun _ => EFI_SUCCESS⟩, by simp,
        rfl, rfl, by decide, rfl⟩,
   ((enable_forwarding_result EFI_SUCCESS
        [ ⟨EFI_SUCCESS, EFI_SUCCESS, 0x0000, 0x0000, fun _ => EFI_SUCCESS⟩ ]).1 rfl).2.1
      (by decide),
   ((enable_forwarding_result EFI_SUCCESS
        [ ⟨EFI_SUCCESS, EFI_SUCCESS, 0x0000, 0x0000, fun _ => EFI_SUCCESS⟩ ]).1 rfl).2.2.1,
   ((enable_forwarding_result EFI_NOT_READY []).2.1 (by decide)).1⟩

/-! ## Claims about the driver entry points -/

/-- `LegacyDmaProgramChannel` on one channel leaves the record of every other channel as it
was. -/
theorem program_other_record (This : LEGACY_IO_PROTOCOL_EX) (Channel Mode : Nat)
    (DmaBuffer : Option LEGACY_DMA_BUFFER) (Count : Nat) (a : Bool) (i : Fin 8)
    (hi : Channel ≠ i.val) :
    (LegacyDmaProgramChannel This Channel Mode DmaBuffer Count a).This.DmaChannels i
      = This.DmaChannels i := by
  unfold LegacyDmaProgramChannel
  by_cases h7 : Channel > 7
  · simp [h7]
  · rw [dif_neg h7]
    have hne : i ≠ ⟨Channel, by omega⟩ := by
      intro h; apply hi; rw [h]
    cases DmaBuffer with
    | none => rfl
    | some Buf =>
      simp only
      split_ifs <;> first | rfl | simp [Function.update_noteq hne]

/-- A call that is not a `LegacyDmaProgramChannel` call on channel `c` keeps the configured
count of channel `c`. -/
theorem run_keeps_count (This : LEGACY_IO_PROTOCOL_EX) (Call : DMA_CALL) (c : Fin 8)
    (hcall : Call.isProgramOf c.val = false) :
    ((Call.run This).DmaChannels c).Count = (This.DmaChannels c).Count := by
  cases Call with
  | Program Channel Mode DmaBuffer Count a =>
    have hne : Channel ≠ c.val := by
      simpa [DMA_CALL.isProgramOf] using hcall
    simp only [DMA_CALL.run]
    rw [program_other_record This Channel Mode DmaBuffer Count a c hne]
  | Start Channel =>
    obtain ⟨b, hb⟩ := (flag_operations_keep_fields This Channel none none 0 0 0 c).1
    simp only [DMA_CALL.run]
    rw [hb]
  | Status Channel BytesRemaining IsActive s lo hi =>
    obtain ⟨b, hb⟩ :=
      (flag_operations_keep_fields This Channel BytesRemaining IsActive s lo hi c).2.1
    simp only [DMA_CALL.run]
    rw [hb]
  | Stop Channel =>
    obtain ⟨b, hb⟩ := (flag_operations_keep_fields This Channel none none 0 0 0 c).2.2
    simp only [DMA_CALL.run]
    rw [hb]

/-- A sequence of calls none of which is a `LegacyDmaProgramChannel` call on channel `c`
keeps the configured count of channel `c`. -/
theorem run_calls_keep_count (Calls : List DMA_CALL) (c : Fin 8) :
    ∀ This : LEGACY_IO_PROTOCOL_EX, (∀ Call ∈ Calls, Call.isProgramOf c.val = false) →
      ((runCalls This Calls).DmaChannels c).Count = (This.DmaChannels c).Count := by
  induction Calls with
  | nil => intro This _; rfl
  | cons Call Rest ih =>
    intro This h
    have hstep : runCalls This (Call :: Rest) = runCalls (Call.run This) Rest := rfl
    rw [hstep, ih (Call.run This) (fun C hC => h C (List.mem_cons_of_mem _ hC)),
      run_keeps_count This Call c (h Call (List.mem_cons_self _ _))]

/-- C31. Forwarding failure is non-fatal: the status returned by
`LegacyIoDxeExDriverEntryPoint` and by `LegacyIoDxeDriverEntryPoint` is the status of the
protocol installation alone, and it, like the interface installed, is the same for any two
outcomes of `EnableIoForwarding` (success, `EFI_UNSUPPORTED` or any other error). In the
extended driver all eight channel records are zero (`Count = 0`, `IsActive = FALSE`) when the
protocol is installed, so `LegacyDmaStart` returns `EFI_NOT_READY` on every channel, and keeps
doing so on a channel after any sequence of calls that does not program that channel. -/
theorem entry_point_ignores_forwarding (Locate1 Locate2 : EFI_STATUS)
    (Bridges1 Bridges2 : List ROOT_BRIDGE) (Global : LEGACY_IO_PROTOCOL_EX)
    (Original : LEGACY_IO_PROTOCOL) (Install : EFI_STATUS) :
    ((LegacyIoDxeExDriverEntryPoint Locate1 Bridges1 Global Install).Status = Install ∧
      (LegacyIoDxeExDriverEntryPoint Locate1 Bridges1 Global Install).Forwarding
        = EnableIoForwarding Locate1 Bridges1 ∧
      (LegacyIoDxeExDriverEntryPoint Locate1 Bridges1 Global Install).Status
        = (LegacyIoDxeExDriverEntryPoint Locate2 Bridges2 Global Install).Status ∧
      (LegacyIoDxeExDriverEntryPoint Locate1 Bridges1 Global Install).Interface
        = (LegacyIoDxeExDriverEntryPoint Locate2 Bridges2 Global Install).Interface) ∧
    ((LegacyIoDxe.LegacyIoDxeDriverEntryPoint Locate1 Bridges1 Original Install).Status
        = Install ∧
      (LegacyIoDxe.LegacyIoDxeDriverEntryPoint Locate1 Bridges1 Original Install).Forwarding
        = LegacyIoDxe.EnableIoForwarding Locate1 Bridges1 ∧
      (LegacyIoDxe.LegacyIoDxeDriverEntryPoint Locate1 Bridges1 Original Install).Status
        = (LegacyIoDxe.LegacyIoDxeDriverEntryPoint Locate2 Bridges2 Original Install).Status ∧
      (LegacyIoDxe.LegacyIoDxeDriverEntryPoint Locate1 Bridges1 Original Install).Interface
        = Original) ∧
    (∀ i : Fin 8,
      (LegacyIoDxeExDriverEntryPoint Locate1 Bridges1 Global Install).Interface.DmaChannels i
        = zeroChannel ∧
      ((LegacyIoDxeExDriverEntryPoint Locate1 Bridges1 Global Install).Interface.DmaChannels
        i).Count = 0 ∧
      ((LegacyIoDxeExDriverEntryPoint Locate1 Bridges1 Global Install).Interface.DmaChannels
        i).IsActive = false) ∧
    (∀ c : Fin 8,
      (LegacyDmaStart (LegacyIoDxeExDriverEntryPoint Locate1 Bridges1 Global Install).Interface
        c.val).Status = EFI_NOT_READY) ∧
    (∀ (c : Fin 8) (Calls : List DMA_CALL),
      (∀ Call ∈ Calls, Call.isProgramOf c.val = false) →
      (LegacyDmaStart
        (runCalls (LegacyIoDxeExDriverEntryPoint Locate1 Bridges1 Global Install).Interface
          Calls) c.val).Status = EFI_NOT_READY) := by
  have hEx : ∀ (L : EFI_STATUS) (B : List ROOT_BRIDGE),
      LegacyIoDxeExDriverEntryPoint L B Global Install =
        ⟨Install, EnableIoForwarding L B, { Global with DmaChannels := fun _ => zeroChannel }⟩ := by
    intro L B
    unfold LegacyIoDxeExDriverEntryPoint
    cases Install <;> simp [EFI_ERROR]
  have hOr : ∀ (L : EFI_STATUS) (B : List ROOT_BRIDGE),
      LegacyIoDxe.LegacyIoDxeDriverEntryPoint L B Original Install =
        ⟨Install, LegacyIoDxe.EnableIoForwarding L B, Original⟩ := by
    intro L B
    unfold LegacyIoDxe.LegacyIoDxeDriverEntryPoint
    cases Install <;> simp [EFI_ERROR]
  have hstart : ∀ (This : LEGACY_IO_PROTOCOL_EX) (c : Fin 8),
      (This.DmaChannels c).Count = 0 → (LegacyDmaStart This c.val).Status = EFI_NOT_READY := by
    intro This c h0
    have h7 : ¬ c.val > 7 := by omega
    unfold LegacyDmaStart
    simp only [dif_neg h7, Fin.eta, h0, if_true]
  rw [hEx Locate1 Bridges1, hEx Locate2 Bridges2, hOr Locate1 Bridges1, hOr Locate2 Bridges2]
  refine ⟨⟨rfl, rfl, rfl, rfl⟩, ⟨rfl, rfl, rfl, rfl⟩, fun i => ⟨rfl, rfl, rfl⟩, ?_, ?_⟩
  · intro c
    exact hstart _ c rfl
  · intro c Calls hCalls
    apply hstart
    rw [run_calls_keep_count Calls c _ hCalls]
    rfl

/-- C31 with the installation succeeding: the entry point returns success when forwarding
was enabled on a bridge, when no bridge supports it and when the enumeration fails; after the
entry point a start of channel 2 is refused, also after channel 5 has been programmed and
channel 2 stopped and queried. -/
theorem entry_point_ignores_forwarding_witness :
    ((EnableIoForwarding EFI_SUCCESS
        [⟨EFI_SUCCESS, EFI_SUCCESS, 0x0001, 0x0100, fun _ => EFI_SUCCESS⟩]).Status = EFI_SUCCESS ∧
      (EnableIoForwarding EFI_DEVICE_ERROR []).Status = EFI_DEVICE_ERROR ∧
      (EnableIoForwarding EFI_SUCCESS []).Status = EFI_UNSUPPORTED) ∧
    (LegacyIoDxeExDriverEntryPoint EFI_SUCCESS
        [⟨EFI_SUCCESS, EFI_SUCCESS, 0x0001, 0x0100, fun _ => EFI_SUCCESS⟩]
        mLegacyIoProtocolEx EFI_SUCCESS).Status = EFI_SUCCESS ∧
    (LegacyIoDxeExDriverEntryPoint EFI_SUCCESS
        [⟨EFI_SUCCESS, EFI_SUCCESS, 0x0001, 0x0100, fun _ => EFI_SUCCESS⟩]
        mLegacyIoProtocolEx EFI_SUCCESS).Status =
      (LegacyIoDxeExDriverEntryPoint EFI_DEVICE_ERROR [] mLegacyIoProtocolEx EFI_SUCCESS).Status ∧
    (LegacyIoDxe.LegacyIoDxeDriverEntryPoint EFI_SUCCESS [] LegacyIoDxe.mLegacyIoProtocol
        EFI_OUT_OF_RESOURCES).Status = EFI_OUT_OF_RESOURCES ∧
    (LegacyDmaStart (runCalls
        (LegacyIoDxeExDriverEntryPoint EFI_SUCCESS [] mLegacyIoProtocolEx EFI_SUCCESS).Interface
        [ DMA_CALL.Program 5 DMA_MODE_READ (some ⟨0x1000, 8, true, 0x1000⟩) 8 false,
          DMA_CALL.Stop 2, DMA_CALL.Status 2 (some 0) (some false) 0x00 0xFF 0xFF ])
        2).Status = EFI_NOT_READY :=
  ⟨by decide,
   (entry_point_ignores_forwarding EFI_SUCCESS EFI_DEVICE_ERROR
      [⟨EFI_SUCCESS, EFI_SUCCESS, 0x0001, 0x0100, fun _ => EFI_SUCCESS⟩] []
      mLegacyIoProtocolEx LegacyIoDxe.mLegacyIoProtocol EFI_SUCCESS).1.1,
   (entry_point_ignores_forwarding EFI_SUCCESS EFI_DEVICE_ERROR
      [⟨EFI_SUCCESS, EFI_SUCCESS, 0x0001, 0x0100, fun _ => EFI_SUCCESS⟩] []
      mLegacyIoProtocolEx LegacyIoDxe.mLegacyIoProtocol EFI_SUCCESS).1.2.2.1,
   (entry_point_ignores_forwarding EFI_SUCCESS EFI_SUCCESS [] []
      mLegacyIoProtocolEx LegacyIoDxe.mLegacyIoProtocol EFI_OUT_OF_RESOURCES).2.1.1,
   (entry_point_ignores_forwarding EFI_SUCCESS EFI_SUCCESS [] []
      mLegacyIoProtocolEx LegacyIoDxe.mLegacyIoProtocol EFI_SUCCESS).2.2.2.2 2
      [ DMA_CALL.Program 5 DMA_MODE_READ (some ⟨0x1000, 8, true, 0x1000⟩) 8 false,
        DMA_CALL.Stop 2, DMA_CALL.Status 2 (some 0) (some false) 0x00 0xFF 0xFF ]
      (by decide)⟩

end LegacyIoDxeEx
